import Mathlib

/-!
# dde-osd notification service: bubble queue, replace ids, do-not-disturb

A shallow embedding of `dde-osd/src/notification/bubblemanager.cpp` and of the
setting getters of `dde-osd/src/notification/notifysettings.cpp`.

Conventions of the embedding.

* A C++ `int` is a 32 bit two's complement integer: every `+`, `-`, `*` and
  `/` on `int` values is one of `addInt`, `subInt`, `mulInt`, `divInt`, which
  reduce the mathematical result to that range (`wrapInt`); `/` of C++
  truncates towards zero (`Int.tdiv`).  Positions in a `QList` and its size
  are natural numbers: a list holds far fewer than `2^31` elements.
* A `Bubble *` is a natural number (`ptr`); `m_bubbleList` is the list of the
  bubble objects it points to.  Bubbles are taken out of `m_bubbleList` before
  they are destroyed, so the `QPointer`s held by the list are never null.
* A function returns `none` where the C++ code fails a `Q_ASSERT` or reads a
  `QList` outside its bounds.
* Animations run asynchronously in the presentation layer: `startMove` and
  the other widget calls are appended to the effect log `fx`, they do not
  change `geometry` of a bubble at the time of the call.
* `constants.h` is not part of the sources: its values are the fields of
  `Constants`.
-/

namespace DdeOsd

/-! ## C++ int arithmetic -/

/-- The value that a 32 bit two's complement `int` holds for the mathematical
result `v`: what the compiled code computes, also when the arithmetic
overflows. -/
def wrapInt (v : Int) : Int := (v + 2147483648) % 4294967296 - 2147483648

/-- The number `v` is a value of the type `int`. -/
def inIntRange (v : Int) : Prop := -2147483648 ≤ v ∧ v ≤ 2147483647

instance (v : Int) : Decidable (inIntRange v) :=
  inferInstanceAs (Decidable (-2147483648 ≤ v ∧ v ≤ 2147483647))

/-- The C++ expression `a + b` on `int`. -/
def addInt (a b : Int) : Int := wrapInt (a + b)
/-- The C++ expression `a - b` on `int`. -/
def subInt (a b : Int) : Int := wrapInt (a - b)
/-- The C++ expression `a * b` on `int`. -/
def mulInt (a b : Int) : Int := wrapInt (a * b)
/-- The C++ expression `a / b` on `int`: truncation towards zero. -/
def divInt (a b : Int) : Int := wrapInt (Int.tdiv a b)

/-! ## Qt value types -/

/-- The Qt rectangle: `QRect` stores its left/top and right/bottom corners. -/
structure QRect where
  x1 : Int
  y1 : Int
  x2 : Int
  y2 : Int
deriving DecidableEq

namespace QRect

/-- The default constructed `QRect()`: a null rectangle. -/
def null : QRect := ⟨0, 0, -1, -1⟩

/-- The constructor `QRect(x, y, width, height)`. -/
def mk4 (x y w h : Int) : QRect := ⟨x, y, subInt (addInt x w) 1, subInt (addInt y h) 1⟩

def x (r : QRect) : Int := r.x1
def y (r : QRect) : Int := r.y1
/-- The `width()` of Qt: `x2 - x1 + 1`. -/
def width (r : QRect) : Int := addInt (subInt r.x2 r.x1) 1
/-- The `height()` of Qt: `y2 - y1 + 1`. -/
def height (r : QRect) : Int := addInt (subInt r.y2 r.y1) 1
/-- The `bottom()` of Qt: `top + height - 1`. -/
def bottom (r : QRect) : Int := r.y2

/-- The setter `setX` moves the left edge and keeps the right edge. -/
def setX (r : QRect) (v : Int) : QRect := { r with x1 := v }
/-- The setter `setY` moves the top edge and keeps the bottom edge. -/
def setY (r : QRect) (v : Int) : QRect := { r with y1 := v }
/-- The setter `setWidth`: `x2 = x1 + w - 1`. -/
def setWidth (r : QRect) (w : Int) : QRect := { r with x2 := subInt (addInt r.x1 w) 1 }
/-- The setter `setHeight`: `y2 = y1 + h - 1`. -/
def setHeight (r : QRect) (h : Int) : QRect := { r with y2 := subInt (addInt r.y1 h) 1 }

end QRect

/-- Does `t` occur in `s` as a contiguous substring (`QString::contains`). -/
def containsSub (s t : String) : Bool := decide (t.data <:+: s.data)

/-- The variants that the settings and the hints of a notification hold. -/
inductive QVariant where
  | invalid
  | bool (b : Bool)
  | string (s : String)
deriving DecidableEq

namespace QVariant

def isValid : QVariant → Bool
  | invalid => false
  | _ => true

/-- The conversion `QVariant::toBool`: a string is true unless its lower-case
content is empty, "0" or "false"; an invalid variant is false. -/
def toBool : QVariant → Bool
  | invalid => false
  | bool b => b
  | string s => !(s.isEmpty || s == "0" || s.toLower == "false")

def toString : QVariant → String
  | invalid => ""
  | bool b => if b then "true" else "false"
  | string s => s

end QVariant

/-- A `QTime` is its number of milliseconds since midnight, `-1` when the time
is invalid; the comparison operators of `QTime` compare that number. -/
structure QTime where
  mds : Int
deriving DecidableEq

/-- The time `hh:mm`. -/
def QTime.hm (h m : Int) : QTime := ⟨(h * 60 + m) * 60000⟩

instance : LT QTime := ⟨fun a b => a.mds < b.mds⟩
instance : LE QTime := ⟨fun a b => a.mds ≤ b.mds⟩
instance (a b : QTime) : Decidable (a < b) := inferInstanceAs (Decidable (a.mds < b.mds))
instance (a b : QTime) : Decidable (a ≤ b) := inferInstanceAs (Decidable (a.mds ≤ b.mds))

/-- The dock position `OSD::DockPosition`. -/
inductive DockPosition where
  | Top
  | Right
  | Bottom
  | Left
deriving DecidableEq

/-- The values of `constants.h` that the bubble manager uses. -/
structure Constants where
  BubbleEntities : Nat
  BubbleOverLap : Nat
  ScreenPadding : Int
  BubbleMargin : Int
  /-- The width `OSD::BubbleWidth(OSD::BUBBLEWINDOW)`. -/
  BubbleWidth : Int
  /-- The height `OSD::BubbleHeight(OSD::BUBBLEWINDOW)`. -/
  BubbleHeight : Int
  /-- The senders that count as system notifications. -/
  IgnoreList : List String
  /-- The number of values of the integer type of `m_replaceCount` (declared in
  the header): `++m_replaceCount` is taken modulo this number. -/
  counterRange : Nat
  /-- The geometry of a bubble widget that was just constructed (the
  constructor of `Bubble` is not in the sources). -/
  newBubbleGeometry : QRect

/-! ## The data model -/

/-- The notification entity, `NotificationEntity`.  The fields `replacesId`,
`ctime` and `timeout` hold `QString::number` of a number in the C++ code; the
number itself is stored here (`QString::number` is injective, so equality of
the strings is equality of the numbers, and `NoReplaceId` is the number 0). -/
structure NotificationEntity where
  appName : String
  id : Nat
  appIcon : String
  summary : String
  body : String
  actions : List String
  hints : List (String × QVariant)
  ctime : Int
  replacesId : Nat
  timeout : Int
  showPreview : Bool
  showInNotifyCenter : Bool
deriving DecidableEq

/-- The bubble widget: the object at address `ptr`. -/
structure Bubble where
  ptr : Nat
  entity : NotificationEntity
  bubbleIndex : Int
  geometry : QRect
  visible : Bool
deriving DecidableEq

/-- The widget height `QWidget::height()`. -/
def Bubble.height (b : Bubble) : Int := b.geometry.height

/-- The calls into the presentation layer and the signals, in program order. -/
inductive Effect where
  | startMove (ptr : Nat) (startRect endRect : QRect) (deleteOnFinish : Bool)
  | geometryAnimation (ptr : Nat) (startRect endRect : QRect)
  | show (ptr : Nat)
  | hide (ptr : Nat)
  | close (ptr : Nat)
  | raise (ptr : Nat)
  | deleteLater (ptr : Nat)
  | playSound
  | ShowBubble (id : Nat)
deriving DecidableEq

/-- The members of `BubbleManager` and the history sink behind
`m_persistence` (the entities handed to `addOne`, oldest first). -/
structure State where
  m_bubbleList : List Bubble
  m_oldEntities : List NotificationEntity
  m_replaceCount : Nat
  persistence : List NotificationEntity
  m_currentDisplayRect : QRect
  m_currentDockRect : QRect
  m_dockPos : DockPosition
  /-- The next address that `new Bubble` returns. -/
  nextPtr : Nat
  fx : List Effect
deriving DecidableEq

/-! ## Geometry -/

/-- The loop of `getBubbleHeightBefore`: the first `n` reads `m_bubbleList[i]`,
`i = 0 .. n-1`; a read outside the list has no result. -/
def heightBeforeLoop (l : List Bubble) : Nat → Option Int
  | 0 => some 0
  | n + 1 =>
    match heightBeforeLoop l n, l[n]? with
    | some t, some b => some (addInt t b.height)
    | _, _ => none

/-- The function `BubbleManager::getBubbleHeightBefore(index)`. -/
def getBubbleHeightBefore (s : State) (index : Int) : Option Int :=
  heightBeforeLoop s.m_bubbleList index.toNat

/-- The first branch of `getBubbleGeometry`, `0 <= index <= BubbleEntities - 1`. -/
def entityRect (c : Constants) (s : State) (index : Int) : Option QRect :=
  match getBubbleHeightBefore s index with
  | none => none
  | some h =>
    let y := if s.m_dockPos = DockPosition.Top then s.m_currentDockRect.bottom
             else s.m_currentDisplayRect.y
    let rect := QRect.null
    let rect := rect.setX (addInt s.m_currentDisplayRect.x
                  (divInt (subInt s.m_currentDisplayRect.width c.BubbleWidth) 2))
    let rect := rect.setY
      (addInt (addInt (addInt y c.ScreenPadding) (mulInt index c.BubbleMargin)) h)
    let rect := rect.setWidth c.BubbleWidth
    let rect := rect.setHeight c.BubbleHeight
    some rect

/-- The second branch of `getBubbleGeometry`: the rectangle of an overlapped
bubble, from the rectangle `rect` of the bubble before it. -/
def overlapRect (rect : QRect) : QRect :=
  let x := addInt rect.x (divInt rect.width 20)
  let y := addInt rect.y (divInt rect.height 3)
  let width := divInt (mulInt rect.width 18) 20
  let height := divInt (mulInt rect.height 19) 20
  (((rect.setX x).setY y).setWidth width).setHeight height

/-- The function `getBubbleGeometry` at an index that is not negative. -/
def getBubbleGeometryNat (c : Constants) (s : State) : Nat → Option QRect
  | 0 =>
    -- with no entity slot, index 0 takes the second branch and asks for index -1
    if 1 ≤ c.BubbleEntities then entityRect c s 0 else none
  | n + 1 =>
    if c.BubbleEntities + c.BubbleOverLap < n + 1 then none   -- Q_ASSERT
    else if n + 1 + 1 ≤ c.BubbleEntities then entityRect c s ((n + 1 : Nat) : Int)
    else (getBubbleGeometryNat c s n).map overlapRect

/-- The function `BubbleManager::getBubbleGeometry(index)`; `none` when
`Q_ASSERT(index >= 0 && index <= BubbleEntities + BubbleOverLap)` fails or a
bubble outside the list is read. -/
def getBubbleGeometry (c : Constants) (s : State) (index : Int) : Option QRect :=
  if index < 0 then none else getBubbleGeometryNat c s index.toNat

/-- The loop of `getLastStableRect`, for `i` from `n` down to 1. -/
def lastStableLoop (c : Constants) (s : State) : Nat → QRect → Option QRect
  | 0, rect => some rect
  | i + 1, rect =>
    match s.m_bubbleList[i + 1]? with
    | none => lastStableLoop c s i rect          -- i >= m_bubbleList.size()
    | some b =>
      match getBubbleGeometry c s ((i + 1 : Nat) : Int) with
      | none => none
      | some g =>
        if b.geometry ≠ g then lastStableLoop c s i rect
        else lastStableLoop c s i g

/-- The function `BubbleManager::getLastStableRect(index)`. -/
def getLastStableRect (c : Constants) (s : State) (index : Int) : Option QRect :=
  match getBubbleGeometry c s 0 with
  | none => none
  | some rect => lastStableLoop c s (index - 1).toNat rect

/-! ## The bubble queue -/

/-- The index `m_bubbleList.indexOf(bubble)`, `none` for -1. -/
def indexOf : List Bubble → Nat → Option Nat
  | [], _ => none
  | b :: l, p => if b.ptr = p then some 0 else (indexOf l p).map (· + 1)

/-- The call `m_bubbleList.removeOne(bubble)`: the first occurrence goes. -/
def removeOne : List Bubble → Nat → List Bubble
  | [], _ => []
  | b :: l, p => if b.ptr = p then l else b :: removeOne l p

/-- The lists `l` and `k` hold the same bubble objects in the same order, with
the same bound entities and the same current rectangles (the stored index and
the visibility may differ). -/
def sameBubbles (l k : List Bubble) : Prop :=
  k.map (fun b => (b.ptr, b.entity, b.geometry)) = l.map (fun b => (b.ptr, b.entity, b.geometry))

/-- The function `BubbleManager::createBubble(notify, index)`: the new bubble
and the state after the geometry queries and widget calls. -/
def createBubble (c : Constants) (s : State) (notify : NotificationEntity)
    (index : Int) : Option (Bubble × State) :=
  let last : Int := (c.BubbleEntities + c.BubbleOverLap : Nat)
  let ptr := s.nextPtr
  if index ≠ 0 then do
    let startRect ← getBubbleGeometry c s last
    let endRect ← getBubbleGeometry c s (last - 1)
    let bubble : Bubble := ⟨ptr, notify, last - 1, c.newBubbleGeometry, false⟩
    some (bubble, { s with nextPtr := ptr + 1,
                           fx := s.fx ++ [Effect.startMove ptr startRect endRect false] })
  else do
    let endRect ← getBubbleGeometry c s 0
    let startRect := endRect.setHeight 1
    let bubble : Bubble := ⟨ptr, notify, 0, c.newBubbleGeometry, true⟩
    some (bubble, { s with nextPtr := ptr + 1,
                           fx := s.fx ++ [Effect.show ptr,
                                          Effect.geometryAnimation ptr startRect endRect] })

/-- One round of the `while` loop of `pushAnimation`, `index` already
incremented. -/
def pushAnimationStep (c : Constants) (s : State) (index : Nat) : Option State := do
  let startRect ← getLastStableRect c s ((index : Int) - 1)
  let endRect ← getBubbleGeometry c s index
  let item ← s.m_bubbleList[index]?
  let startRect := if item.geometry ≠ endRect then item.geometry else startRect
  some { s with m_bubbleList := s.m_bubbleList.set index { item with bubbleIndex := index },
                fx := s.fx ++ [Effect.startMove item.ptr startRect endRect false] }

/-- The `while (index < m_bubbleList.size() - 1)` loop of `pushAnimation`; the
list keeps its size in the loop, so it runs `k = size - 1 - index` rounds. -/
def pushAnimationLoop (c : Constants) : Nat → Nat → State → Option State
  | 0, _, s => some s
  | k + 1, index, s =>
    match pushAnimationStep c s (index + 1) with
    | none => none
    | some s1 => pushAnimationLoop c k (index + 1) s1

/-- The function `BubbleManager::pushAnimation(bubble)`. -/
def pushAnimation (c : Constants) (s : State) (bubble : Nat) : Option State :=
  match indexOf s.m_bubbleList bubble with
  | none => some s
  | some index => pushAnimationLoop c (s.m_bubbleList.length - 1 - index) index s

/-- The function `BubbleManager::pushBubble(notify)`. -/
def pushBubble (c : Constants) (s : State) (notify : NotificationEntity) : Option State := do
  let (bubble, s1) ← createBubble c s notify 0
  let s2 ←
    if s1.m_bubbleList.length = c.BubbleEntities + c.BubbleOverLap then
      match s1.m_bubbleList.getLast? with
      | none => none                          -- `last()` of an empty list
      | some last =>
        some { s1 with m_oldEntities := last.entity :: s1.m_oldEntities,
                       m_bubbleList := s1.m_bubbleList.dropLast,
                       fx := s1.fx ++ [Effect.hide last.ptr, Effect.deleteLater last.ptr] }
    else some s1
  pushAnimation c { s2 with m_bubbleList := bubble :: s2.m_bubbleList } bubble.ptr

/-- The function `BubbleManager::refreshBubble()`. -/
def refreshBubble (c : Constants) (s : State) : Option State :=
  if s.m_bubbleList.length < c.BubbleEntities + c.BubbleOverLap + 1 then
    match s.m_oldEntities with
    | [] => some s
    | notify :: rest => do
      let (bubble, s1) ← createBubble c { s with m_oldEntities := rest } notify
        (((c.BubbleEntities + c.BubbleOverLap : Nat) : Int) - 1)
      some { s1 with m_bubbleList := s1.m_bubbleList ++ [bubble] }
  else some s

/-- One round of the `while` loop of `popAnimation`, `index` already
incremented. -/
def popAnimationStep (c : Constants) (s : State) (index : Nat) : Option State := do
  let startRect ← getBubbleGeometry c s index
  let endRect ← getBubbleGeometry c s ((index : Int) - 1)
  let item ← s.m_bubbleList[index]?
  let shown : Bool := index = c.BubbleEntities + c.BubbleOverLap
  let startRect := if item.geometry ≠ endRect then item.geometry else startRect
  some { s with m_bubbleList := s.m_bubbleList.set index
                  { item with bubbleIndex := index, visible := shown || item.visible },
                fx := s.fx ++ (if shown then [Effect.show item.ptr] else [])
                        ++ [Effect.startMove item.ptr startRect endRect false] }

/-- The `while` loop of `popAnimation`, `k = size - 1 - index` rounds. -/
def popAnimationLoop (c : Constants) : Nat → Nat → State → Option State
  | 0, _, s => some s
  | k + 1, index, s =>
    match popAnimationStep c s (index + 1) with
    | none => none
    | some s1 => popAnimationLoop c k (index + 1) s1

/-- The function `BubbleManager::popAnimation(bubble)`. -/
def popAnimation (c : Constants) (s : State) (bubble : Nat) : Option State :=
  match indexOf s.m_bubbleList bubble with
  | none => some s
  | some index => do
    let startRect ← getBubbleGeometry c s index
    let endRect ← getBubbleGeometry c s 0
    let s1 := { s with fx := s.fx ++ [Effect.startMove bubble startRect endRect true] }
    let s2 ← popAnimationLoop c (s1.m_bubbleList.length - 1 - index) index s1
    some { s2 with fx := s2.fx ++ s2.m_bubbleList.reverse.map (fun b => Effect.raise b.ptr) }

/-- The function `BubbleManager::popBubble(bubble)`. -/
def popBubble (c : Constants) (s : State) (bubble : Nat) : Option State := do
  let s1 ← refreshBubble c s
  let s2 ← popAnimation c s1 bubble
  some { s2 with m_bubbleList := removeOne s2.m_bubbleList bubble }

/-! ## Settings and do-not-disturb -/

/-- The configuration items of one application, `NotifySettings::AppConfigurationItem`. -/
inductive AppConfigurationItem where
  | APPNAME
  | APPICON
  | ENABELNOTIFICATION
  | ENABELPREVIEW
  | ENABELSOUND
  | SHOWINNOTIFICATIONCENTER
  | LOCKSCREENSHOWNOTIFICATION
  | SHOWONTOP
deriving DecidableEq

/-- The system wide items, `NotifySettings::SystemConfigurationItem`. -/
inductive SystemConfigurationItem where
  | DNDMODE
  | LOCKSCREENOPENDNDMODE
  | OPENBYTIMEINTERVAL
  | STARTTIME
  | ENDTIME
  | SHOWICON
deriving DecidableEq

/-- What the bubble manager reads from its collaborators during one call. -/
structure Env where
  /-- The call came over D-Bus and the OEM key `notifycationClosed` is set. -/
  notifycationClosed : Bool
  /-- The result of `useBuiltinBubble()`. -/
  useBuiltinBubble : Bool
  /-- The result of `m_displayInter->isValid()`. -/
  displayValid : Bool
  /-- The result of `m_userInter->locked()`. -/
  locked : Bool
  /-- The time `QTime::fromString(QDateTime::currentDateTime().toString("hh:mm"))`. -/
  currentTime : QTime
  /-- The clock `QDateTime::currentMSecsSinceEpoch()`. -/
  currentMSecs : Int
  /-- The GSettings of an application: application id, then key. -/
  appSettings : String → String → QVariant
  /-- The keys of the GSettings schema of an application. -/
  appKeys : String → List String
  /-- The system GSettings `com.deepin.dde.notifications`. -/
  systemSettings : String → QVariant
  /-- The parser `QTime::fromString`. -/
  timeFromString : String → QTime

/-- The function `NotifySettings::containsAppSettings` for the key
`show-on-top`, whose `qtify_name` is `showOnTop`. -/
def containsShowOnTop (env : Env) (id : String) : Bool :=
  (env.appKeys id).contains "showOnTop"

/-- The function `NotifySettings::getAppSetting(id, item)`. -/
def getAppSetting (env : Env) (id : String) (item : AppConfigurationItem) : QVariant :=
  let newid := if id.isEmpty then "empty-app" else id
  match item with
  | .APPNAME => env.appSettings newid "app-name"
  | .APPICON => env.appSettings newid "app-icon"
  | .ENABELNOTIFICATION => env.appSettings newid "enable-notification"
  | .ENABELPREVIEW => env.appSettings newid "enable-preview"
  | .ENABELSOUND => env.appSettings newid "enable-sound"
  | .SHOWINNOTIFICATIONCENTER => env.appSettings newid "show-in-notification-center"
  | .LOCKSCREENSHOWNOTIFICATION => env.appSettings newid "lockscreen-show-notification"
  | .SHOWONTOP =>
    if containsShowOnTop env newid then env.appSettings newid "show-on-top"
    else QVariant.invalid

/-- The function `NotifySettings::getSystemSetting(item)`. -/
def getSystemSetting (env : Env) (item : SystemConfigurationItem) : QVariant :=
  match item with
  | .DNDMODE => env.systemSettings "dndmode"
  | .LOCKSCREENOPENDNDMODE => env.systemSettings "lockscreen-open-dndmode"
  | .OPENBYTIMEINTERVAL => env.systemSettings "open-by-time-interval"
  | .STARTTIME => env.systemSettings "start-time"
  | .ENDTIME => env.systemSettings "end-time"
  | .SHOWICON => env.systemSettings "show-icon"

/-- The time test of `isDoNotDisturb`: the value of its local `dndMode` before
the last `if`. -/
def dndWindow (startTime endTime currentTime : QTime) : Bool :=
  if startTime < endTime then
    decide (startTime ≤ currentTime) && decide (endTime ≥ currentTime)
  else if startTime > endTime then
    decide (startTime ≤ currentTime) || decide (endTime ≥ currentTime)
  else true

/-- The function `BubbleManager::isDoNotDisturb()`. -/
def isDoNotDisturb (env : Env) : Bool :=
  if !(getSystemSetting env .DNDMODE).toBool then false
  else if !(getSystemSetting env .OPENBYTIMEINTERVAL).toBool
      && !(getSystemSetting env .LOCKSCREENOPENDNDMODE).toBool then true
  else
    let lockScreen := env.locked
    if (getSystemSetting env .LOCKSCREENOPENDNDMODE).toBool && lockScreen then true
    else
      let currentTime := env.currentTime
      let startTime := env.timeFromString (getSystemSetting env .STARTTIME).toString
      let endTime := env.timeFromString (getSystemSetting env .ENDTIME).toString
      let dndMode := dndWindow startTime endTime currentTime
      if dndMode && (getSystemSetting env .OPENBYTIMEINTERVAL).toBool then dndMode
      else false

/-! ## Submission -/

/-- The test of `calcReplaceId`: same `replacesId` and same `appName`. -/
def matchesNotify (e notify : NotificationEntity) : Bool :=
  e.replacesId == notify.replacesId && e.appName == notify.appName

/-- The first loop of `calcReplaceId`, over the bubbles from position `i` on:
the list after the loop, the history sink and the flag `find`. -/
def replaceLive (notify : NotificationEntity) :
    List Bubble → List NotificationEntity → Bool → List Bubble × List NotificationEntity × Bool
  | [], pers, find => ([], pers, find)
  | b :: rest, pers, find =>
    if matchesNotify b.entity notify then
      let r := replaceLive notify rest (pers ++ [b.entity]) true
      ({ b with entity := notify } :: r.1, r.2.1, r.2.2)
    else
      let r := replaceLive notify rest pers find
      (b :: r.1, r.2.1, r.2.2)

/-- The second loop of `calcReplaceId`:
`for (i = 0; i < m_oldEntities.size(); ++i) if (match at i) removeAt(i)`;
at most `fuel` rounds, the size of the list at the start is enough. -/
def removeStale (notify : NotificationEntity) :
    Nat → Nat → List NotificationEntity → List NotificationEntity
  | 0, _, l => l
  | fuel + 1, i, l =>
    match l[i]? with
    | none => l
    | some e =>
      if matchesNotify e notify then removeStale notify fuel (i + 1) (l.eraseIdx i)
      else removeStale notify fuel (i + 1) l

/-- The function `BubbleManager::calcReplaceId(notify)`: the result `find`,
the entity `notify` after the call and the state after the call. -/
def calcReplaceId (c : Constants) (s : State) (notify : NotificationEntity) :
    Bool × NotificationEntity × State :=
  if notify.replacesId = 0 then
    let count := (s.m_replaceCount + 1) % c.counterRange
    (false, { notify with id := count, replacesId := count }, { s with m_replaceCount := count })
  else
    let r := replaceLive notify s.m_bubbleList s.persistence false
    (r.2.2, notify,
      { s with m_bubbleList := r.1, persistence := r.2.1,
               m_oldEntities := removeStale notify s.m_oldEntities.length 0 s.m_oldEntities })

/-- The arguments of `Notify`. -/
structure NotifyArgs where
  appName : String
  replacesId : Nat
  appIcon : String
  summary : String
  body : String
  actions : List String
  hints : List (String × QVariant)
  expireTimeout : Int

/-- The replacement of two backslashes by one, `strBody.replace`. -/
def unescapeChars : List Char → List Char
  | '\\' :: '\\' :: rest => '\\' :: unescapeChars rest
  | ch :: rest => ch :: unescapeChars rest
  | [] => []

/-- The call `m_persistence->addOne(entity)`. -/
def addOne (s : State) (e : NotificationEntity) : State :=
  { s with persistence := s.persistence ++ [e] }

/-- The call `DDesktopServices::playSystemSoundEffect(SSE_Notifications)`. -/
def playSystemSoundEffect (s : State) : State :=
  { s with fx := s.fx ++ [Effect.playSound] }

/-- The signal `ShowBubble`. -/
def emitShowBubble (s : State) (id : Nat) : State :=
  { s with fx := s.fx ++ [Effect.ShowBubble id] }

/-- The guards at the head of `Notify` that make it return 0 at once. -/
def suppressed (c : Constants) (env : Env) (a : NotifyArgs) : Bool :=
  env.notifycationClosed
  || (env.useBuiltinBubble && !env.displayValid)
  || (!(getAppSetting env a.appName .ENABELNOTIFICATION).toBool && !c.IgnoreList.contains a.appName)

/-- The sound part of `Notify`. -/
def notifySound (s : State) (a : NotifyArgs) (playsound dndmode systemNotification : Bool) :
    State :=
  let s1 :=
    if playsound && !dndmode then
      if a.actions.contains "cancel" then
        match a.hints.lookup "x-deepin-action-_view" with
        | some v => if containsSub v.toString "xdg-open" then playSystemSoundEffect s else s
        | none => s
      else playSystemSoundEffect s
    else s
  if systemNotification && dndmode then playSystemSoundEffect s1 else s1

/-- The entity that `Notify` builds from its arguments, after `setShowPreview`
and `setShowInNotifyCenter`. -/
def newNotification (c : Constants) (env : Env) (a : NotifyArgs) : NotificationEntity :=
  let strBody := String.mk (unescapeChars a.body.data)
  let notification : NotificationEntity :=
    ⟨a.appName, 0, a.appIcon, a.summary, strBody, a.actions, a.hints,
      env.currentMSecs, a.replacesId, a.expireTimeout, true, true⟩
  let systemNotification := c.IgnoreList.contains notification.appName
  let enablePreview :=
    if systemNotification then true
    else (getAppSetting env a.appName .ENABELPREVIEW).toBool
  let showInNotifyCenter :=
    if systemNotification then true
    else (getAppSetting env a.appName .SHOWINNOTIFICATIONCENTER).toBool
  { notification with showPreview := enablePreview, showInNotifyCenter := showInNotifyCenter }

/-- The two ways of `Notify` to show a bubble: `pushBubble` with the built-in
bubbles, the signal `ShowBubble` otherwise. -/
def displayBubble (c : Constants) (env : Env) (s : State) (notification : NotificationEntity) :
    Option State :=
  if env.useBuiltinBubble then pushBubble c s notification
  else some (emitShowBubble s notification.id)

/-- The body of `Notify` behind its three guards. -/
def notifyAccepted (c : Constants) (env : Env) (s : State) (a : NotifyArgs) :
    Option (Nat × State) :=
  let enableNotificaion := (getAppSetting env a.appName .ENABELNOTIFICATION).toBool
  let notification := newNotification c env a
  let showInNotifyCenter := notification.showInNotifyCenter
  let dndmode := isDoNotDisturb env
  let systemNotification := c.IgnoreList.contains notification.appName
  let lockscree := env.locked
  let playsound :=
    if systemNotification then true
    else (getAppSetting env a.appName .ENABELSOUND).toBool
  let lockscreeshow :=
    if systemNotification then true
    else (getAppSetting env a.appName .LOCKSCREENSHOWNOTIFICATION).toBool
  let s := notifySound s a playsound dndmode systemNotification
  let r := calcReplaceId c s notification
  let find := r.1
  let notification := r.2.1
  let s := r.2.2
  let after : Option State :=
    if !find then
      if systemNotification then
        displayBubble c env (if showInNotifyCenter then addOne s notification else s) notification
      else if lockscree && !lockscreeshow then
        some (if showInNotifyCenter then addOne s notification else s)
      else if !systemNotification && !dndmode && enableNotificaion then
        displayBubble c env (if showInNotifyCenter then addOne s notification else s) notification
      else some (if showInNotifyCenter then addOne s notification else s)
    else if !env.useBuiltinBubble then
      some (emitShowBubble (if showInNotifyCenter then addOne s notification else s)
              notification.id)
    else some s
  after.map (fun s1 => (if a.replacesId = 0 then notification.id else a.replacesId, s1))

/-- The function `BubbleManager::Notify`: the returned id and the state after
the call. -/
def Notify (c : Constants) (env : Env) (s : State) (a : NotifyArgs) : Option (Nat × State) :=
  if env.notifycationClosed then some (0, s)
  else if env.useBuiltinBubble && !env.displayValid then some (0, s)
  else if !(getAppSetting env a.appName .ENABELNOTIFICATION).toBool
      && !c.IgnoreList.contains a.appName then some (0, s)
  else notifyAccepted c env s a

/-- A sequence of `Notify` calls, each with the environment of its time: the
state after the last call and the returned ids in order. -/
def runNotify (c : Constants) : State → List (Env × NotifyArgs) → Option (State × List Nat)
  | s, [] => some (s, [])
  | s, (env, a) :: rest =>
    match Notify c env s a with
    | none => none
    | some (id, t) => (runNotify c t rest).map (fun r => (r.1, id :: r.2))

/-- The fresh-id property in the words of the specification: every submission
with `replacesId == 0` returns an id greater than the id of every earlier
submission with `replacesId == 0`. -/
def freshIdsIncrease (subs : List (Env × NotifyArgs)) (ids : List Nat) : Prop :=
  ∀ (i j : Nat) (si sj : Env × NotifyArgs) (idi idj : Nat), i < j → subs[i]? = some si → subs[j]? = some sj →
    ids[i]? = some idi → ids[j]? = some idj →
    si.2.replacesId = 0 → sj.2.replacesId = 0 → idi < idj

/-- The fresh-id property for the submissions that pass the guards of `Notify`. -/
def acceptedFreshIdsIncrease (c : Constants) (subs : List (Env × NotifyArgs))
    (ids : List Nat) : Prop :=
  ∀ (i j : Nat) (si sj : Env × NotifyArgs) (idi idj : Nat), i < j → subs[i]? = some si → subs[j]? = some sj →
    ids[i]? = some idi → ids[j]? = some idj →
    si.2.replacesId = 0 → sj.2.replacesId = 0 → suppressed c sj.1 sj.2 = false → idi < idj

/-! ## The D-Bus getters of the configuration items -/

/-- The enumerators behind the `uint` item of the D-Bus methods: the value
`static_cast` gives, `none` for a number that is no enumerator.  The enums are
declared in `notifysettings.h`, which is not in the sources. -/
structure ItemCast where
  appItem : Nat → Option AppConfigurationItem
  systemItem : Nat → Option SystemConfigurationItem

/-- The function `NotifySettings::getAppSetting` behind the cast of
`GetAppInfo`: a number that is no enumerator meets no `case` of the `switch`
and the default constructed `QVariant` is returned. -/
def getAppSettingCast (k : ItemCast) (env : Env) (id : String) (item : Nat) : QVariant :=
  match k.appItem item with
  | some it => getAppSetting env id it
  | none => QVariant.invalid

/-- The function `NotifySettings::getSystemSetting` behind the cast of
`GetSystemInfo`. -/
def getSystemSettingCast (k : ItemCast) (env : Env) (item : Nat) : QVariant :=
  match k.systemItem item with
  | some it => getSystemSetting env it
  | none => QVariant.invalid

/-- The error names of `sendErrorReply`. -/
inductive QDBusError where
  | NotSupported
deriving DecidableEq

/-- What a D-Bus method leaves: the error reply it sent, if any, and the
variant it returns. -/
structure Reply where
  error : Option QDBusError
  value : QVariant
deriving DecidableEq

/-- The function `BubbleManager::GetAppInfo(id, item)`. -/
def GetAppInfo (k : ItemCast) (env : Env) (id : String) (item : Nat) : Reply :=
  let tmp := getAppSettingCast k env id item
  if !tmp.isValid then ⟨some QDBusError.NotSupported, QVariant.invalid⟩
  else ⟨none, tmp⟩

/-- The function `BubbleManager::GetSystemInfo(item)`. -/
def GetSystemInfo (k : ItemCast) (env : Env) (item : Nat) : Reply :=
  let tmp := getSystemSettingCast k env item
  if !tmp.isValid then ⟨some QDBusError.NotSupported, QVariant.invalid⟩
  else ⟨none, tmp⟩

/-! ## Sounds, routing and identities -/

/-- The number of `playSystemSoundEffect` calls so far. -/
def soundCount (s : State) : Nat := s.fx.count Effect.playSound

/-- The sound decision of `Notify` in the words of the specification. -/
def soundDecision (c : Constants) (env : Env) (a : NotifyArgs) : Bool :=
  let system := c.IgnoreList.contains a.appName
  let soundOn := system || (getAppSetting env a.appName .ENABELSOUND).toBool
  let dnd := isDoNotDisturb env
  let viewOpens :=
    match a.hints.lookup "x-deepin-action-_view" with
    | some v => containsSub v.toString "xdg-open"
    | none => false
  (soundOn && !dnd && (!a.actions.contains "cancel" || viewOpens)) || (system && dnd)

/-- The state of an accepted submission after the sound part of `Notify`. -/
def afterSound (c : Constants) (env : Env) (s : State) (a : NotifyArgs) : State :=
  notifySound s a
    (if c.IgnoreList.contains a.appName then true
      else (getAppSetting env a.appName .ENABELSOUND).toBool)
    (isDoNotDisturb env) (c.IgnoreList.contains a.appName)

/-- The result of `calcReplaceId(notification)` in an accepted submission: the
flag `find`, the entity and the state. -/
def afterReplace (c : Constants) (env : Env) (s : State) (a : NotifyArgs) :
    Bool × NotificationEntity × State :=
  calcReplaceId c (afterSound c env s a) (newNotification c env a)

/-- The state of an accepted submission after `m_persistence->addOne`, which
every branch of `Notify` that archives the new notification runs under
`showInNotifyCenter`. -/
def afterHistory (c : Constants) (env : Env) (s : State) (a : NotifyArgs) : State :=
  if (newNotification c env a).showInNotifyCenter then
    addOne (afterReplace c env s a).2.2 (afterReplace c env s a).2.1
  else (afterReplace c env s a).2.2

/-- The second loop of `calcReplaceId` as a recursion over the list from the
current position on: a matching entry is removed and the entry behind it moves
into its position, which the `++i` of the loop then steps over. -/
def skipRemove (notify : NotificationEntity) : List NotificationEntity → List NotificationEntity
  | [] => []
  | e :: rest =>
    if matchesNotify e notify then
      match rest with
      | [] => []
      | e2 :: rest2 => e2 :: skipRemove notify rest2
    else e :: skipRemove notify rest

/-- The branch of `Notify` under `if (!calcReplaceId(notification))`, for the
entity `notification` and the state `s` that `calcReplaceId` leaves. -/
def routeNotification (c : Constants) (env : Env) (a : NotifyArgs) (s : State)
    (notification : NotificationEntity) : Option State :=
  let enableNotificaion := (getAppSetting env a.appName .ENABELNOTIFICATION).toBool
  let showInNotifyCenter := notification.showInNotifyCenter
  let dndmode := isDoNotDisturb env
  let systemNotification := c.IgnoreList.contains a.appName
  let lockscree := env.locked
  let lockscreeshow :=
    if systemNotification then true
    else (getAppSetting env a.appName .LOCKSCREENSHOWNOTIFICATION).toBool
  if systemNotification then
    displayBubble c env (if showInNotifyCenter then addOne s notification else s) notification
  else if lockscree && !lockscreeshow then
    some (if showInNotifyCenter then addOne s notification else s)
  else if !systemNotification && !dndmode && enableNotificaion then
    displayBubble c env (if showInNotifyCenter then addOne s notification else s) notification
  else some (if showInNotifyCenter then addOne s notification else s)

/-- The condition under which `Notify` shows a bubble, in the words of the
specification: a system sender, or else do-not-disturb off and not a locked
screen with the lock-screen switch of the application off. -/
def bubbleShown (c : Constants) (env : Env) (a : NotifyArgs) : Bool :=
  c.IgnoreList.contains a.appName
  || (!isDoNotDisturb env
      && !(env.locked && !(getAppSetting env a.appName .LOCKSCREENSHOWNOTIFICATION).toBool))

/-- The states `s` and `t` show the same bubbles, with the same current
rectangles, on the same display with the same dock. -/
def sameScene (s t : State) : Prop :=
  sameBubbles s.m_bubbleList t.m_bubbleList
    ∧ t.m_currentDisplayRect = s.m_currentDisplayRect
    ∧ t.m_currentDockRect = s.m_currentDockRect
    ∧ t.m_dockPos = s.m_dockPos

/-- The identity that `calcReplaceId` compares: `replacesId` and `appName`. -/
def entityKey (e : NotificationEntity) : Nat × String := (e.replacesId, e.appName)

/-- The identities of the notifications of the live queue and of the overflow
list. -/
def tracked (s : State) : List (Nat × String) :=
  s.m_bubbleList.map (fun b => entityKey b.entity) ++ s.m_oldEntities.map entityKey

/-- The manager after construction: no bubble, no overflow, counter 0. -/
def emptyManager (display dock : QRect) (pos : DockPosition) : State :=
  ⟨[], [], 0, [], display, dock, pos, 0, []⟩

/-- The states that `Notify` submissions (any arguments, any environment) and
`popBubble` calls that complete reach from the empty manager. -/
inductive Reachable (c : Constants) : State → Prop where
  | init (display dock : QRect) (pos : DockPosition) :
      Reachable c (emptyManager display dock pos)
  | notify {s t : State} (env : Env) (a : NotifyArgs) (id : Nat) :
      Reachable c s → Notify c env s a = some (id, t) → Reachable c t
  | pop {s t : State} (bubble : Nat) :
      Reachable c s → popBubble c s bubble = some t → Reachable c t

/-- The states reached when every submission carries `replacesId` 0 or an id
that the counter has already allocated, and the counter stays inside its
range. -/
inductive ReachableAllocated (c : Constants) : State → Prop where
  | init (display dock : QRect) (pos : DockPosition) :
      ReachableAllocated c (emptyManager display dock pos)
  | notify {s t : State} (env : Env) (a : NotifyArgs) (id : Nat) :
      ReachableAllocated c s → a.replacesId ≤ s.m_replaceCount →
      s.m_replaceCount + 1 < c.counterRange →
      Notify c env s a = some (id, t) → ReachableAllocated c t
  | pop {s t : State} (bubble : Nat) :
      ReachableAllocated c s → popBubble c s bubble = some t → ReachableAllocated c t

/-! ## Closing notifications -/

/-- One round of the first `foreach` of `CloseNotification`, for the bubble
`bubble` of the copy of the queue that `foreach` iterates. -/
def closeBubbleStep (id : Nat) (s : State) (bubble : Bubble) : State :=
  if bubble.entity.replacesId = id then
    { s with m_bubbleList := removeOne s.m_bubbleList bubble.ptr,
             fx := s.fx ++ [Effect.close bubble.ptr] }
  else s

/-- One round of the second `foreach` of `CloseNotification`, for the entity
`notify` of the copy of the overflow list. -/
def closeEntityStep (id : Nat) (s : State) (notify : NotificationEntity) : State :=
  if notify.replacesId = id then { s with m_oldEntities := s.m_oldEntities.erase notify }
  else s

/-- The function `BubbleManager::CloseNotification(id)`.  Each `foreach` runs
over a copy of its container taken before the loop, `removeOne` works on the
member. -/
def CloseNotification (s : State) (id : Nat) : State :=
  let s1 := s.m_bubbleList.foldl (closeBubbleStep id) s
  s1.m_oldEntities.foldl (closeEntityStep id) s1

/-- One round of the loop of `popAllBubblesImmediately`. -/
def popAllStep (s : State) (bubble : Bubble) : State :=
  let s1 := if bubble.entity.showInNotifyCenter then addOne s bubble.entity else s
  { s1 with fx := s1.fx ++ [Effect.hide bubble.ptr, Effect.close bubble.ptr] }

/-- The function `BubbleManager::popAllBubblesImmediately()`. -/
def popAllBubblesImmediately (s : State) : State :=
  let s1 := s.m_bubbleList.foldl popAllStep s
  { s1 with m_bubbleList := [] }

/-! ## Runs of the service -/

/-- The states that `pushBubble` and `popBubble` of a bubble of the live queue
reach from the empty manager. -/
inductive ReachableQueue (c : Constants) : State → Prop where
  | init (display dock : QRect) (pos : DockPosition) :
      ReachableQueue c (emptyManager display dock pos)
  | push {s t : State} (notify : NotificationEntity) :
      ReachableQueue c s → pushBubble c s notify = some t → ReachableQueue c t
  | pop {s t : State} (bubble : Nat) :
      ReachableQueue c s → bubble ∈ s.m_bubbleList.map Bubble.ptr →
      popBubble c s bubble = some t → ReachableQueue c t

/-- The states that `Notify`, `popBubble` of a bubble of the live queue,
`CloseNotification` and `popAllBubblesImmediately` reach from the empty
manager. -/
inductive ReachableService (c : Constants) : State → Prop where
  | init (display dock : QRect) (pos : DockPosition) :
      ReachableService c (emptyManager display dock pos)
  | notify {s t : State} (env : Env) (a : NotifyArgs) (id : Nat) :
      ReachableService c s → Notify c env s a = some (id, t) → ReachableService c t
  | pop {s t : State} (bubble : Nat) :
      ReachableService c s → bubble ∈ s.m_bubbleList.map Bubble.ptr →
      popBubble c s bubble = some t → ReachableService c t
  | close {s : State} (id : Nat) :
      ReachableService c s → ReachableService c (CloseNotification s id)
  | popAll {s : State} :
      ReachableService c s → ReachableService c (popAllBubblesImmediately s)

/-- The states that `Notify` and `popBubble` of a bubble of the live queue reach
from the empty manager. -/
inductive ReachableShown (c : Constants) : State → Prop where
  | init (display dock : QRect) (pos : DockPosition) :
      ReachableShown c (emptyManager display dock pos)
  | notify {s t : State} (env : Env) (a : NotifyArgs) (id : Nat) :
      ReachableShown c s → Notify c env s a = some (id, t) → ReachableShown c t
  | pop {s t : State} (bubble : Nat) :
      ReachableShown c s → bubble ∈ s.m_bubbleList.map Bubble.ptr →
      popBubble c s bubble = some t → ReachableShown c t

/-- A call into the service. -/
inductive Operation where
  | notify (env : Env) (a : NotifyArgs)
  | pop (bubble : Nat)
  | close (id : Nat)
  | popAll

/-- The state after one call; `none` when the call does not complete, and for
a `popBubble` of a bubble that is not in the live queue, which the runs do not
contain. -/
def applyOperation (c : Constants) (s : State) : Operation → Option State
  | .notify env a => (Notify c env s a).map Prod.snd
  | .pop bubble =>
    if bubble ∈ s.m_bubbleList.map Bubble.ptr then popBubble c s bubble else none
  | .close id => some (CloseNotification s id)
  | .popAll => some (popAllBubblesImmediately s)

/-- The state after a sequence of calls. -/
def runOperations (c : Constants) : State → List Operation → Option State
  | s, [] => some s
  | s, op :: rest =>
    match applyOperation c s op with
    | none => none
    | some t => runOperations c t rest

/-- A sequence of `Notify` and `popBubble` calls in which every submission
carries `replacesId` 0 or an id that the counter has already allocated, with the
counter inside its range; `none` when a call does not complete or the sequence
is not of this kind. -/
def runAllocated (c : Constants) : State → List Operation → Option State
  | s, [] => some s
  | s, Operation.notify env a :: rest =>
    if a.replacesId ≤ s.m_replaceCount ∧ s.m_replaceCount + 1 < c.counterRange then
      match Notify c env s a with
      | none => none
      | some r => runAllocated c r.2 rest
    else none
  | s, Operation.pop bubble :: rest =>
    match popBubble c s bubble with
    | none => none
    | some t => runAllocated c t rest
  | _, _ :: _ => none

/-! ## Sample inputs -/

/-- Sample constants: three entity slots and two overlap slots. -/
def sampleConstants : Constants :=
  ⟨3, 2, 20, 12, 600, 60, ["dde-control-center"], 4294967296, QRect.mk4 0 0 600 60⟩

/-- A sample entity of application `app` whose id and replaces id are `n`. -/
def sampleEntity (n : Nat) : NotificationEntity :=
  ⟨"app", n, "", "", "", [], [], 0, n, 0, true, true⟩

/-- A sample bubble at address `p`, bound to `sampleEntity p`. -/
def sampleBubble (p : Nat) : Bubble := ⟨p, sampleEntity p, 0, QRect.mk4 0 0 600 60, true⟩

/-- A sample state: the bubbles at the addresses `live`, the overflow entities
`old`, a 1920 x 1080 display and the dock at the bottom. -/
def sampleState (live old : List Nat) : State :=
  ⟨live.map sampleBubble, old.map sampleEntity, 0, [], QRect.mk4 0 0 1920 1080,
    QRect.mk4 0 1040 1920 40, DockPosition.Bottom, 100, []⟩

/-- System settings with do-not-disturb on between 22:00 and 06:00. -/
def sampleDndSettings (key : String) : QVariant :=
  if key = "dndmode" then QVariant.bool true
  else if key = "open-by-time-interval" then QVariant.bool true
  else if key = "lockscreen-open-dndmode" then QVariant.bool false
  else if key = "start-time" then QVariant.string "22:00"
  else if key = "end-time" then QVariant.string "06:00"
  else QVariant.invalid

/-- A stand-in for `QTime::fromString` on the two strings of the samples. -/
def sampleTimeFromString (s : String) : QTime :=
  if s = "22:00" then QTime.hm 22 0
  else if s = "06:00" then QTime.hm 6 0
  else ⟨-1⟩

/-- Application settings: every switch of `app` is on, every switch of any
other application is off. -/
def sampleAppSettings (id _key : String) : QVariant :=
  if id = "app" then QVariant.bool true else QVariant.bool false

/-- A sample environment: built-in bubbles, display service valid, screen
unlocked, do-not-disturb off, the clock at `now`. -/
def sampleEnv (now : QTime) : Env :=
  { notifycationClosed := false, useBuiltinBubble := true, displayValid := true,
    locked := false, currentTime := now, currentMSecs := 0,
    appSettings := sampleAppSettings, appKeys := fun _ => [],
    systemSettings := fun _ => QVariant.bool false,
    timeFromString := sampleTimeFromString }

/-- The sample environment with do-not-disturb scheduled from 22:00 to 06:00. -/
def sampleDndEnv (now : QTime) : Env :=
  { sampleEnv now with systemSettings := sampleDndSettings }

/-- The sample environment with the display service not valid. -/
def sampleNoDisplayEnv : Env :=
  { sampleEnv (QTime.hm 12 0) with displayValid := false }

/-- A submission of application `appName` with the given `replacesId`. -/
def sampleArgs (appName : String) (replacesId : Nat) : NotifyArgs :=
  ⟨appName, replacesId, "", "", "", [], [], 0⟩

/-- Two fresh submissions: one of `app`, whose notifications are enabled, then
one of `other`, whose notifications are disabled. -/
def sampleFreshPair : List (Env × NotifyArgs) :=
  [(sampleEnv (QTime.hm 12 0), sampleArgs "app" 0),
   (sampleEnv (QTime.hm 12 0), sampleArgs "other" 0)]

/-! ## More sample inputs -/

/-- The enumerators numbered in the order of the `switch` statements. -/
def sampleItemCast : ItemCast :=
  { appItem := fun n =>
      [AppConfigurationItem.APPNAME, .APPICON, .ENABELNOTIFICATION, .ENABELPREVIEW,
        .ENABELSOUND, .SHOWINNOTIFICATIONCENTER, .LOCKSCREENSHOWNOTIFICATION, .SHOWONTOP][n]?,
    systemItem := fun n =>
      [SystemConfigurationItem.DNDMODE, .LOCKSCREENOPENDNDMODE, .OPENBYTIMEINTERVAL,
        .STARTTIME, .ENDTIME, .SHOWICON][n]? }

/-- A state whose overflow list holds two notifications of application `app`
with replaces id 9, next to each other. -/
def sampleTwinOverflow : State :=
  { sampleState [1, 2] [] with
    m_oldEntities := [{ sampleEntity 9 with summary := "first" },
                      { sampleEntity 9 with summary := "second" }] }


/-- The sample environment with do-not-disturb on at every time (master switch
on, no sub-switch). -/
def sampleQuietEnv : Env :=
  { sampleEnv (QTime.hm 12 0) with
    systemSettings := fun key => QVariant.bool (key == "dndmode") }


/-- The full sample queue after two more submissions are pushed: bubble 5 is
evicted first, bubble 4 after it. -/
def sampleTwoEvictions : Option State :=
  (pushBubble sampleConstants (sampleState [1, 2, 3, 4, 5] []) (sampleEntity 6)).bind
    (fun s => pushBubble sampleConstants s (sampleEntity 7))

/-- A settled queue of three bubbles: each bubble rests at the rectangle that
`getBubbleGeometry` computes for its position. -/
def sampleSettled : State :=
  { sampleState [] [] with
    m_bubbleList := [⟨1, sampleEntity 1, 0, QRect.mk4 660 20 600 60, true⟩,
                     ⟨2, sampleEntity 2, 1, QRect.mk4 660 92 600 60, true⟩,
                     ⟨3, sampleEntity 3, 2, QRect.mk4 660 164 600 60, true⟩] }

/-- A queue whose only bubble rests at the rectangle of position 1, the position
that the next `pushBubble` gives it. -/
def sampleInPlace : State :=
  { sampleState [] [] with
    m_bubbleList := [⟨1, sampleEntity 1, 0, QRect.mk4 660 92 600 60, true⟩] }

/-- The empty manager on the sample display. -/
def sampleEmpty : State :=
  emptyManager (QRect.mk4 0 0 1920 1080) (QRect.mk4 0 1040 1920 40) DockPosition.Bottom

/-- Six fresh submissions of the sample application: one more than the queue
holds. -/
def sampleFill : List Operation :=
  List.replicate 6 (Operation.notify (sampleEnv (QTime.hm 12 0)) (sampleArgs "app" 0))

/-- The six submissions, then `popAllBubblesImmediately`. -/
def sampleFillHide : List Operation := sampleFill ++ [Operation.popAll]

/-- The six submissions, `popAllBubblesImmediately`, and one more submission. -/
def sampleFillHideShow : List Operation :=
  sampleFill ++ [Operation.popAll,
    Operation.notify (sampleEnv (QTime.hm 12 0)) (sampleArgs "app" 0)]

/-- The sample environment with do-not-disturb scheduled from 06:00 to 22:00. -/
def sampleDayEnv (now : QTime) : Env :=
  { sampleEnv now with
    systemSettings := fun key =>
      if key = "dndmode" then QVariant.bool true
      else if key = "open-by-time-interval" then QVariant.bool true
      else if key = "lockscreen-open-dndmode" then QVariant.bool false
      else if key = "start-time" then QVariant.string "06:00"
      else if key = "end-time" then QVariant.string "22:00"
      else QVariant.invalid }

/-- The sample queue of two bubbles on a display whose `y` is close to the
largest `int`. -/
def sampleFarDisplay : State :=
  { sampleState [1, 2] [] with m_currentDisplayRect := QRect.mk4 0 2147483600 1920 10 }

/-- Six fresh submissions of the sample application (ids 1 to 6, the first one
ends in overflow), a submission that replaces the live notification 3, a
submission with the id 1 of the overflow entry, and a pop of the bubble at
address 4. -/
def sampleAllocatedRun : List Operation :=
  sampleFill ++ [Operation.notify (sampleEnv (QTime.hm 12 0)) (sampleArgs "app" 3),
    Operation.notify (sampleEnv (QTime.hm 12 0)) (sampleArgs "app" 1),
    Operation.pop 4]

/-! ## Geometry: results and success -/

theorem wrapInt_of_inIntRange (v : Int) (h : inIntRange v) : wrapInt v = v := by
  unfold wrapInt
  unfold inIntRange at h
  omega

theorem inIntRange_wrapInt (v : Int) : inIntRange (wrapInt v) := by
  unfold wrapInt inIntRange
  omega

theorem wrapInt_add_left (a b : Int) : wrapInt (wrapInt a + b) = wrapInt (a + b) := by
  unfold wrapInt
  omega

theorem wrapInt_add_right (a b : Int) : wrapInt (a + wrapInt b) = wrapInt (a + b) := by
  unfold wrapInt
  omega

theorem wrapInt_sub_left (a b : Int) : wrapInt (wrapInt a - b) = wrapInt (a - b) := by
  unfold wrapInt
  omega

theorem wrapInt_sub_right (a b : Int) : wrapInt (a - wrapInt b) = wrapInt (a - b) := by
  unfold wrapInt
  omega

/-- Truncating division by a positive number keeps a value inside the range of
`int`. -/
theorem inIntRange_tdiv (v d : Int) (hv : inIntRange v) (hd : 1 ≤ d) :
    inIntRange (Int.tdiv v d) := by
  unfold inIntRange at *
  by_cases h0 : 0 ≤ v
  · rw [Int.tdiv_eq_ediv h0 (by omega)]
    have h1 : 0 ≤ v / d := Int.ediv_nonneg h0 (by omega)
    have h2 : v / d ≤ v := Int.ediv_le_self d h0
    omega
  · have hn : 0 ≤ -v := by omega
    have e : Int.tdiv v d = -(Int.tdiv (-v) d) := by
      rw [Int.neg_tdiv]; omega
    rw [e, Int.tdiv_eq_ediv hn (by omega)]
    have h1 : 0 ≤ -v / d := Int.ediv_nonneg hn (by omega)
    have h2 : -v / d ≤ -v := Int.ediv_le_self d hn
    omega

theorem divInt_of_inIntRange (v d : Int) (hv : inIntRange v) (hd : 1 ≤ d) :
    divInt v d = Int.tdiv v d :=
  wrapInt_of_inIntRange _ (inIntRange_tdiv v d hv hd)

theorem heightBeforeLoop_eq (l : List Bubble) (n : Nat) (h : n ≤ l.length) :
    heightBeforeLoop l n = some (wrapInt ((l.take n).map Bubble.height).sum) := by
  induction n with
  | zero => simp [heightBeforeLoop, wrapInt]
  | succ n ih =>
    have hn : n < l.length := h
    rw [heightBeforeLoop, ih (Nat.le_of_lt hn), List.getElem?_eq_getElem hn]
    simp only [Option.some.injEq]
    rw [List.take_succ, List.getElem?_eq_getElem hn]
    simp only [Option.toList, List.map_append, List.sum_append, List.map_cons, List.map_nil,
      List.sum_cons, List.sum_nil, add_zero, addInt, wrapInt_add_left]

theorem heightBeforeLoop_none (l : List Bubble) (n : Nat) (h : l.length < n) :
    heightBeforeLoop l n = none := by
  induction n with
  | zero => omega
  | succ n ih =>
    rw [heightBeforeLoop]
    by_cases hn : l.length < n
    · rw [ih hn]
    · have : l.length ≤ n := by omega
      rw [List.getElem?_eq_none this]
      cases heightBeforeLoop l n <;> rfl

/-- The rectangle of an entity position: the sum for `y` is reduced to the
range of `int` once, which equals the reduction after every addition. -/
theorem entityRect_eq (c : Constants) (s : State) (index : Nat)
    (h : index ≤ s.m_bubbleList.length) :
    entityRect c s index = some
      ⟨addInt s.m_currentDisplayRect.x
          (divInt (subInt s.m_currentDisplayRect.width c.BubbleWidth) 2),
       wrapInt ((if s.m_dockPos = DockPosition.Top then s.m_currentDockRect.bottom
          else s.m_currentDisplayRect.y) + c.ScreenPadding + index * c.BubbleMargin
          + ((s.m_bubbleList.take index).map Bubble.height).sum),
       subInt (addInt (addInt s.m_currentDisplayRect.x
          (divInt (subInt s.m_currentDisplayRect.width c.BubbleWidth) 2)) c.BubbleWidth) 1,
       subInt (addInt (wrapInt ((if s.m_dockPos = DockPosition.Top then
            s.m_currentDockRect.bottom else s.m_currentDisplayRect.y)
          + c.ScreenPadding + index * c.BubbleMargin
          + ((s.m_bubbleList.take index).map Bubble.height).sum)) c.BubbleHeight) 1⟩ := by
  have hy : ∀ y : Int,
      addInt (addInt (addInt y c.ScreenPadding) (mulInt index c.BubbleMargin))
          (wrapInt ((s.m_bubbleList.take index).map Bubble.height).sum)
        = wrapInt (y + c.ScreenPadding + index * c.BubbleMargin
            + ((s.m_bubbleList.take index).map Bubble.height).sum) := by
    intro y
    unfold addInt mulInt wrapInt
    omega
  simp only [entityRect, getBubbleHeightBefore, Int.toNat_ofNat, heightBeforeLoop_eq _ _ h,
    QRect.null, QRect.setX, QRect.setY, QRect.setWidth, QRect.setHeight, hy]

theorem getBubbleGeometryNat_entity (c : Constants) (s : State) (n : Nat)
    (h : n < c.BubbleEntities) :
    getBubbleGeometryNat c s n = entityRect c s n := by
  cases n with
  | zero => simp [getBubbleGeometryNat]; omega
  | succ n =>
    rw [getBubbleGeometryNat, if_neg (by omega), if_pos (by omega)]

theorem getBubbleGeometryNat_overlap (c : Constants) (s : State) (n : Nat)
    (h1 : c.BubbleEntities ≤ n + 1) (h2 : n + 1 ≤ c.BubbleEntities + c.BubbleOverLap) :
    getBubbleGeometryNat c s (n + 1) = (getBubbleGeometryNat c s n).map overlapRect := by
  rw [getBubbleGeometryNat, if_neg (by omega), if_neg (by omega)]

/-- The geometry query succeeds at every index up to the assertion bound whose
entity rows are inside the list. -/
theorem getBubbleGeometryNat_isSome (c : Constants) (s : State) (n : Nat)
    (hN : 1 ≤ c.BubbleEntities) (hn : n ≤ c.BubbleEntities + c.BubbleOverLap)
    (hl : min n (c.BubbleEntities - 1) ≤ s.m_bubbleList.length) :
    ∃ r, getBubbleGeometryNat c s n = some r := by
  induction n with
  | zero =>
    rw [getBubbleGeometryNat_entity c s 0 (by omega)]
    exact ⟨_, entityRect_eq c s 0 (by omega)⟩
  | succ n ih =>
    by_cases hlt : n + 1 < c.BubbleEntities
    · rw [getBubbleGeometryNat_entity c s _ hlt]
      exact ⟨_, entityRect_eq c s _ (by omega)⟩
    · rw [getBubbleGeometryNat_overlap c s n (by omega) hn]
      obtain ⟨r, hr⟩ := ih (by omega) (by omega)
      exact ⟨overlapRect r, by rw [hr]; rfl⟩

theorem getBubbleGeometry_ofNat (c : Constants) (s : State) (n : Nat) :
    getBubbleGeometry c s (n : Int) = getBubbleGeometryNat c s n := by
  simp [getBubbleGeometry]

theorem getBubbleGeometry_isSome (c : Constants) (s : State) (n : Nat)
    (hN : 1 ≤ c.BubbleEntities) (hn : n ≤ c.BubbleEntities + c.BubbleOverLap)
    (hl : min n (c.BubbleEntities - 1) ≤ s.m_bubbleList.length) :
    ∃ r, getBubbleGeometry c s (n : Int) = some r := by
  rw [getBubbleGeometry_ofNat]
  exact getBubbleGeometryNat_isSome c s n hN hn hl

/-- C10 (as amended): while the `int` arithmetic stays inside its range, the
rectangle of a bubble at an entity index is the one of the formula; an
overlapped index takes `overlapRect` of the rectangle before it, whose four
values are those of the formula while they stay inside the range; and index 0 on
a 1920 x 1080 display with the dock at the bottom has `x = (1920 - W) / 2` and
`y = ScreenPadding`. -/
theorem C10_getBubbleGeometry_reference (c : Constants) (s : State) :
    (∀ index : Int, 0 ≤ index → index < c.BubbleEntities →
        index ≤ s.m_bubbleList.length →
        inIntRange c.BubbleWidth → inIntRange c.BubbleHeight →
        inIntRange (s.m_currentDisplayRect.width - c.BubbleWidth) →
        inIntRange (s.m_currentDisplayRect.x
          + Int.tdiv (s.m_currentDisplayRect.width - c.BubbleWidth) 2) →
        inIntRange ((if s.m_dockPos = DockPosition.Top then s.m_currentDockRect.bottom
                     else s.m_currentDisplayRect.y)
                    + c.ScreenPadding + index * c.BubbleMargin
                    + ((s.m_bubbleList.take index.toNat).map Bubble.height).sum) →
        ∃ r, getBubbleGeometry c s index = some r
          ∧ r.x = s.m_currentDisplayRect.x
                  + Int.tdiv (s.m_currentDisplayRect.width - c.BubbleWidth) 2
          ∧ r.y = (if s.m_dockPos = DockPosition.Top then s.m_currentDockRect.bottom
                   else s.m_currentDisplayRect.y)
                  + c.ScreenPadding + index * c.BubbleMargin
                  + ((s.m_bubbleList.take index.toNat).map Bubble.height).sum
          ∧ r.width = c.BubbleWidth ∧ r.height = c.BubbleHeight)
    ∧ (∀ index : Int, (c.BubbleEntities : Int) ≤ index →
        index ≤ ((c.BubbleEntities + c.BubbleOverLap : Nat) : Int) →
        getBubbleGeometry c s index = (getBubbleGeometry c s (index - 1)).map overlapRect)
    ∧ (∀ r : QRect, inIntRange (r.x + Int.tdiv r.width 20) →
        inIntRange (r.y + Int.tdiv r.height 3) →
        inIntRange (r.width * 18) → inIntRange (r.height * 19) →
        (overlapRect r).x = r.x + Int.tdiv r.width 20
          ∧ (overlapRect r).y = r.y + Int.tdiv r.height 3
          ∧ (overlapRect r).width = Int.tdiv (r.width * 18) 20
          ∧ (overlapRect r).height = Int.tdiv (r.height * 19) 20)
    ∧ (1 ≤ c.BubbleEntities → s.m_currentDisplayRect = QRect.mk4 0 0 1920 1080 →
        s.m_dockPos = DockPosition.Bottom →
        inIntRange (1920 - c.BubbleWidth) → inIntRange c.ScreenPadding →
        ∃ r, getBubbleGeometry c s 0 = some r
          ∧ r.x = Int.tdiv (1920 - c.BubbleWidth) 2 ∧ r.y = c.ScreenPadding) := by
  refine ⟨?_, ?_, ?_, ?_⟩
  · intro index h0 hlt hle hW hH hd hx hy
    obtain ⟨n, rfl⟩ := Int.eq_ofNat_of_zero_le h0
    have hn : n < c.BubbleEntities := by exact_mod_cast hlt
    have hl : n ≤ s.m_bubbleList.length := by exact_mod_cast hle
    rw [getBubbleGeometry_ofNat, getBubbleGeometryNat_entity c s n hn, entityRect_eq c s n hl]
    simp only [Int.toNat_ofNat] at hy
    have e1 : subInt s.m_currentDisplayRect.width c.BubbleWidth
        = s.m_currentDisplayRect.width - c.BubbleWidth := wrapInt_of_inIntRange _ hd
    have e2 : divInt (s.m_currentDisplayRect.width - c.BubbleWidth) 2
        = Int.tdiv (s.m_currentDisplayRect.width - c.BubbleWidth) 2 :=
      divInt_of_inIntRange _ 2 hd (by omega)
    have e3 : addInt s.m_currentDisplayRect.x
          (Int.tdiv (s.m_currentDisplayRect.width - c.BubbleWidth) 2)
        = s.m_currentDisplayRect.x
          + Int.tdiv (s.m_currentDisplayRect.width - c.BubbleWidth) 2 :=
      wrapInt_of_inIntRange _ hx
    rw [e1, e2, e3, wrapInt_of_inIntRange _ hy]
    refine ⟨_, rfl, rfl, ?_, ?_, ?_⟩
    · simp only [QRect.y, Int.toNat_ofNat]
    · simp only [QRect.width]
      unfold addInt subInt wrapInt
      unfold inIntRange at hW
      omega
    · simp only [QRect.height]
      unfold addInt subInt wrapInt
      unfold inIntRange at hH
      omega
  · intro index h1 h2
    have h0 : 0 ≤ index := le_trans (Int.ofNat_nonneg _) h1
    obtain ⟨n, rfl⟩ := Int.eq_ofNat_of_zero_le h0
    have h1n : c.BubbleEntities ≤ n := by exact_mod_cast h1
    have h2n : n ≤ c.BubbleEntities + c.BubbleOverLap := by exact_mod_cast h2
    cases n with
    | zero =>
      have hz : c.BubbleEntities = 0 := by omega
      simp [getBubbleGeometry, getBubbleGeometryNat, hz]
    | succ n =>
      rw [getBubbleGeometry_ofNat, getBubbleGeometryNat_overlap c s n h1n h2n]
      have : ((n + 1 : Nat) : Int) - 1 = (n : Int) := by push_cast; ring
      rw [this, getBubbleGeometry_ofNat]
  · intro r hx hy hw hh
    have hw0 : inIntRange r.width := inIntRange_wrapInt _
    have hh0 : inIntRange r.height := inIntRange_wrapInt _
    have e1 : divInt r.width 20 = Int.tdiv r.width 20 :=
      divInt_of_inIntRange _ 20 hw0 (by omega)
    have e2 : divInt r.height 3 = Int.tdiv r.height 3 :=
      divInt_of_inIntRange _ 3 hh0 (by omega)
    have e3 : mulInt r.width 18 = r.width * 18 := wrapInt_of_inIntRange _ hw
    have e4 : mulInt r.height 19 = r.height * 19 := wrapInt_of_inIntRange _ hh
    have e5 : divInt (r.width * 18) 20 = Int.tdiv (r.width * 18) 20 :=
      divInt_of_inIntRange _ 20 hw (by omega)
    have e6 : divInt (r.height * 19) 20 = Int.tdiv (r.height * 19) 20 :=
      divInt_of_inIntRange _ 20 hh (by omega)
    have r5 := inIntRange_tdiv _ 20 hw (by omega)
    have r6 := inIntRange_tdiv _ 20 hh (by omega)
    have ex : (overlapRect r).x = r.x + Int.tdiv r.width 20 := by
      simp only [overlapRect, QRect.x, QRect.setX, QRect.setY, QRect.setWidth, QRect.setHeight]
      rw [e1]
      exact wrapInt_of_inIntRange _ hx
    have ey : (overlapRect r).y = r.y + Int.tdiv r.height 3 := by
      simp only [overlapRect, QRect.y, QRect.setX, QRect.setY, QRect.setWidth, QRect.setHeight]
      rw [e2]
      exact wrapInt_of_inIntRange _ hy
    refine ⟨ex, ey, ?_, ?_⟩
    · have : (overlapRect r).width
          = addInt (subInt (subInt (addInt (addInt r.x (divInt r.width 20))
              (divInt (mulInt r.width 18) 20)) 1) (addInt r.x (divInt r.width 20))) 1 := rfl
      rw [this, e3, e5]
      generalize Int.tdiv (r.width * 18) 20 = w at r5
      generalize addInt r.x (divInt r.width 20) = a
      unfold addInt subInt wrapInt
      unfold inIntRange at r5
      omega
    · have : (overlapRect r).height
          = addInt (subInt (subInt (addInt (addInt r.y (divInt r.height 3))
              (divInt (mulInt r.height 19) 20)) 1) (addInt r.y (divInt r.height 3))) 1 := rfl
      rw [this, e4, e6]
      generalize Int.tdiv (r.height * 19) 20 = w at r6
      generalize addInt r.y (divInt r.height 3) = a
      unfold addInt subInt wrapInt
      unfold inIntRange at r6
      omega
  · intro hN hd hp hW hS
    have h := entityRect_eq c s 0 (Nat.zero_le _)
    have e0 : getBubbleGeometry c s 0 = entityRect c s ((0 : Nat) : Int) := by
      have := getBubbleGeometry_ofNat c s 0
      rw [getBubbleGeometryNat_entity c s 0 (by omega)] at this
      simpa using this
    rw [e0, h]
    have hw : s.m_currentDisplayRect.width = 1920 := by rw [hd]; decide
    have hx0 : s.m_currentDisplayRect.x1 = 0 := by rw [hd]; rfl
    have hy0 : s.m_currentDisplayRect.y1 = 0 := by rw [hd]; rfl
    have e1 : subInt (1920 : Int) c.BubbleWidth = 1920 - c.BubbleWidth :=
      wrapInt_of_inIntRange _ hW
    have e2 : divInt (1920 - c.BubbleWidth) 2 = Int.tdiv (1920 - c.BubbleWidth) 2 :=
      divInt_of_inIntRange _ 2 hW (by omega)
    have r2 := inIntRange_tdiv _ 2 hW (by omega)
    refine ⟨_, rfl, ?_, ?_⟩
    · simp only [QRect.x, hw, e1, e2]
      unfold addInt
      rw [hx0, Int.zero_add]
      exact wrapInt_of_inIntRange _ r2
    · simp only [QRect.y, hp, List.take_zero, List.map_nil, List.sum_nil, reduceCtorEq,
        if_false]
      rw [hy0]
      have : (0 : Int) + c.ScreenPadding + ((0 : Nat) : Int) * c.BubbleMargin + 0
          = c.ScreenPadding := by simp
      rw [this]
      exact wrapInt_of_inIntRange _ hS

/-- C10 (counterexample): two bubbles of height 60 on a display at
`y = 2147483600`; index 2 is an entity index with two bubbles before it, the
formula gives `y = 2147483764`, and `getBubbleGeometry(2)` has
`y = -2147483532`: the sum does not fit an `int`. -/
theorem C10_counterexample_sum_leaves_int_range :
    (0 : Int) ≤ 2 ∧ (2 : Int) < sampleConstants.BubbleEntities
      ∧ (2 : Int) ≤ sampleFarDisplay.m_bubbleList.length
      ∧ sampleFarDisplay.m_currentDisplayRect.y + sampleConstants.ScreenPadding
          + 2 * sampleConstants.BubbleMargin
          + ((sampleFarDisplay.m_bubbleList.take 2).map Bubble.height).sum = 2147483764
      ∧ (getBubbleGeometry sampleConstants sampleFarDisplay 2).map QRect.y
          = some (-2147483532) := by
  decide

/-! ## Do-not-disturb -/

theorem QTime.eq_of_not_lt (a b : QTime) (h1 : ¬ a < b) (h2 : ¬ a > b) : a = b := by
  cases a with
  | mk x =>
    cases b with
    | mk y =>
      have h1 : ¬ x < y := h1
      have h2 : ¬ y < x := h2
      have : x = y := by omega
      rw [this]

theorem dndWindow_iff (st en now : QTime) :
    dndWindow st en now = true ↔
      (st < en ∧ st ≤ now ∧ now ≤ en) ∨ (st > en ∧ (now ≥ st ∨ now ≤ en)) ∨ st = en := by
  have key : ∀ a b : QTime, (a < b ↔ a.mds < b.mds) := fun _ _ => Iff.rfl
  unfold dndWindow
  by_cases h1 : st < en
  · have hne : st ≠ en := by
      intro h; rw [h, key] at h1; omega
    have hng : ¬ st > en := by
      intro h; have h : en.mds < st.mds := h; rw [key] at h1; omega
    simp [h1, hne, hng, GE.ge]
  · by_cases h2 : st > en
    · have hne : st ≠ en := by
        intro h; rw [h] at h2; have h2 : en.mds < en.mds := h2; omega
      simp [h1, h2, hne, GE.ge]
    · have he := QTime.eq_of_not_lt st en h1 h2
      subst he
      simp [h1]

theorem isDoNotDisturb_eq (env : Env) :
    isDoNotDisturb env =
      (if !(getSystemSetting env .DNDMODE).toBool then false
       else if !(getSystemSetting env .OPENBYTIMEINTERVAL).toBool
          && !(getSystemSetting env .LOCKSCREENOPENDNDMODE).toBool then true
       else if (getSystemSetting env .LOCKSCREENOPENDNDMODE).toBool && env.locked then true
       else if dndWindow (env.timeFromString (getSystemSetting env .STARTTIME).toString)
              (env.timeFromString (getSystemSetting env .ENDTIME).toString) env.currentTime
            && (getSystemSetting env .OPENBYTIMEINTERVAL).toBool
         then dndWindow (env.timeFromString (getSystemSetting env .STARTTIME).toString)
              (env.timeFromString (getSystemSetting env .ENDTIME).toString) env.currentTime
         else false) := rfl

/-- C8: the switch logic of `isDoNotDisturb`: off without the master switch; on
when no sub-switch is set; on when locked with the lock sub-switch; otherwise on
exactly when the schedule sub-switch is set and the time test passes. -/
theorem C8_isDoNotDisturb_switches (env : Env) :
    ((getSystemSetting env .DNDMODE).toBool = false → isDoNotDisturb env = false)
    ∧ ((getSystemSetting env .DNDMODE).toBool = true →
        (getSystemSetting env .OPENBYTIMEINTERVAL).toBool = false →
        (getSystemSetting env .LOCKSCREENOPENDNDMODE).toBool = false →
        isDoNotDisturb env = true)
    ∧ ((getSystemSetting env .DNDMODE).toBool = true →
        (getSystemSetting env .LOCKSCREENOPENDNDMODE).toBool = true → env.locked = true →
        isDoNotDisturb env = true)
    ∧ ((getSystemSetting env .DNDMODE).toBool = true →
        ¬ ((getSystemSetting env .OPENBYTIMEINTERVAL).toBool = false
            ∧ (getSystemSetting env .LOCKSCREENOPENDNDMODE).toBool = false) →
        ¬ ((getSystemSetting env .LOCKSCREENOPENDNDMODE).toBool = true ∧ env.locked = true) →
        (isDoNotDisturb env = true ↔
          (getSystemSetting env .OPENBYTIMEINTERVAL).toBool = true
          ∧ dndWindow (env.timeFromString (getSystemSetting env .STARTTIME).toString)
              (env.timeFromString (getSystemSetting env .ENDTIME).toString)
              env.currentTime = true)) := by
  rw [isDoNotDisturb_eq]
  generalize (getSystemSetting env .DNDMODE).toBool = master
  generalize (getSystemSetting env .OPENBYTIMEINTERVAL).toBool = sched
  generalize (getSystemSetting env .LOCKSCREENOPENDNDMODE).toBool = lockSwitch
  generalize env.locked = locked
  generalize dndWindow (env.timeFromString (getSystemSetting env .STARTTIME).toString)
      (env.timeFromString (getSystemSetting env .ENDTIME).toString) env.currentTime = window
  cases master <;> cases sched <;> cases lockSwitch <;> cases locked <;> cases window <;> simp

/-- C9: with the master and the schedule switch on and the lock rule not
applying, `isDoNotDisturb` is the time window test: inside `start..end` when
`start < end`, outside `end..start` when `start > end`, always when they are
equal. -/
theorem C9_isDoNotDisturb_window (env : Env)
    (hmaster : (getSystemSetting env .DNDMODE).toBool = true)
    (hsched : (getSystemSetting env .OPENBYTIMEINTERVAL).toBool = true)
    (hlock : ¬ ((getSystemSetting env .LOCKSCREENOPENDNDMODE).toBool = true ∧ env.locked = true)) :
    (isDoNotDisturb env = true ↔
      (env.timeFromString (getSystemSetting env .STARTTIME).toString
          < env.timeFromString (getSystemSetting env .ENDTIME).toString
        ∧ env.timeFromString (getSystemSetting env .STARTTIME).toString ≤ env.currentTime
        ∧ env.currentTime ≤ env.timeFromString (getSystemSetting env .ENDTIME).toString)
      ∨ (env.timeFromString (getSystemSetting env .STARTTIME).toString
          > env.timeFromString (getSystemSetting env .ENDTIME).toString
        ∧ (env.currentTime ≥ env.timeFromString (getSystemSetting env .STARTTIME).toString
          ∨ env.currentTime ≤ env.timeFromString (getSystemSetting env .ENDTIME).toString))
      ∨ env.timeFromString (getSystemSetting env .STARTTIME).toString
          = env.timeFromString (getSystemSetting env .ENDTIME).toString)
    ∧ (env.timeFromString (getSystemSetting env .STARTTIME).toString = QTime.hm 22 0 →
        env.timeFromString (getSystemSetting env .ENDTIME).toString = QTime.hm 6 0 →
        env.currentTime = QTime.hm 23 30 → isDoNotDisturb env = true)
    ∧ (env.timeFromString (getSystemSetting env .STARTTIME).toString = QTime.hm 9 0 →
        env.timeFromString (getSystemSetting env .ENDTIME).toString = QTime.hm 17 0 →
        env.currentTime = QTime.hm 12 0 → isDoNotDisturb env = true)
    ∧ (env.timeFromString (getSystemSetting env .STARTTIME).toString
          = env.timeFromString (getSystemSetting env .ENDTIME).toString →
        isDoNotDisturb env = true) := by
  have hd : isDoNotDisturb env
      = dndWindow (env.timeFromString (getSystemSetting env .STARTTIME).toString)
          (env.timeFromString (getSystemSetting env .ENDTIME).toString) env.currentTime := by
    rw [isDoNotDisturb_eq, hmaster, hsched]
    by_cases hl : (getSystemSetting env .LOCKSCREENOPENDNDMODE).toBool = true
    · have : env.locked = false := by
        cases h : env.locked
        · rfl
        · exact absurd ⟨hl, h⟩ hlock
      simp [hl, this]
    · simp [hl]
  rw [hd]
  refine ⟨dndWindow_iff _ _ _, ?_, ?_, ?_⟩
  · intro h1 h2 h3
    rw [h1, h2, h3]; decide
  · intro h1 h2 h3
    rw [h1, h2, h3]; decide
  · intro h
    exact (dndWindow_iff _ _ _).2 (Or.inr (Or.inr h))

/-- The witness of C9: the sample schedule 22:00 to 06:00 at 23:30. -/
theorem C9_isDoNotDisturb_window_witness :
    isDoNotDisturb (sampleDndEnv (QTime.hm 23 30)) = true :=
  (C9_isDoNotDisturb_window (sampleDndEnv (QTime.hm 23 30)) (by decide) (by decide)
    (by decide)).2.1 (by decide) (by decide) (by decide)

/-! ## The animation loops keep the queue -/

theorem map_set_same {β : Type} (f : Bubble → β) (l : List Bubble) (i : Nat) (a item : Bubble)
    (hi : l[i]? = some item) (hf : f a = f item) : (l.set i a).map f = l.map f := by
  induction l generalizing i with
  | nil => simp
  | cons b l ih =>
    cases i with
    | zero =>
      simp only [List.getElem?_cons_zero, Option.some.injEq] at hi
      simp [hf, hi]
    | succ i =>
      simp only [List.getElem?_cons_succ] at hi
      simp [ih i hi]

theorem sameBubbles_refl (l : List Bubble) : sameBubbles l l := rfl

theorem sameBubbles_trans {l k m : List Bubble} (h1 : sameBubbles l k) (h2 : sameBubbles k m) :
    sameBubbles l m := by
  unfold sameBubbles at *
  rw [h2, h1]

theorem sameBubbles_length {l k : List Bubble} (h : sameBubbles l k) : k.length = l.length := by
  have := congrArg List.length h
  simpa using this

theorem sameBubbles_ptr {l k : List Bubble} (h : sameBubbles l k) :
    k.map Bubble.ptr = l.map Bubble.ptr := by
  have := congrArg (List.map (fun t : Nat × NotificationEntity × QRect => t.1)) h
  simpa [List.map_map, Function.comp_def] using this

theorem sameBubbles_entity {l k : List Bubble} (h : sameBubbles l k) :
    k.map Bubble.entity = l.map Bubble.entity := by
  have := congrArg (List.map (fun t : Nat × NotificationEntity × QRect => t.2.1)) h
  simpa [List.map_map, Function.comp_def] using this

theorem sameBubbles_set (l : List Bubble) (i : Nat) (item : Bubble) (idx : Int) (v : Bool)
    (hi : l[i]? = some item) :
    sameBubbles l (l.set i { item with bubbleIndex := idx, visible := v }) :=
  map_set_same _ l i _ item hi rfl

theorem indexOf_lt (l : List Bubble) (p i : Nat) (h : indexOf l p = some i) : i < l.length := by
  induction l generalizing i with
  | nil => simp [indexOf] at h
  | cons b l ih =>
    unfold indexOf at h
    by_cases hb : b.ptr = p
    · simp [hb] at h; subst h; simp
    · simp only [hb, if_false, Option.map_eq_some'] at h
      obtain ⟨j, hj, rfl⟩ := h
      have := ih j hj
      simp; omega

theorem indexOf_none_iff (l : List Bubble) (p : Nat) :
    indexOf l p = none ↔ p ∉ l.map Bubble.ptr := by
  induction l with
  | nil => simp [indexOf]
  | cons b l ih =>
    unfold indexOf
    by_cases hb : b.ptr = p
    · simp [hb]
    · simp only [hb, if_false, Option.map_eq_none', ih, List.map_cons, List.mem_cons]
      constructor
      · intro h hp
        rcases hp with hp | hp
        · exact hb hp.symm
        · exact h hp
      · intro h hp
        exact h (Or.inr hp)

theorem removeOne_of_not_mem (l : List Bubble) (p : Nat) (h : p ∉ l.map Bubble.ptr) :
    removeOne l p = l := by
  induction l with
  | nil => rfl
  | cons b l ih =>
    simp only [List.map_cons, List.mem_cons, not_or] at h
    unfold removeOne
    rw [if_neg (fun e => h.1 e.symm), ih h.2]

theorem geometry_isSome_of_lt (c : Constants) (s : State) (i : Nat)
    (hN : 1 ≤ c.BubbleEntities)
    (hlen : s.m_bubbleList.length ≤ c.BubbleEntities + c.BubbleOverLap + 1)
    (hi : i < s.m_bubbleList.length) :
    ∃ r, getBubbleGeometry c s (i : Int) = some r :=
  getBubbleGeometry_isSome c s i hN (by omega) (by omega)

theorem geometry_zero_isSome (c : Constants) (s : State) (hN : 1 ≤ c.BubbleEntities) :
    ∃ r, getBubbleGeometry c s 0 = some r := by
  have := getBubbleGeometry_isSome c s 0 hN (by omega) (by omega)
  simpa using this

theorem lastStableLoop_isSome (c : Constants) (s : State) (hN : 1 ≤ c.BubbleEntities)
    (hlen : s.m_bubbleList.length ≤ c.BubbleEntities + c.BubbleOverLap + 1) (n : Nat)
    (rect : QRect) : ∃ r, lastStableLoop c s n rect = some r := by
  induction n generalizing rect with
  | zero => exact ⟨rect, rfl⟩
  | succ i ih =>
    unfold lastStableLoop
    cases hb : s.m_bubbleList[i + 1]? with
    | none => exact ih rect
    | some b =>
      have hi : i + 1 < s.m_bubbleList.length := by
        obtain ⟨h, _⟩ := List.getElem?_eq_some.1 hb
        exact h
      obtain ⟨g, hg⟩ := geometry_isSome_of_lt c s (i + 1) hN hlen hi
      simp only [hg]
      by_cases hne : b.geometry ≠ g
      · rw [if_pos hne]; exact ih rect
      · rw [if_neg hne]; exact ih g

theorem getLastStableRect_isSome (c : Constants) (s : State) (hN : 1 ≤ c.BubbleEntities)
    (hlen : s.m_bubbleList.length ≤ c.BubbleEntities + c.BubbleOverLap + 1) (index : Int) :
    ∃ r, getLastStableRect c s index = some r := by
  obtain ⟨r0, h0⟩ := geometry_zero_isSome c s hN
  unfold getLastStableRect
  rw [h0]
  exact lastStableLoop_isSome c s hN hlen _ r0

theorem pushAnimationStep_spec (c : Constants) (s : State) (index : Nat)
    (hN : 1 ≤ c.BubbleEntities)
    (hlen : s.m_bubbleList.length ≤ c.BubbleEntities + c.BubbleOverLap + 1)
    (hi : index < s.m_bubbleList.length) :
    ∃ l f, pushAnimationStep c s index = some { s with m_bubbleList := l, fx := f }
      ∧ sameBubbles s.m_bubbleList l := by
  obtain ⟨r1, h1⟩ := getLastStableRect_isSome c s hN hlen ((index : Int) - 1)
  obtain ⟨r2, h2⟩ := geometry_isSome_of_lt c s index hN hlen hi
  have h3 := List.getElem?_eq_getElem hi
  simp only [pushAnimationStep, h1, h2, h3, Option.bind_eq_bind, Option.some_bind]
  exact ⟨_, _, rfl, sameBubbles_set s.m_bubbleList index _ index _ h3⟩

theorem pushAnimationLoop_spec (c : Constants) (hN : 1 ≤ c.BubbleEntities) (k : Nat) :
    ∀ (index : Nat) (s : State),
      s.m_bubbleList.length ≤ c.BubbleEntities + c.BubbleOverLap + 1 →
      index + k < s.m_bubbleList.length →
      ∃ l f, pushAnimationLoop c k index s = some { s with m_bubbleList := l, fx := f }
        ∧ sameBubbles s.m_bubbleList l := by
  induction k with
  | zero => intro index s _ _; exact ⟨s.m_bubbleList, s.fx, rfl, sameBubbles_refl _⟩
  | succ k ih =>
    intro index s hlen hk
    obtain ⟨l1, f1, e1, k1⟩ := pushAnimationStep_spec c s (index + 1) hN hlen (by omega)
    have hl1 := sameBubbles_length k1
    obtain ⟨l2, f2, e2, k2⟩ := ih (index + 1) { s with m_bubbleList := l1, fx := f1 }
      (by simpa [hl1] using hlen) (by simp only [hl1]; omega)
    refine ⟨l2, f2, ?_, sameBubbles_trans k1 k2⟩
    rw [pushAnimationLoop, e1]
    simp only [e2]

theorem pushAnimation_spec (c : Constants) (s : State) (bubble : Nat)
    (hN : 1 ≤ c.BubbleEntities)
    (hlen : s.m_bubbleList.length ≤ c.BubbleEntities + c.BubbleOverLap + 1) :
    ∃ l f, pushAnimation c s bubble = some { s with m_bubbleList := l, fx := f }
      ∧ sameBubbles s.m_bubbleList l := by
  unfold pushAnimation
  cases h : indexOf s.m_bubbleList bubble with
  | none => exact ⟨s.m_bubbleList, s.fx, rfl, sameBubbles_refl _⟩
  | some index =>
    have hi := indexOf_lt _ _ _ h
    exact pushAnimationLoop_spec c hN _ index s hlen (by omega)

theorem popAnimationStep_spec (c : Constants) (s : State) (index : Nat)
    (hN : 1 ≤ c.BubbleEntities)
    (hlen : s.m_bubbleList.length ≤ c.BubbleEntities + c.BubbleOverLap + 1)
    (h0 : 1 ≤ index) (hi : index < s.m_bubbleList.length) :
    ∃ l f, popAnimationStep c s index = some { s with m_bubbleList := l, fx := f }
      ∧ sameBubbles s.m_bubbleList l := by
  obtain ⟨r1, h1⟩ := geometry_isSome_of_lt c s index hN hlen hi
  obtain ⟨r2, h2⟩ := geometry_isSome_of_lt c s (index - 1) hN hlen (by omega)
  have hc : ((index - 1 : Nat) : Int) = (index : Int) - 1 := by omega
  rw [hc] at h2
  have h3 := List.getElem?_eq_getElem hi
  simp only [popAnimationStep, h1, h2, h3, Option.bind_eq_bind, Option.some_bind]
  exact ⟨_, _, rfl, sameBubbles_set s.m_bubbleList index _ index _ h3⟩

theorem popAnimationLoop_spec (c : Constants) (hN : 1 ≤ c.BubbleEntities) (k : Nat) :
    ∀ (index : Nat) (s : State),
      s.m_bubbleList.length ≤ c.BubbleEntities + c.BubbleOverLap + 1 →
      index + k < s.m_bubbleList.length →
      ∃ l f, popAnimationLoop c k index s = some { s with m_bubbleList := l, fx := f }
        ∧ sameBubbles s.m_bubbleList l := by
  induction k with
  | zero => intro index s _ _; exact ⟨s.m_bubbleList, s.fx, rfl, sameBubbles_refl _⟩
  | succ k ih =>
    intro index s hlen hk
    obtain ⟨l1, f1, e1, k1⟩ := popAnimationStep_spec c s (index + 1) hN hlen (by omega) (by omega)
    have hl1 := sameBubbles_length k1
    obtain ⟨l2, f2, e2, k2⟩ := ih (index + 1) { s with m_bubbleList := l1, fx := f1 }
      (by simpa [hl1] using hlen) (by simp only [hl1]; omega)
    refine ⟨l2, f2, ?_, sameBubbles_trans k1 k2⟩
    rw [popAnimationLoop, e1]
    simp only [e2]

theorem popAnimation_spec (c : Constants) (s : State) (bubble : Nat)
    (hN : 1 ≤ c.BubbleEntities)
    (hlen : s.m_bubbleList.length ≤ c.BubbleEntities + c.BubbleOverLap + 1) :
    ∃ l f, popAnimation c s bubble = some { s with m_bubbleList := l, fx := f }
      ∧ sameBubbles s.m_bubbleList l := by
  unfold popAnimation
  cases h : indexOf s.m_bubbleList bubble with
  | none => exact ⟨s.m_bubbleList, s.fx, rfl, sameBubbles_refl _⟩
  | some index =>
    have hi := indexOf_lt _ _ _ h
    obtain ⟨r1, h1⟩ := geometry_isSome_of_lt c s index hN hlen hi
    obtain ⟨r2, h2⟩ := geometry_zero_isSome c s hN
    obtain ⟨l2, f2, e2, k2⟩ := popAnimationLoop_spec c hN (s.m_bubbleList.length - 1 - index) index
      { s with fx := s.fx ++ [Effect.startMove bubble r1 r2 true] } hlen
      (by show index + (s.m_bubbleList.length - 1 - index) < s.m_bubbleList.length; omega)
    refine ⟨l2, f2 ++ l2.reverse.map (fun b => Effect.raise b.ptr), ?_, k2⟩
    simp only [h1, h2, Option.bind_eq_bind, Option.some_bind, e2]

/-- A bubble created for the head of the queue: the geometry query of index 0
succeeds, the queue and the overflow list are untouched. -/
theorem createBubble_zero (c : Constants) (s : State) (notify : NotificationEntity)
    (hN : 1 ≤ c.BubbleEntities) :
    ∃ idx g v f, createBubble c s notify 0
      = some (⟨s.nextPtr, notify, idx, g, v⟩, { s with nextPtr := s.nextPtr + 1, fx := f }) := by
  obtain ⟨r, hr⟩ := geometry_zero_isSome c s hN
  simp only [createBubble, hr, ne_eq, not_true_eq_false, if_false, Option.bind_eq_bind,
    Option.some_bind]
  exact ⟨_, _, _, _, rfl⟩

/-- A bubble created for the tail of the queue: the geometry queries succeed
when the entity rows before the last one are inside the list. -/
theorem createBubble_tail (c : Constants) (s : State) (notify : NotificationEntity) (index : Int)
    (hN : 1 ≤ c.BubbleEntities) (hl : c.BubbleEntities - 1 ≤ s.m_bubbleList.length) :
    ∃ idx g v f, createBubble c s notify index
      = some (⟨s.nextPtr, notify, idx, g, v⟩, { s with nextPtr := s.nextPtr + 1, fx := f }) := by
  by_cases h0 : index = 0
  · subst h0; exact createBubble_zero c s notify hN
  · obtain ⟨r1, h1⟩ := getBubbleGeometry_isSome c s (c.BubbleEntities + c.BubbleOverLap) hN
      (le_refl _) (by omega)
    obtain ⟨r2, h2⟩ := getBubbleGeometry_isSome c s (c.BubbleEntities + c.BubbleOverLap - 1) hN
      (by omega) (by omega)
    have hc : ((c.BubbleEntities + c.BubbleOverLap - 1 : Nat) : Int)
        = ((c.BubbleEntities + c.BubbleOverLap : Nat) : Int) - 1 := by omega
    rw [hc] at h2
    simp only [createBubble, h0, ne_eq, not_false_eq_true, if_true, h1, h2,
      Option.bind_eq_bind, Option.some_bind]
    exact ⟨_, _, _, _, rfl⟩

/-! ## pushBubble -/

theorem sameBubbles_cons_left {b : Bubble} {r l : List Bubble} (h : sameBubbles (b :: r) l) :
    ∃ b1 l1, l = b1 :: l1 ∧ b1.ptr = b.ptr ∧ b1.entity = b.entity ∧ b1.geometry = b.geometry
      ∧ sameBubbles r l1 := by
  cases l with
  | nil => simp [sameBubbles] at h
  | cons b1 l1 =>
    simp only [sameBubbles, List.map_cons, List.cons.injEq, Prod.mk.injEq] at h
    exact ⟨b1, l1, rfl, h.1.1, h.1.2.1, h.1.2.2, h.2⟩

/-- The queue that `pushBubble` leaves behind the new head: the old queue, without
its tail bubble when it was full. -/
theorem pushBubble_spec (c : Constants) (s : State) (notify : NotificationEntity)
    (hN : 1 ≤ c.BubbleEntities)
    (hlen : s.m_bubbleList.length ≤ c.BubbleEntities + c.BubbleOverLap) :
    ∃ b l f, pushBubble c s notify
        = some { s with
            m_bubbleList := b :: l,
            m_oldEntities :=
              if s.m_bubbleList.length = c.BubbleEntities + c.BubbleOverLap then
                (s.m_bubbleList.getLast?.map Bubble.entity).toList ++ s.m_oldEntities
              else s.m_oldEntities,
            nextPtr := s.nextPtr + 1, fx := f }
      ∧ b.ptr = s.nextPtr ∧ b.entity = notify
      ∧ sameBubbles
          (if s.m_bubbleList.length = c.BubbleEntities + c.BubbleOverLap then
            s.m_bubbleList.dropLast else s.m_bubbleList) l := by
  obtain ⟨idx, g, v, f0, hc⟩ := createBubble_zero c s notify hN
  by_cases hfull : s.m_bubbleList.length = c.BubbleEntities + c.BubbleOverLap
  · have hne : s.m_bubbleList ≠ [] := by
      intro h; rw [h] at hfull; simp at hfull; omega
    obtain ⟨last, hlast⟩ : ∃ last, s.m_bubbleList.getLast? = some last := by
      cases hl : s.m_bubbleList.getLast? with
      | none => exact absurd (List.getLast?_eq_none_iff.1 hl) hne
      | some x => exact ⟨x, rfl⟩
    obtain ⟨l, f, e, k⟩ := pushAnimation_spec c
      { s with m_bubbleList := ⟨s.nextPtr, notify, idx, g, v⟩ :: s.m_bubbleList.dropLast,
               m_oldEntities := last.entity :: s.m_oldEntities,
               nextPtr := s.nextPtr + 1,
               fx := f0 ++ [Effect.hide last.ptr, Effect.deleteLater last.ptr] }
      s.nextPtr hN (by simp [List.length_dropLast]; omega)
    obtain ⟨b1, l1, rfl, hp, he, _, k1⟩ := sameBubbles_cons_left k
    refine ⟨b1, l1, f, ?_, hp, he, by simpa [hfull] using k1⟩
    simp only [pushBubble, hc, Option.bind_eq_bind, Option.some_bind, hfull, if_true, hlast,
      Option.map_some', Option.toList]
    exact e
  · obtain ⟨l, f, e, k⟩ := pushAnimation_spec c
      { s with m_bubbleList := ⟨s.nextPtr, notify, idx, g, v⟩ :: s.m_bubbleList,
               nextPtr := s.nextPtr + 1, fx := f0 }
      s.nextPtr hN (by simp; omega)
    obtain ⟨b1, l1, rfl, hp, he, _, k1⟩ := sameBubbles_cons_left k
    refine ⟨b1, l1, f, ?_, hp, he, by simpa [hfull] using k1⟩
    simp only [pushBubble, hc, Option.bind_eq_bind, Option.some_bind, hfull, if_false]
    exact e

/-- C2: `pushBubble` on a full queue moves the entity of the tail bubble to the
front of the overflow list and puts the new bubble before the remaining bubbles;
on a queue that is not full it only puts the new bubble at the head. -/
theorem C2_pushBubble_eviction (c : Constants) (s : State) (notify : NotificationEntity)
    (hN : 1 ≤ c.BubbleEntities) :
    (s.m_bubbleList.length = c.BubbleEntities + c.BubbleOverLap →
      ∃ front last t b l, s.m_bubbleList = front ++ [last]
        ∧ pushBubble c s notify = some t
        ∧ t.m_oldEntities = last.entity :: s.m_oldEntities
        ∧ t.m_bubbleList = b :: l ∧ b.ptr = s.nextPtr ∧ b.entity = notify
        ∧ sameBubbles front l ∧ l.length = c.BubbleEntities + c.BubbleOverLap - 1)
    ∧ (s.m_bubbleList.length < c.BubbleEntities + c.BubbleOverLap →
      ∃ t b l, pushBubble c s notify = some t
        ∧ t.m_oldEntities = s.m_oldEntities
        ∧ t.m_bubbleList = b :: l ∧ b.ptr = s.nextPtr ∧ b.entity = notify
        ∧ sameBubbles s.m_bubbleList l) := by
  constructor
  · intro hfull
    obtain ⟨b, l, f, e, hp, he, k⟩ := pushBubble_spec c s notify hN (le_of_eq hfull)
    have hne : s.m_bubbleList ≠ [] := by
      intro h; rw [h] at hfull; simp at hfull; omega
    obtain ⟨last, hlast⟩ : ∃ last, s.m_bubbleList.getLast? = some last := by
      cases hl : s.m_bubbleList.getLast? with
      | none => exact absurd (List.getLast?_eq_none_iff.1 hl) hne
      | some x => exact ⟨x, rfl⟩
    have hsplit : s.m_bubbleList.dropLast ++ [last] = s.m_bubbleList :=
      List.dropLast_append_getLast? last hlast
    rw [if_pos hfull] at k
    refine ⟨s.m_bubbleList.dropLast, last, _, b, l, hsplit.symm, e, ?_, rfl, hp, he, k, ?_⟩
    · simp [hfull, hlast]
    · rw [sameBubbles_length k, List.length_dropLast, hfull]
  · intro hlt
    obtain ⟨b, l, f, e, hp, he, k⟩ := pushBubble_spec c s notify hN (le_of_lt hlt)
    have hnf : s.m_bubbleList.length ≠ c.BubbleEntities + c.BubbleOverLap := by omega
    rw [if_neg hnf] at k
    refine ⟨_, b, l, e, ?_, rfl, hp, he, k⟩
    simp [hnf]

/-- The witness of C2: a sixth notification on the full sample queue. -/
theorem C2_pushBubble_eviction_witness :
    ∃ front last t b l, (sampleState [1, 2, 3, 4, 5] [9]).m_bubbleList = front ++ [last]
      ∧ pushBubble sampleConstants (sampleState [1, 2, 3, 4, 5] [9]) (sampleEntity 7) = some t
      ∧ t.m_oldEntities = last.entity :: (sampleState [1, 2, 3, 4, 5] [9]).m_oldEntities
      ∧ t.m_bubbleList = b :: l ∧ b.ptr = (sampleState [1, 2, 3, 4, 5] [9]).nextPtr
      ∧ b.entity = sampleEntity 7
      ∧ sameBubbles front l
      ∧ l.length = sampleConstants.BubbleEntities + sampleConstants.BubbleOverLap - 1 :=
  (C2_pushBubble_eviction sampleConstants (sampleState [1, 2, 3, 4, 5] [9]) (sampleEntity 7)
    (by decide)).1 (by decide)

/-! ## popBubble -/

theorem removeOne_sameBubbles (p : Nat) {l k : List Bubble} (h : sameBubbles l k) :
    sameBubbles (removeOne l p) (removeOne k p) := by
  induction l generalizing k with
  | nil =>
    cases k with
    | nil => exact sameBubbles_refl _
    | cons b k => simp [sameBubbles] at h
  | cons a l ih =>
    obtain ⟨b1, l1, rfl, hp, he, hg, k1⟩ := sameBubbles_cons_left h
    unfold removeOne
    rw [hp]
    by_cases ha : a.ptr = p
    · simpa [ha] using k1
    · simp only [ha, if_false]
      have := ih k1
      unfold sameBubbles at this ⊢
      simp [this, hp, he, hg]

theorem removeOne_append_of_mem (l m : List Bubble) (p : Nat) (h : p ∈ l.map Bubble.ptr) :
    removeOne (l ++ m) p = removeOne l p ++ m := by
  induction l with
  | nil => simp at h
  | cons a l ih =>
    simp only [List.cons_append, removeOne]
    by_cases ha : a.ptr = p
    · simp [ha]
    · simp only [ha, if_false, List.cons_append, List.cons.injEq, true_and]
      apply ih
      simp only [List.map_cons, List.mem_cons] at h
      rcases h with h | h
      · exact absurd h.symm ha
      · exact h

theorem length_removeOne_of_mem (l : List Bubble) (p : Nat) (h : p ∈ l.map Bubble.ptr) :
    (removeOne l p).length + 1 = l.length := by
  induction l with
  | nil => simp at h
  | cons a l ih =>
    unfold removeOne
    by_cases ha : a.ptr = p
    · simp [ha]
    · simp only [ha, if_false, List.length_cons]
      simp only [List.map_cons, List.mem_cons] at h
      rcases h with h | h
      · exact absurd h.symm ha
      · rw [ih h]

/-- With an empty overflow list `popBubble` takes the bubble out of the queue
and leaves the other bubbles in their order. -/
theorem popBubble_empty (c : Constants) (s : State) (p : Nat) (hN : 1 ≤ c.BubbleEntities)
    (hlen : s.m_bubbleList.length ≤ c.BubbleEntities + c.BubbleOverLap + 1)
    (hold : s.m_oldEntities = []) :
    ∃ l f, popBubble c s p = some { s with m_bubbleList := l, fx := f }
      ∧ sameBubbles (removeOne s.m_bubbleList p) l := by
  obtain ⟨l, f, e, k⟩ := popAnimation_spec c s p hN hlen
  have hr : refreshBubble c s = some s := by
    unfold refreshBubble
    rw [hold]
    split <;> rfl
  refine ⟨removeOne l p, f, ?_, removeOne_sameBubbles p k⟩
  simp only [popBubble, hr, e, Option.bind_eq_bind, Option.some_bind]

/-- With an entity in the overflow list, a queue within its capacity and the
entity rows inside the list, `popBubble` promotes the front overflow entity to a
new bubble at the tail and then takes the popped bubble out. -/
theorem popBubble_promote (c : Constants) (s : State) (p : Nat) (e : NotificationEntity)
    (rest : List NotificationEntity) (hN : 1 ≤ c.BubbleEntities)
    (hlen : s.m_bubbleList.length ≤ c.BubbleEntities + c.BubbleOverLap)
    (hrow : c.BubbleEntities - 1 ≤ s.m_bubbleList.length)
    (hold : s.m_oldEntities = e :: rest) :
    ∃ nb l f, popBubble c s p
        = some { s with m_bubbleList := l, m_oldEntities := rest,
                        nextPtr := s.nextPtr + 1, fx := f }
      ∧ nb.ptr = s.nextPtr ∧ nb.entity = e
      ∧ sameBubbles (removeOne (s.m_bubbleList ++ [nb]) p) l := by
  obtain ⟨idx, g, v, f0, hc⟩ := createBubble_tail c { s with m_oldEntities := rest } e
    (((c.BubbleEntities + c.BubbleOverLap : Nat) : Int) - 1) hN hrow
  have hr : refreshBubble c s
      = some { s with m_bubbleList := s.m_bubbleList ++ [⟨s.nextPtr, e, idx, g, v⟩],
                      m_oldEntities := rest, nextPtr := s.nextPtr + 1, fx := f0 } := by
    unfold refreshBubble
    rw [if_pos (by omega), hold]
    simp only [hc, Option.bind_eq_bind, Option.some_bind]
  obtain ⟨l, f, ea, k⟩ := popAnimation_spec c
    { s with m_bubbleList := s.m_bubbleList ++ [⟨s.nextPtr, e, idx, g, v⟩],
             m_oldEntities := rest, nextPtr := s.nextPtr + 1, fx := f0 } p hN
    (by simp; omega)
  refine ⟨⟨s.nextPtr, e, idx, g, v⟩, removeOne l p, f, ?_, rfl, rfl, removeOne_sameBubbles p k⟩
  simp only [popBubble, hr, ea, Option.bind_eq_bind, Option.some_bind]

/-- The queue stays within its capacity over `pushBubble`. -/
theorem pushBubble_length_le (c : Constants) (s : State) (notify : NotificationEntity)
    (hN : 1 ≤ c.BubbleEntities)
    (hlen : s.m_bubbleList.length ≤ c.BubbleEntities + c.BubbleOverLap) :
    ∃ t, pushBubble c s notify = some t
      ∧ t.m_bubbleList.length ≤ c.BubbleEntities + c.BubbleOverLap := by
  obtain ⟨b, l, f, e, _, _, k⟩ := pushBubble_spec c s notify hN hlen
  refine ⟨_, e, ?_⟩
  have hl := sameBubbles_length k
  by_cases hfull : s.m_bubbleList.length = c.BubbleEntities + c.BubbleOverLap
  · rw [if_pos hfull, List.length_dropLast] at hl
    simp only [List.length_cons, hl]; omega
  · rw [if_neg hfull] at hl
    simp only [List.length_cons, hl]; omega

/-- The queue stays within its capacity over `popBubble` of a bubble that is
in the queue, whenever the call completes. -/
theorem popBubble_present_length_le (c : Constants) (s t : State) (p : Nat)
    (hN : 1 ≤ c.BubbleEntities)
    (hlen : s.m_bubbleList.length ≤ c.BubbleEntities + c.BubbleOverLap)
    (hp : p ∈ s.m_bubbleList.map Bubble.ptr)
    (hrow : s.m_oldEntities = [] ∨ c.BubbleEntities - 1 ≤ s.m_bubbleList.length)
    (ht : popBubble c s p = some t) :
    t.m_bubbleList.length ≤ c.BubbleEntities + c.BubbleOverLap := by
  cases hold : s.m_oldEntities with
  | nil =>
    obtain ⟨l, f, e, k⟩ := popBubble_empty c s p hN (by omega) hold
    rw [e] at ht
    have hl := sameBubbles_length k
    have := length_removeOne_of_mem _ _ hp
    cases ht
    simp only [hl]; omega
  | cons e rest =>
    have hrow2 : c.BubbleEntities - 1 ≤ s.m_bubbleList.length := by
      rcases hrow with h | h
      · rw [h] at hold; cases hold
      · exact h
    obtain ⟨nb, l, f, eq, _, _, k⟩ := popBubble_promote c s p e rest hN hlen hrow2 hold
    rw [eq] at ht
    have hl := sameBubbles_length k
    rw [removeOne_append_of_mem _ _ _ hp] at hl
    have := length_removeOne_of_mem _ _ hp
    cases ht
    simp only [hl, List.length_append, List.length_singleton]; omega

/-- C1 (code at the failing input): the sample queue holds `N + K = 5` bubbles
and one entity waits in overflow; `popBubble` of a bubble that is not in the
queue leaves `6` bubbles in the queue, more than `N + K`. -/
theorem C1_popBubble_absent_overfills :
    (sampleState [1, 2, 3, 4, 5] [9]).m_bubbleList.length
        = sampleConstants.BubbleEntities + sampleConstants.BubbleOverLap
      ∧ 77 ∉ (sampleState [1, 2, 3, 4, 5] [9]).m_bubbleList.map Bubble.ptr
      ∧ (popBubble sampleConstants (sampleState [1, 2, 3, 4, 5] [9]) 77).map
          (fun t => t.m_bubbleList.length) = some 6 := by
  decide

/-- C6 (code at the failing input): `popBubble` of a bubble that is not in the
queue `[1, 2]` while entity 9 waits in overflow appends a new bubble bound to
entity 9 and empties the overflow list. -/
theorem C6_popBubble_absent_promotes :
    77 ∉ (sampleState [1, 2] [9]).m_bubbleList.map Bubble.ptr
      ∧ (popBubble sampleConstants (sampleState [1, 2] [9]) 77).map
          (fun t => (t.m_bubbleList.map (fun b => (b.ptr, b.entity.id)),
                     t.m_oldEntities.map (fun e => e.id)))
        = some ([(1, 1), (2, 2), (100, 9)], []) := by
  decide

/-- C7 (code at the failing input): with three entity slots, one bubble in the
queue and an entity in overflow, `popBubble` of that bubble does not complete:
`createBubble` asks for the geometry of the last slot, which reads
`m_bubbleList[1]` of a list of length 1. -/
theorem C7_popBubble_short_queue_faults :
    1 ∈ (sampleState [1] [9]).m_bubbleList.map Bubble.ptr
      ∧ getBubbleHeightBefore (sampleState [1] [9]) 2 = none
      ∧ popBubble sampleConstants (sampleState [1] [9]) 1 = none := by
  decide

/-! ## calcReplaceId -/

theorem replaceLive_eq (notify : NotificationEntity) (l : List Bubble)
    (pers : List NotificationEntity) (find : Bool) :
    replaceLive notify l pers find
      = (l.map (fun b => if matchesNotify b.entity notify then { b with entity := notify } else b),
         pers ++ (l.filter (fun b => matchesNotify b.entity notify)).map Bubble.entity,
         find || l.any (fun b => matchesNotify b.entity notify)) := by
  induction l generalizing pers find with
  | nil => simp [replaceLive]
  | cons b rest ih =>
    unfold replaceLive
    by_cases hm : matchesNotify b.entity notify = true
    · simp [hm, ih]
    · simp [hm, ih]

theorem calcReplaceId_fresh (c : Constants) (s : State) (notify : NotificationEntity)
    (h : notify.replacesId = 0) :
    calcReplaceId c s notify
      = (false,
         { notify with id := (s.m_replaceCount + 1) % c.counterRange,
                       replacesId := (s.m_replaceCount + 1) % c.counterRange },
         { s with m_replaceCount := (s.m_replaceCount + 1) % c.counterRange }) := by
  simp [calcReplaceId, h]

theorem calcReplaceId_replace (c : Constants) (s : State) (notify : NotificationEntity)
    (h : notify.replacesId ≠ 0) :
    calcReplaceId c s notify
      = (s.m_bubbleList.any (fun b => matchesNotify b.entity notify), notify,
         { s with
            m_bubbleList := s.m_bubbleList.map (fun b =>
              if matchesNotify b.entity notify then { b with entity := notify } else b),
            persistence := s.persistence
              ++ (s.m_bubbleList.filter (fun b => matchesNotify b.entity notify)).map Bubble.entity,
            m_oldEntities := removeStale notify s.m_oldEntities.length 0 s.m_oldEntities }) := by
  simp [calcReplaceId, h, replaceLive_eq]

/-- C5: `calcReplaceId` with a replaces id other than 0 keeps the bubbles of the
queue and their order, binds every matching bubble to the new notification and
no other, creates no bubble, and returns whether a live bubble matched. -/
theorem C5_calcReplaceId_in_place (c : Constants) (s : State) (notify : NotificationEntity)
    (h : notify.replacesId ≠ 0) :
    (calcReplaceId c s notify).2.2.m_bubbleList.length = s.m_bubbleList.length
    ∧ (calcReplaceId c s notify).2.2.m_bubbleList.map Bubble.ptr = s.m_bubbleList.map Bubble.ptr
    ∧ (calcReplaceId c s notify).2.2.m_bubbleList
        = s.m_bubbleList.map (fun b =>
            if matchesNotify b.entity notify then { b with entity := notify } else b)
    ∧ (∀ (i : Nat) (b : Bubble), s.m_bubbleList[i]? = some b →
        ∃ b1, (calcReplaceId c s notify).2.2.m_bubbleList[i]? = some b1
          ∧ b1.ptr = b.ptr ∧ b1.bubbleIndex = b.bubbleIndex ∧ b1.geometry = b.geometry
          ∧ b1.visible = b.visible
          ∧ (matchesNotify b.entity notify = true → b1.entity = notify)
          ∧ (matchesNotify b.entity notify = false → b1.entity = b.entity))
    ∧ ((calcReplaceId c s notify).1 = true
        ↔ ∃ b ∈ s.m_bubbleList, matchesNotify b.entity notify = true)
    ∧ (calcReplaceId c s notify).2.2.nextPtr = s.nextPtr
    ∧ (calcReplaceId c s notify).2.1 = notify := by
  rw [calcReplaceId_replace c s notify h]
  refine ⟨by simp, ?_, rfl, ?_, by simp, rfl, rfl⟩
  · simp only [List.map_map]
    apply List.map_congr_left
    intro b _
    by_cases hm : matchesNotify b.entity notify = true <;> simp [hm]
  · intro i b hb
    simp only [List.getElem?_map, hb, Option.map_some']
    by_cases hm : matchesNotify b.entity notify = true
    · exact ⟨_, rfl, by simp [hm]⟩
    · exact ⟨_, rfl, by simp [hm]⟩

/-- The witness of C5: a second submission for the bubble of entity 2. -/
theorem C5_calcReplaceId_in_place_witness :
    (calcReplaceId sampleConstants (sampleState [1, 2, 3] []) (sampleEntity 2)).2.2.m_bubbleList.length
      = (sampleState [1, 2, 3] []).m_bubbleList.length :=
  (C5_calcReplaceId_in_place sampleConstants (sampleState [1, 2, 3] []) (sampleEntity 2)
    (by decide)).1

/-! ## Notify -/

theorem Notify_suppressed (c : Constants) (env : Env) (s : State) (a : NotifyArgs)
    (h : suppressed c env a = true) : Notify c env s a = some (0, s) := by
  unfold suppressed at h
  unfold Notify
  by_cases h1 : env.notifycationClosed = true
  · simp [h1]
  · by_cases h2 : (env.useBuiltinBubble && !env.displayValid) = true
    · simp [h1, h2]
    · simp only [h1, h2, Bool.false_or, Bool.not_eq_true] at h
      simp only [Bool.not_eq_true] at h1 h2
      simp only [h1, h2, h, if_true, Bool.false_eq_true, if_false]

theorem Notify_accepted (c : Constants) (env : Env) (s : State) (a : NotifyArgs)
    (h : suppressed c env a = false) : Notify c env s a = notifyAccepted c env s a := by
  unfold suppressed at h
  simp only [Bool.or_eq_false_iff] at h
  obtain ⟨⟨h1, h2⟩, h3⟩ := h
  unfold Notify
  simp only [h1, h2, h3, Bool.false_eq_true, if_false]

theorem notifySound_eq (s : State) (a : NotifyArgs) (p d y : Bool) :
    ∃ f, notifySound s a p d y = { s with fx := f } := by
  have hplay : ∀ t : State, (∃ g, t = { s with fx := g }) →
      ∃ g, playSystemSoundEffect t = { s with fx := g } := by
    rintro t ⟨g, rfl⟩
    exact ⟨_, rfl⟩
  have hfirst : ∃ g,
      (if (p && !d) = true then
        if a.actions.contains "cancel" = true then
          match a.hints.lookup "x-deepin-action-_view" with
          | some v => if containsSub v.toString "xdg-open" = true then playSystemSoundEffect s
                      else s
          | none => s
        else playSystemSoundEffect s
      else s) = { s with fx := g } := by
    split
    · split
      · split
        · split
          · exact hplay s ⟨_, rfl⟩
          · exact ⟨_, rfl⟩
        · exact ⟨_, rfl⟩
      · exact hplay s ⟨_, rfl⟩
    · exact ⟨_, rfl⟩
  show ∃ f, (if (y && d) = true then playSystemSoundEffect _ else _) = _
  split
  · exact hplay _ hfirst
  · exact hfirst

theorem displayBubble_total (c : Constants) (env : Env) (s : State) (n : NotificationEntity)
    (hN : 1 ≤ c.BubbleEntities)
    (hlen : s.m_bubbleList.length ≤ c.BubbleEntities + c.BubbleOverLap) :
    ∃ t, displayBubble c env s n = some t
      ∧ t.m_bubbleList.length ≤ c.BubbleEntities + c.BubbleOverLap
      ∧ t.m_replaceCount = s.m_replaceCount ∧ t.persistence = s.persistence := by
  unfold displayBubble
  by_cases hb : env.useBuiltinBubble = true
  · rw [if_pos hb]
    obtain ⟨t, ht, hl⟩ := pushBubble_length_le c s n hN hlen
    obtain ⟨b, l, f, e, _, _, _⟩ := pushBubble_spec c s n hN hlen
    rw [e] at ht
    cases ht
    exact ⟨_, e, hl, rfl, rfl⟩
  · rw [if_neg hb]
    exact ⟨_, rfl, hlen, rfl, rfl⟩

theorem calcReplaceId_length (c : Constants) (s : State) (notify : NotificationEntity) :
    (calcReplaceId c s notify).2.2.m_bubbleList.length = s.m_bubbleList.length := by
  by_cases h : notify.replacesId = 0
  · rw [calcReplaceId_fresh c s notify h]
  · rw [calcReplaceId_replace c s notify h]; simp

/-- The routing part of `Notify` completes and keeps the counter. -/
theorem route_total (c : Constants) (env : Env) (find sys lock dnd en center : Bool)
    (n : NotificationEntity) (s : State) (hN : 1 ≤ c.BubbleEntities)
    (hlen : s.m_bubbleList.length ≤ c.BubbleEntities + c.BubbleOverLap) :
    ∃ t,
      (if (!find) = true then
        if sys = true then
          displayBubble c env (if center = true then addOne s n else s) n
        else if lock = true then
          some (if center = true then addOne s n else s)
        else if (!sys && !dnd && en) = true then
          displayBubble c env (if center = true then addOne s n else s) n
        else some (if center = true then addOne s n else s)
      else if (!env.useBuiltinBubble) = true then
        some (emitShowBubble (if center = true then addOne s n else s) n.id)
      else some s) = some t
      ∧ t.m_bubbleList.length ≤ c.BubbleEntities + c.BubbleOverLap
      ∧ t.m_replaceCount = s.m_replaceCount := by
  have hc : (if center = true then addOne s n else s).m_bubbleList.length
        ≤ c.BubbleEntities + c.BubbleOverLap
      ∧ (if center = true then addOne s n else s).m_replaceCount = s.m_replaceCount := by
    split <;> exact ⟨hlen, rfl⟩
  obtain ⟨t, ht, hl, hcount, _⟩ := displayBubble_total c env
    (if center = true then addOne s n else s) n hN hc.1
  split
  · split
    · exact ⟨t, ht, hl, hcount.trans hc.2⟩
    · split
      · exact ⟨_, rfl, hc.1, hc.2⟩
      · split
        · exact ⟨t, ht, hl, hcount.trans hc.2⟩
        · exact ⟨_, rfl, hc.1, hc.2⟩
  · split
    · exact ⟨_, rfl, hc.1, hc.2⟩
    · exact ⟨_, rfl, hlen, rfl⟩

/-- An accepted submission completes from every state whose queue is within
its capacity, keeps the queue within its capacity, and returns the new value
of the counter (fresh submission) or the replaces id it was given. -/
theorem notifyAccepted_total (c : Constants) (env : Env) (s : State) (a : NotifyArgs)
    (hN : 1 ≤ c.BubbleEntities)
    (hlen : s.m_bubbleList.length ≤ c.BubbleEntities + c.BubbleOverLap) :
    ∃ id t, notifyAccepted c env s a = some (id, t)
      ∧ t.m_bubbleList.length ≤ c.BubbleEntities + c.BubbleOverLap
      ∧ (a.replacesId = 0 →
          id = (s.m_replaceCount + 1) % c.counterRange ∧ t.m_replaceCount = id)
      ∧ (a.replacesId ≠ 0 → id = a.replacesId ∧ t.m_replaceCount = s.m_replaceCount) := by
  obtain ⟨f, hf⟩ := notifySound_eq s a
    (if c.IgnoreList.contains (newNotification c env a).appName then true
      else (getAppSetting env a.appName .ENABELSOUND).toBool)
    (isDoNotDisturb env) (c.IgnoreList.contains (newNotification c env a).appName)
  have hrid : (newNotification c env a).replacesId = a.replacesId := rfl
  have hl2 := calcReplaceId_length c { s with fx := f } (newNotification c env a)
  have hfresh : a.replacesId = 0 →
      (calcReplaceId c { s with fx := f } (newNotification c env a)).2.1.id
          = (s.m_replaceCount + 1) % c.counterRange
        ∧ (calcReplaceId c { s with fx := f } (newNotification c env a)).2.2.m_replaceCount
          = (s.m_replaceCount + 1) % c.counterRange := by
    intro h0
    rw [calcReplaceId_fresh c _ _ (hrid.trans h0)]
    exact ⟨rfl, rfl⟩
  have hrep : a.replacesId ≠ 0 →
      (calcReplaceId c { s with fx := f } (newNotification c env a)).2.2.m_replaceCount
          = s.m_replaceCount := by
    intro h0
    rw [calcReplaceId_replace c _ _ (by rw [hrid]; exact h0)]
  obtain ⟨t, ht, hl, hcount⟩ := route_total c env
    (calcReplaceId c { s with fx := f } (newNotification c env a)).1
    (c.IgnoreList.contains (newNotification c env a).appName)
    (env.locked && !(if c.IgnoreList.contains (newNotification c env a).appName then true
        else (getAppSetting env a.appName .LOCKSCREENSHOWNOTIFICATION).toBool))
    (isDoNotDisturb env) (getAppSetting env a.appName .ENABELNOTIFICATION).toBool
    (newNotification c env a).showInNotifyCenter
    (calcReplaceId c { s with fx := f } (newNotification c env a)).2.1
    (calcReplaceId c { s with fx := f } (newNotification c env a)).2.2 hN
    (by rw [hl2]; exact hlen)
  refine ⟨if a.replacesId = 0 then
      (calcReplaceId c { s with fx := f } (newNotification c env a)).2.1.id
    else a.replacesId, t, ?_, hl, ?_, ?_⟩
  · unfold notifyAccepted
    simp only [hf]
    rw [ht]
    rfl
  · intro h0
    obtain ⟨h1, h2⟩ := hfresh h0
    rw [if_pos h0]
    exact ⟨h1, by rw [hcount, h2, h1]⟩
  · intro h0
    rw [if_neg h0]
    exact ⟨rfl, by rw [hcount, hrep h0]⟩

/-- Every submission completes from a state whose queue is within its
capacity; a suppressed one returns 0 and changes nothing. -/
theorem Notify_total (c : Constants) (env : Env) (s : State) (a : NotifyArgs)
    (hN : 1 ≤ c.BubbleEntities)
    (hlen : s.m_bubbleList.length ≤ c.BubbleEntities + c.BubbleOverLap) :
    ∃ id t, Notify c env s a = some (id, t)
      ∧ t.m_bubbleList.length ≤ c.BubbleEntities + c.BubbleOverLap
      ∧ (suppressed c env a = true → id = 0 ∧ t = s)
      ∧ (suppressed c env a = false → a.replacesId = 0 →
          id = (s.m_replaceCount + 1) % c.counterRange ∧ t.m_replaceCount = id)
      ∧ (suppressed c env a = false → a.replacesId ≠ 0 →
          id = a.replacesId ∧ t.m_replaceCount = s.m_replaceCount) := by
  cases hs : suppressed c env a with
  | true =>
    refine ⟨0, s, Notify_suppressed c env s a hs, hlen, fun _ => ⟨rfl, rfl⟩, ?_, ?_⟩ <;>
      (intro h; cases h)
  | false =>
    obtain ⟨id, t, e, hl, h1, h2⟩ := notifyAccepted_total c env s a hN hlen
    refine ⟨id, t, (Notify_accepted c env s a hs).trans e, hl, ?_, fun _ => h1, fun _ => h2⟩
    intro h
    cases h

/-! ## Fresh ids -/

theorem runNotify_fresh (c : Constants) (hN : 1 ≤ c.BubbleEntities)
    (subs : List (Env × NotifyArgs)) :
    ∀ s : State, s.m_bubbleList.length ≤ c.BubbleEntities + c.BubbleOverLap →
      s.m_replaceCount + subs.length < c.counterRange →
      ∃ t ids, runNotify c s subs = some (t, ids) ∧ ids.length = subs.length
        ∧ s.m_replaceCount ≤ t.m_replaceCount
        ∧ (∀ (i : Nat) (si : Env × NotifyArgs) (idi : Nat), subs[i]? = some si →
            ids[i]? = some idi → si.2.replacesId = 0 →
            idi ≤ t.m_replaceCount
              ∧ (suppressed c si.1 si.2 = false → s.m_replaceCount < idi))
        ∧ acceptedFreshIdsIncrease c subs ids := by
  induction subs with
  | nil =>
    intro s _ _
    refine ⟨s, [], rfl, rfl, le_refl _, ?_, ?_⟩
    · intro i si idi h; simp at h
    · intro i j si sj idi idj _ h; simp at h
  | cons x rest ih =>
    intro s hlen hover
    obtain ⟨env, a⟩ := x
    obtain ⟨id, t1, e1, hl1, hsup, hfr, hrp⟩ := Notify_total c env s a hN hlen
    simp only [List.length_cons] at hover
    have hmod : (s.m_replaceCount + 1) % c.counterRange = s.m_replaceCount + 1 :=
      Nat.mod_eq_of_lt (by omega)
    have hc1 : s.m_replaceCount ≤ t1.m_replaceCount ∧ t1.m_replaceCount ≤ s.m_replaceCount + 1
        ∧ (a.replacesId = 0 →
            id ≤ t1.m_replaceCount ∧ (suppressed c env a = false → s.m_replaceCount < id)) := by
      cases hs : suppressed c env a with
      | true =>
        obtain ⟨h1, h2⟩ := hsup hs
        subst h1 h2
        exact ⟨le_refl _, by omega, fun _ => ⟨by omega, fun h => by cases h⟩⟩
      | false =>
        by_cases h0 : a.replacesId = 0
        · obtain ⟨h1, h2⟩ := hfr hs h0
          rw [hmod] at h1
          exact ⟨by omega, by omega, fun _ => ⟨by omega, fun _ => by omega⟩⟩
        · obtain ⟨_, h2⟩ := hrp hs h0
          exact ⟨by omega, by omega, fun h => absurd h h0⟩
    obtain ⟨t, ids, e2, hlen2, hle2, helem, hpair⟩ := ih t1 hl1 (by omega)
    refine ⟨t, id :: ids, ?_, by simp [hlen2], by omega, ?_, ?_⟩
    · simp [runNotify, e1, e2]
    · intro i si idi hsi hidi hz
      cases i with
      | zero =>
        simp only [List.getElem?_cons_zero, Option.some.injEq] at hsi hidi
        subst hsi hidi
        obtain ⟨ha, hb⟩ := hc1.2.2 hz
        exact ⟨by omega, hb⟩
      | succ i =>
        simp only [List.getElem?_cons_succ] at hsi hidi
        obtain ⟨ha, hb⟩ := helem i si idi hsi hidi hz
        exact ⟨ha, fun h => by have := hb h; omega⟩
    · intro i j si sj idi idj hij hsi hsj hidi hidj hzi hzj hacc
      cases j with
      | zero => omega
      | succ j =>
        simp only [List.getElem?_cons_succ] at hsj hidj
        have hj := (helem j sj idj hsj hidj hzj).2 hacc
        cases i with
        | zero =>
          simp only [List.getElem?_cons_zero, Option.some.injEq] at hsi hidi
          subst hsi hidi
          have := (hc1.2.2 hzi).1
          omega
        | succ i =>
          simp only [List.getElem?_cons_succ] at hsi hidi
          exact hpair i j si sj idi idj (by omega) hsi hsj hidi hidj hzi hzj hacc

/-- C3 (as amended): in a sequence of submissions that starts with the queue
within its capacity and does not exhaust the range of the id counter, every
submission with `replacesId == 0` that passes the guards of `Notify` returns an
id greater than the id returned by every earlier submission with
`replacesId == 0`; the sequence of calls completes. -/
theorem C3_accepted_fresh_ids_increase (c : Constants) (s : State)
    (subs : List (Env × NotifyArgs)) (hN : 1 ≤ c.BubbleEntities)
    (hlen : s.m_bubbleList.length ≤ c.BubbleEntities + c.BubbleOverLap)
    (hrange : s.m_replaceCount + subs.length < c.counterRange) :
    ∃ t ids, runNotify c s subs = some (t, ids) ∧ ids.length = subs.length
      ∧ acceptedFreshIdsIncrease c subs ids := by
  obtain ⟨t, ids, e, hl, _, _, hp⟩ := runNotify_fresh c hN subs s hlen hrange
  exact ⟨t, ids, e, hl, hp⟩

/-- The witness of C3: the two sample submissions on the empty manager. -/
theorem C3_accepted_fresh_ids_increase_witness :
    ∃ t ids, runNotify sampleConstants (sampleState [] []) sampleFreshPair = some (t, ids)
      ∧ ids.length = sampleFreshPair.length
      ∧ acceptedFreshIdsIncrease sampleConstants sampleFreshPair ids :=
  C3_accepted_fresh_ids_increase sampleConstants (sampleState [] []) sampleFreshPair
    (by decide) (by decide) (by decide)

/-- C3 (counterexample): on the empty manager a fresh submission of an enabled
application returns 1 and the next fresh submission, of an application whose
notifications are disabled, returns 0, which is not greater than 1. -/
theorem C3_counterexample_suppressed_fresh_returns_zero :
    (runNotify sampleConstants (sampleState [] []) sampleFreshPair).map Prod.snd = some [1, 0]
      ∧ ¬ freshIdsIncrease sampleFreshPair [1, 0] := by
  refine ⟨by decide, ?_⟩
  intro h
  have := h 0 1 (sampleEnv (QTime.hm 12 0), sampleArgs "app" 0)
    (sampleEnv (QTime.hm 12 0), sampleArgs "other" 0) 1 0 (by decide) rfl rfl rfl rfl rfl rfl
  omega

/-! ## Replace -/

/-- C4 (as amended): a submission that passes the guards of `Notify`, has
`replacesId == X != 0` and matches a bubble of the queue returns `X` and hands
the old entity of every matching bubble to the history sink once, in queue
order; nothing else is archived with the built-in bubbles (without them the new
notification follows when it is shown in the notification center). -/
theorem C4_accepted_replace_archives_once (c : Constants) (env : Env) (s : State)
    (a : NotifyArgs) (hacc : suppressed c env a = false) (hX : a.replacesId ≠ 0)
    (hmatch : ∃ b ∈ s.m_bubbleList,
      b.entity.replacesId = a.replacesId ∧ b.entity.appName = a.appName) :
    ∃ t, Notify c env s a = some (a.replacesId, t)
      ∧ t.persistence = s.persistence
          ++ (s.m_bubbleList.filter
                (fun b => matchesNotify b.entity (newNotification c env a))).map Bubble.entity
          ++ (if !env.useBuiltinBubble && (newNotification c env a).showInNotifyCenter
              then [newNotification c env a] else [])
      ∧ (env.useBuiltinBubble = true → ∀ old : Bubble,
          s.m_bubbleList.filter (fun b => matchesNotify b.entity (newNotification c env a))
            = [old] →
          t.persistence = s.persistence ++ [old.entity]) := by
  obtain ⟨f, hf⟩ := notifySound_eq s a
    (if c.IgnoreList.contains (newNotification c env a).appName then true
      else (getAppSetting env a.appName .ENABELSOUND).toBool)
    (isDoNotDisturb env) (c.IgnoreList.contains (newNotification c env a).appName)
  have hrid : (newNotification c env a).replacesId ≠ 0 := hX
  have hfind : s.m_bubbleList.any (fun b => matchesNotify b.entity (newNotification c env a))
      = true := by
    obtain ⟨b, hb, h1, h2⟩ := hmatch
    rw [List.any_eq_true]
    refine ⟨b, hb, ?_⟩
    show (b.entity.replacesId == a.replacesId && b.entity.appName == a.appName) = true
    simp [h1, h2]
  rw [Notify_accepted c env s a hacc]
  unfold notifyAccepted
  simp only [hf, calcReplaceId_replace c _ _ hrid, hfind, Bool.not_true, Bool.false_eq_true,
    if_false, if_neg hX]
  by_cases hb : env.useBuiltinBubble = true
  · simp [hb]
    intro old hold
    rw [hold]; rfl
  · simp only [Bool.not_eq_true] at hb
    by_cases hc : (newNotification c env a).showInNotifyCenter = true
    · simp [hb, hc, addOne, emitShowBubble]
    · simp only [Bool.not_eq_true] at hc
      simp [hb, hc, emitShowBubble]

/-- The witness of C4: a second submission for the live bubble of entity 5. -/
theorem C4_accepted_replace_archives_once_witness :
    ∃ t, Notify sampleConstants (sampleEnv (QTime.hm 12 0)) (sampleState [4, 5] [])
          (sampleArgs "app" 5) = some ((sampleArgs "app" 5).replacesId, t)
      ∧ t.persistence = (sampleState [4, 5] []).persistence
          ++ ((sampleState [4, 5] []).m_bubbleList.filter
                (fun b => matchesNotify b.entity
                  (newNotification sampleConstants (sampleEnv (QTime.hm 12 0))
                    (sampleArgs "app" 5)))).map Bubble.entity
          ++ (if !(sampleEnv (QTime.hm 12 0)).useBuiltinBubble
                && (newNotification sampleConstants (sampleEnv (QTime.hm 12 0))
                      (sampleArgs "app" 5)).showInNotifyCenter
              then [newNotification sampleConstants (sampleEnv (QTime.hm 12 0))
                      (sampleArgs "app" 5)] else [])
      ∧ ((sampleEnv (QTime.hm 12 0)).useBuiltinBubble = true → ∀ old : Bubble,
          (sampleState [4, 5] []).m_bubbleList.filter
              (fun b => matchesNotify b.entity
                (newNotification sampleConstants (sampleEnv (QTime.hm 12 0))
                  (sampleArgs "app" 5))) = [old] →
          t.persistence = (sampleState [4, 5] []).persistence ++ [old.entity]) :=
  C4_accepted_replace_archives_once sampleConstants (sampleEnv (QTime.hm 12 0))
    (sampleState [4, 5] []) (sampleArgs "app" 5) (by decide) (by decide) (by decide)

/-- C4 (counterexample): the queue holds a bubble of application `app` with
replaces id 5; a submission of `app` with `replacesId == 5` while the display
service is not valid returns 0, not 5, and archives nothing. -/
theorem C4_counterexample_suppressed_replace_returns_zero :
    (∃ b ∈ (sampleState [5] []).m_bubbleList,
        b.entity.replacesId = (sampleArgs "app" 5).replacesId
          ∧ b.entity.appName = (sampleArgs "app" 5).appName)
      ∧ Notify sampleConstants sampleNoDisplayEnv (sampleState [5] []) (sampleArgs "app" 5)
          = some (0, sampleState [5] []) := by
  decide

/-! ## Supplements -/

/-- With the entity rows inside the list, `popBubble` of a bubble of the queue
takes that bubble out, takes the front entity out of the overflow list and
appends a new bubble bound to it: the queue keeps its length. -/
theorem popBubble_present_promotes (c : Constants) (s : State) (p : Nat)
    (e : NotificationEntity) (rest : List NotificationEntity) (hN : 1 ≤ c.BubbleEntities)
    (hlen : s.m_bubbleList.length ≤ c.BubbleEntities + c.BubbleOverLap)
    (hrow : c.BubbleEntities - 1 ≤ s.m_bubbleList.length)
    (hold : s.m_oldEntities = e :: rest) (hp : p ∈ s.m_bubbleList.map Bubble.ptr) :
    ∃ t nb, popBubble c s p = some t ∧ t.m_oldEntities = rest
      ∧ nb.ptr = s.nextPtr ∧ nb.entity = e
      ∧ sameBubbles (removeOne s.m_bubbleList p ++ [nb]) t.m_bubbleList
      ∧ t.m_bubbleList.length = s.m_bubbleList.length := by
  obtain ⟨nb, l, f, eq, h1, h2, k⟩ := popBubble_promote c s p e rest hN hlen hrow hold
  rw [removeOne_append_of_mem _ _ _ hp] at k
  refine ⟨_, nb, eq, rfl, h1, h2, k, ?_⟩
  have hl := sameBubbles_length k
  have := length_removeOne_of_mem _ _ hp
  simp only [hl, List.length_append, List.length_singleton]
  omega

/-- With an empty overflow list `popBubble` of a bubble of the queue leaves the
other bubbles in their order and the overflow list empty. -/
theorem popBubble_present_empty (c : Constants) (s : State) (p : Nat)
    (hN : 1 ≤ c.BubbleEntities)
    (hlen : s.m_bubbleList.length ≤ c.BubbleEntities + c.BubbleOverLap)
    (hold : s.m_oldEntities = []) :
    ∃ t, popBubble c s p = some t ∧ t.m_oldEntities = []
      ∧ sameBubbles (removeOne s.m_bubbleList p) t.m_bubbleList := by
  obtain ⟨l, f, e, k⟩ := popBubble_empty c s p hN (by omega) hold
  exact ⟨_, e, hold, k⟩

/-- For all constants: `popBubble` of a bubble that was allocated before and is
not in the queue, with an entity in overflow, appends a bubble bound to the front
overflow entity; a queue of `N + K` bubbles is left with `N + K + 1`. -/
theorem popBubble_absent_promotes_general (c : Constants) (s : State) (p : Nat)
    (e : NotificationEntity) (rest : List NotificationEntity) (hN : 1 ≤ c.BubbleEntities)
    (hlen : s.m_bubbleList.length ≤ c.BubbleEntities + c.BubbleOverLap)
    (hrow : c.BubbleEntities - 1 ≤ s.m_bubbleList.length)
    (hold : s.m_oldEntities = e :: rest) (hp : p ∉ s.m_bubbleList.map Bubble.ptr)
    (hq : p ≠ s.nextPtr) :
    ∃ t nb, popBubble c s p = some t ∧ t.m_oldEntities = rest
      ∧ nb.ptr = s.nextPtr ∧ nb.entity = e
      ∧ sameBubbles (s.m_bubbleList ++ [nb]) t.m_bubbleList
      ∧ t.m_bubbleList.length = s.m_bubbleList.length + 1 := by
  obtain ⟨nb, l, f, eq, h1, h2, k⟩ := popBubble_promote c s p e rest hN hlen hrow hold
  have hp2 : p ∉ (s.m_bubbleList ++ [nb]).map Bubble.ptr := by
    simp only [List.map_append, List.map_cons, List.map_nil, List.mem_append,
      List.mem_singleton, not_or]
    exact ⟨hp, by rw [h1]; exact hq⟩
  rw [removeOne_of_not_mem _ _ hp2] at k
  refine ⟨_, nb, eq, rfl, h1, h2, k, ?_⟩
  simp only [sameBubbles_length k, List.length_append, List.length_singleton]

/-- At the last value of a 32 bit counter the next fresh id is 0. -/
theorem Notify_fresh_wraps :
    (Notify sampleConstants (sampleEnv (QTime.hm 12 0))
        { sampleState [] [] with m_replaceCount := 4294967295 } (sampleArgs "app" 0)).map
      Prod.fst = some 0 := by
  decide

/-- The witness of C8: without the master switch do-not-disturb is off. -/
theorem C8_isDoNotDisturb_switches_witness :
    isDoNotDisturb (sampleEnv (QTime.hm 23 30)) = false :=
  (C8_isDoNotDisturb_switches (sampleEnv (QTime.hm 23 30))).1 (by decide)

/-- The witness of C10: position 2 behind two bubbles of height 60 and position
0, on the 1920 x 1080 sample display. -/
theorem C10_getBubbleGeometry_reference_witness :
    (∃ r, getBubbleGeometry sampleConstants (sampleState [1, 2] []) 2 = some r
      ∧ r.x = 660 ∧ r.y = 164 ∧ r.width = 600 ∧ r.height = 60)
    ∧ (∃ r, getBubbleGeometry sampleConstants (sampleState [1, 2] []) 0 = some r
      ∧ r.x = Int.tdiv (1920 - sampleConstants.BubbleWidth) 2
      ∧ r.y = sampleConstants.ScreenPadding) := by
  obtain ⟨r, h, hx, hy, hw, hh⟩ :=
    (C10_getBubbleGeometry_reference sampleConstants (sampleState [1, 2] [])).1 2
      (by decide) (by decide) (by decide) (by decide) (by decide) (by decide) (by decide)
      (by decide)
  exact ⟨⟨r, h, hx.trans (by decide), hy.trans (by decide), hw, hh⟩,
    (C10_getBubbleGeometry_reference sampleConstants (sampleState [1, 2] [])).2.2.2
      (by decide) rfl rfl (by decide) (by decide)⟩

/-! ## Suppressed submissions and unsupported items -/

/-- C11: `Notify` returns 0 and leaves the whole state (counter, queue,
overflow, history, effects and so sounds) as it was when the display service is
invalid with the built-in bubbles, or when the enable switch of the application
is off and the application is no system sender; the enable switch does not stop
a system sender, whose submission runs the body of `Notify` and completes. -/
theorem C11_suppressed_submissions (c : Constants) (env : Env) (s : State) (a : NotifyArgs) :
    (env.useBuiltinBubble = true → env.displayValid = false →
      Notify c env s a = some (0, s))
    ∧ ((getAppSetting env a.appName .ENABELNOTIFICATION).toBool = false →
        c.IgnoreList.contains a.appName = false → Notify c env s a = some (0, s))
    ∧ (c.IgnoreList.contains a.appName = true → env.notifycationClosed = false →
        (env.useBuiltinBubble && !env.displayValid) = false →
        Notify c env s a = notifyAccepted c env s a
        ∧ (1 ≤ c.BubbleEntities →
            s.m_bubbleList.length ≤ c.BubbleEntities + c.BubbleOverLap →
            ∃ id t, Notify c env s a = some (id, t)
              ∧ (a.replacesId = 0 →
                  id = (s.m_replaceCount + 1) % c.counterRange ∧ t.m_replaceCount = id)
              ∧ (a.replacesId ≠ 0 → id = a.replacesId))) := by
  refine ⟨?_, ?_, ?_⟩
  · intro h1 h2
    exact Notify_suppressed c env s a (by simp [suppressed, h1, h2])
  · intro h1 h2
    exact Notify_suppressed c env s a (by unfold suppressed; rw [h1, h2]; simp)
  · intro h1 h2 h3
    have hs : suppressed c env a = false := by
      unfold suppressed
      rw [h1, h2, h3]
      simp
    refine ⟨Notify_accepted c env s a hs, ?_⟩
    intro hN hlen
    obtain ⟨id, t, e, _, _, hf, hr⟩ := Notify_total c env s a hN hlen
    exact ⟨id, t, e, hf hs, fun h => (hr hs h).1⟩

/-- An instance of C11: the display service is not valid. -/
theorem C11_suppressed_submissions_witness :
    Notify sampleConstants sampleNoDisplayEnv (sampleState [1, 2] [9]) (sampleArgs "app" 0)
      = some (0, sampleState [1, 2] [9]) :=
  (C11_suppressed_submissions sampleConstants sampleNoDisplayEnv (sampleState [1, 2] [9])
    (sampleArgs "app" 0)).1 (by decide) (by decide)

/-- C17: an item number that is no enumerator (and `SHOWONTOP` without the
`show-on-top` key) makes the setting getter return an invalid variant and the
D-Bus getter reply `NotSupported`; an enumerated item whose stored value is
valid is returned without an error. -/
theorem C17_unsupported_items (k : ItemCast) (env : Env) :
    (∀ (id : String) (item : Nat), k.appItem item = none →
        getAppSettingCast k env id item = QVariant.invalid
          ∧ GetAppInfo k env id item = ⟨some QDBusError.NotSupported, QVariant.invalid⟩)
    ∧ (∀ (id : String) (item : Nat), k.appItem item = some AppConfigurationItem.SHOWONTOP →
        containsShowOnTop env (if id.isEmpty then "empty-app" else id) = false →
        getAppSettingCast k env id item = QVariant.invalid
          ∧ GetAppInfo k env id item = ⟨some QDBusError.NotSupported, QVariant.invalid⟩)
    ∧ (∀ item : Nat, k.systemItem item = none →
        getSystemSettingCast k env item = QVariant.invalid
          ∧ GetSystemInfo k env item = ⟨some QDBusError.NotSupported, QVariant.invalid⟩)
    ∧ (∀ (id : String) (item : Nat) (it : AppConfigurationItem), k.appItem item = some it →
        (getAppSetting env id it).isValid = true →
        getAppSettingCast k env id item = getAppSetting env id it
          ∧ GetAppInfo k env id item = ⟨none, getAppSetting env id it⟩)
    ∧ (∀ (item : Nat) (it : SystemConfigurationItem), k.systemItem item = some it →
        (getSystemSetting env it).isValid = true →
        getSystemSettingCast k env item = getSystemSetting env it
          ∧ GetSystemInfo k env item = ⟨none, getSystemSetting env it⟩) := by
  refine ⟨?_, ?_, ?_, ?_, ?_⟩
  · intro id item h
    simp [GetAppInfo, getAppSettingCast, h, QVariant.isValid]
  · intro id item h hk
    have : getAppSetting env id AppConfigurationItem.SHOWONTOP = QVariant.invalid := by
      simp only [getAppSetting, hk]
      rfl
    simp [GetAppInfo, getAppSettingCast, h, this, QVariant.isValid]
  · intro item h
    simp [GetSystemInfo, getSystemSettingCast, h, QVariant.isValid]
  · intro id item it h hv
    simp [GetAppInfo, getAppSettingCast, h, hv]
  · intro item it h hv
    simp [GetSystemInfo, getSystemSettingCast, h, hv]

/-- An instance of C17: item number 8 is past the last application item. -/
theorem C17_unsupported_items_witness :
    getAppSettingCast sampleItemCast (sampleEnv (QTime.hm 12 0)) "app" 8 = QVariant.invalid
      ∧ GetAppInfo sampleItemCast (sampleEnv (QTime.hm 12 0)) "app" 8
          = ⟨some QDBusError.NotSupported, QVariant.invalid⟩ :=
  (C17_unsupported_items sampleItemCast (sampleEnv (QTime.hm 12 0))).1 "app" 8 (by decide)

/-! ## What a completed queue operation leaves -/

theorem pushAnimationStep_some (c : Constants) (s t : State) (index : Nat)
    (h : pushAnimationStep c s index = some t) :
    ∃ l g, t = { s with m_bubbleList := l, fx := s.fx ++ g }
      ∧ sameBubbles s.m_bubbleList l ∧ g.count Effect.playSound = 0 := by
  unfold pushAnimationStep at h
  cases h1 : getLastStableRect c s ((index : Int) - 1) with
  | none => simp [h1] at h
  | some r1 =>
    cases h2 : getBubbleGeometry c s index with
    | none => simp [h1, h2] at h
    | some r2 =>
      cases h3 : s.m_bubbleList[index]? with
      | none => simp [h1, h2, h3] at h
      | some item =>
        simp only [h1, h2, h3, Option.bind_eq_bind, Option.some_bind, Option.some.injEq] at h
        subst h
        exact ⟨_, _, rfl, sameBubbles_set s.m_bubbleList index _ index _ h3, by simp⟩

theorem pushAnimationLoop_some (c : Constants) (k : Nat) :
    ∀ (index : Nat) (s t : State), pushAnimationLoop c k index s = some t →
      ∃ l g, t = { s with m_bubbleList := l, fx := s.fx ++ g }
        ∧ sameBubbles s.m_bubbleList l ∧ g.count Effect.playSound = 0 := by
  induction k with
  | zero =>
    intro index s t h
    simp only [pushAnimationLoop, Option.some.injEq] at h
    subst h
    exact ⟨s.m_bubbleList, [], by simp, sameBubbles_refl _, rfl⟩
  | succ k ih =>
    intro index s t h
    rw [pushAnimationLoop] at h
    cases h1 : pushAnimationStep c s (index + 1) with
    | none => simp [h1] at h
    | some s1 =>
      simp only [h1] at h
      obtain ⟨l1, g1, e1, k1, c1⟩ := pushAnimationStep_some c s s1 _ h1
      obtain ⟨l2, g2, e2, k2, c2⟩ := ih _ _ _ h
      subst e1
      refine ⟨l2, g1 ++ g2, ?_, sameBubbles_trans k1 k2, by simp [c1, c2]⟩
      rw [e2]
      simp

theorem pushAnimation_some (c : Constants) (s t : State) (bubble : Nat)
    (h : pushAnimation c s bubble = some t) :
    ∃ l g, t = { s with m_bubbleList := l, fx := s.fx ++ g }
      ∧ sameBubbles s.m_bubbleList l ∧ g.count Effect.playSound = 0 := by
  unfold pushAnimation at h
  cases hi : indexOf s.m_bubbleList bubble with
  | none =>
    simp only [hi, Option.some.injEq] at h
    subst h
    exact ⟨s.m_bubbleList, [], by simp, sameBubbles_refl _, rfl⟩
  | some index =>
    simp only [hi] at h
    exact pushAnimationLoop_some c _ _ _ _ h

theorem popAnimationStep_some (c : Constants) (s t : State) (index : Nat)
    (h : popAnimationStep c s index = some t) :
    ∃ l g, t = { s with m_bubbleList := l, fx := s.fx ++ g }
      ∧ sameBubbles s.m_bubbleList l ∧ g.count Effect.playSound = 0 := by
  unfold popAnimationStep at h
  cases h1 : getBubbleGeometry c s index with
  | none => simp [h1] at h
  | some r1 =>
    cases h2 : getBubbleGeometry c s ((index : Int) - 1) with
    | none => simp [h1, h2] at h
    | some r2 =>
      cases h3 : s.m_bubbleList[index]? with
      | none => simp [h1, h2, h3] at h
      | some item =>
        simp only [h1, h2, h3, Option.bind_eq_bind, Option.some_bind, Option.some.injEq] at h
        subst h
        refine ⟨_, _, by rw [List.append_assoc], sameBubbles_set s.m_bubbleList index _ index _ h3, ?_⟩
        split <;> simp

theorem popAnimationLoop_some (c : Constants) (k : Nat) :
    ∀ (index : Nat) (s t : State), popAnimationLoop c k index s = some t →
      ∃ l g, t = { s with m_bubbleList := l, fx := s.fx ++ g }
        ∧ sameBubbles s.m_bubbleList l ∧ g.count Effect.playSound = 0 := by
  induction k with
  | zero =>
    intro index s t h
    simp only [popAnimationLoop, Option.some.injEq] at h
    subst h
    exact ⟨s.m_bubbleList, [], by simp, sameBubbles_refl _, rfl⟩
  | succ k ih =>
    intro index s t h
    rw [popAnimationLoop] at h
    cases h1 : popAnimationStep c s (index + 1) with
    | none => simp [h1] at h
    | some s1 =>
      simp only [h1] at h
      obtain ⟨l1, g1, e1, k1, c1⟩ := popAnimationStep_some c s s1 _ h1
      obtain ⟨l2, g2, e2, k2, c2⟩ := ih _ _ _ h
      subst e1
      refine ⟨l2, g1 ++ g2, ?_, sameBubbles_trans k1 k2, by simp [c1, c2]⟩
      rw [e2]
      simp

theorem popAnimation_some (c : Constants) (s t : State) (bubble : Nat)
    (h : popAnimation c s bubble = some t) :
    ∃ l g, t = { s with m_bubbleList := l, fx := s.fx ++ g }
      ∧ sameBubbles s.m_bubbleList l ∧ g.count Effect.playSound = 0 := by
  unfold popAnimation at h
  cases hi : indexOf s.m_bubbleList bubble with
  | none =>
    simp only [hi, Option.some.injEq] at h
    subst h
    exact ⟨s.m_bubbleList, [], by simp, sameBubbles_refl _, rfl⟩
  | some index =>
    simp only [hi] at h
    cases h1 : getBubbleGeometry c s index with
    | none => simp [h1] at h
    | some r1 =>
      cases h2 : getBubbleGeometry c s 0 with
      | none => simp [h1, h2] at h
      | some r2 =>
        simp only [h1, h2, Option.bind_eq_bind, Option.some_bind] at h
        cases h3 : popAnimationLoop c (s.m_bubbleList.length - 1 - index) index
            { s with fx := s.fx ++ [Effect.startMove bubble r1 r2 true] } with
        | none => simp [h3] at h
        | some s2 =>
          simp only [h3, Option.some_bind, Option.some.injEq] at h
          obtain ⟨l2, g2, e2, k2, c2⟩ := popAnimationLoop_some c _ _ _ _ h3
          subst h
          subst e2
          refine ⟨l2, [Effect.startMove bubble r1 r2 true] ++ g2
            ++ l2.reverse.map (fun b => Effect.raise b.ptr), ?_, k2, ?_⟩
          · simp
          · simp only [List.count_append, c2]
            simp [List.count_eq_zero]

theorem createBubble_some (c : Constants) (s t : State) (notify : NotificationEntity)
    (index : Int) (b : Bubble) (h : createBubble c s notify index = some (b, t)) :
    b.ptr = s.nextPtr ∧ b.entity = notify
      ∧ ∃ g, t = { s with nextPtr := s.nextPtr + 1, fx := s.fx ++ g }
          ∧ g.count Effect.playSound = 0 := by
  unfold createBubble at h
  by_cases h0 : index = 0
  · simp only [h0, ne_eq, not_true_eq_false, if_false] at h
    cases h1 : getBubbleGeometry c s 0 with
    | none => simp [h1] at h
    | some r =>
      simp only [h1, Option.bind_eq_bind, Option.some_bind, Option.some.injEq,
        Prod.mk.injEq] at h
      obtain ⟨hb, ht⟩ := h
      subst hb ht
      exact ⟨rfl, rfl, _, rfl, by simp⟩
  · simp only [h0, ne_eq, not_false_eq_true, if_true] at h
    cases h1 : getBubbleGeometry c s ((c.BubbleEntities : Int) + (c.BubbleOverLap : Int)) with
    | none => simp [h1] at h
    | some r1 =>
      cases h2 : getBubbleGeometry c s ((c.BubbleEntities : Int) + (c.BubbleOverLap : Int) - 1) with
      | none => simp [h1, h2] at h
      | some r2 =>
        simp only [Nat.cast_add, h1, h2, Option.bind_eq_bind, Option.some_bind,
          Option.some.injEq, Prod.mk.injEq] at h
        obtain ⟨hb, ht⟩ := h
        subst hb ht
        exact ⟨rfl, rfl, _, rfl, by simp⟩

/-- A completed `pushBubble`: the new bubble at the head, the tail bubble of a
full queue moved to the front of the overflow list, no sound. -/
theorem pushBubble_some (c : Constants) (s t : State) (notify : NotificationEntity)
    (h : pushBubble c s notify = some t) :
    ∃ b l g, t = { s with
            m_bubbleList := b :: l,
            m_oldEntities :=
              if s.m_bubbleList.length = c.BubbleEntities + c.BubbleOverLap then
                (s.m_bubbleList.getLast?.map Bubble.entity).toList ++ s.m_oldEntities
              else s.m_oldEntities,
            nextPtr := s.nextPtr + 1, fx := s.fx ++ g }
      ∧ b.ptr = s.nextPtr ∧ b.entity = notify
      ∧ sameBubbles
          (if s.m_bubbleList.length = c.BubbleEntities + c.BubbleOverLap then
            s.m_bubbleList.dropLast else s.m_bubbleList) l
      ∧ g.count Effect.playSound = 0 := by
  unfold pushBubble at h
  cases hc : createBubble c s notify 0 with
  | none => simp [hc] at h
  | some r =>
    obtain ⟨b0, s1⟩ := r
    obtain ⟨hp, he, g0, e0, c0⟩ := createBubble_some c s s1 notify 0 b0 hc
    subst e0
    simp only [hc, Option.bind_eq_bind, Option.some_bind] at h
    by_cases hfull : s.m_bubbleList.length = c.BubbleEntities + c.BubbleOverLap
    · simp only [hfull, if_true] at h
      cases hl : s.m_bubbleList.getLast? with
      | none => simp [hl] at h
      | some last =>
        simp only [hl, Option.some_bind] at h
        obtain ⟨l, g, e, k, cg⟩ := pushAnimation_some c _ _ _ h
        obtain ⟨b1, l1, rfl, hp1, he1, _, k1⟩ := sameBubbles_cons_left k
        refine ⟨b1, l1, g0 ++ [Effect.hide last.ptr, Effect.deleteLater last.ptr] ++ g, ?_,
          hp1.trans hp, he1.trans he, by simpa [hfull] using k1, ?_⟩
        · rw [e]; simp [hfull, hl]
        · simp only [List.count_append, c0, cg]
          simp
    · simp only [hfull, if_false, Option.some_bind] at h
      obtain ⟨l, g, e, k, cg⟩ := pushAnimation_some c _ _ _ h
      obtain ⟨b1, l1, rfl, hp1, he1, _, k1⟩ := sameBubbles_cons_left k
      refine ⟨b1, l1, g0 ++ g, ?_, hp1.trans hp, he1.trans he, by simpa [hfull] using k1, ?_⟩
      · rw [e]; simp [hfull]
      · simp [List.count_append, c0, cg]

/-- A completed `refreshBubble`: nothing, or the front overflow entity bound to
a new bubble at the tail. -/
theorem refreshBubble_some (c : Constants) (s t : State) (h : refreshBubble c s = some t) :
    ∃ (promoted : List Bubble) (rest : List NotificationEntity) (g : List Effect),
      t = { s with m_bubbleList := s.m_bubbleList ++ promoted, m_oldEntities := rest,
                   nextPtr := s.nextPtr + promoted.length, fx := s.fx ++ g }
      ∧ s.m_oldEntities = promoted.map Bubble.entity ++ rest
      ∧ promoted.length ≤ 1
      ∧ (∀ b ∈ promoted, b.ptr = s.nextPtr)
      ∧ g.count Effect.playSound = 0 := by
  unfold refreshBubble at h
  by_cases hlt : s.m_bubbleList.length < c.BubbleEntities + c.BubbleOverLap + 1
  · rw [if_pos hlt] at h
    cases hold : s.m_oldEntities with
    | nil =>
      simp only [hold, Option.some.injEq] at h
      subst h
      refine ⟨[], [], [], ?_, by simp, by simp, by simp, rfl⟩
      cases s
      simp only [] at hold
      subst hold
      simp
    | cons e rest =>
      simp only [hold] at h
      cases hc : createBubble c { s with m_oldEntities := rest } e
          (((c.BubbleEntities + c.BubbleOverLap : Nat) : Int) - 1) with
      | none => rw [hc] at h; simp at h
      | some r =>
        obtain ⟨b0, s1⟩ := r
        obtain ⟨hp, he, g0, e0, c0⟩ := createBubble_some c _ s1 e _ b0 hc
        subst e0
        rw [hc] at h
        simp only [Option.bind_eq_bind, Option.some_bind, Option.some.injEq] at h
        subst h
        refine ⟨[b0], rest, g0, by simp, by simp [he], by simp, ?_, c0⟩
        intro b hb
        simp only [List.mem_singleton] at hb
        subst hb
        exact hp
  · rw [if_neg hlt] at h
    simp only [Option.some.injEq] at h
    subst h
    exact ⟨[], s.m_oldEntities, [], by simp, by simp, by simp, by simp, rfl⟩

/-- A completed `popBubble`: the queue after `refreshBubble` without the first
occurrence of the popped bubble. -/
theorem popBubble_some (c : Constants) (s t : State) (p : Nat)
    (h : popBubble c s p = some t) :
    ∃ (promoted : List Bubble) (rest : List NotificationEntity) (l : List Bubble)
        (g : List Effect),
      t = { s with m_bubbleList := l, m_oldEntities := rest,
                   nextPtr := s.nextPtr + promoted.length, fx := s.fx ++ g }
      ∧ s.m_oldEntities = promoted.map Bubble.entity ++ rest
      ∧ promoted.length ≤ 1
      ∧ (∀ b ∈ promoted, b.ptr = s.nextPtr)
      ∧ sameBubbles (removeOne (s.m_bubbleList ++ promoted) p) l
      ∧ g.count Effect.playSound = 0 := by
  unfold popBubble at h
  cases hr : refreshBubble c s with
  | none => simp [hr] at h
  | some s1 =>
    simp only [hr, Option.bind_eq_bind, Option.some_bind] at h
    obtain ⟨promoted, rest, g1, e1, ho, hl, hp, c1⟩ := refreshBubble_some c s s1 hr
    cases ha : popAnimation c s1 p with
    | none => simp [ha] at h
    | some s2 =>
      simp only [ha, Option.some_bind, Option.some.injEq] at h
      obtain ⟨l2, g2, e2, k2, c2⟩ := popAnimation_some c s1 s2 p ha
      subst h
      subst e2
      subst e1
      refine ⟨promoted, rest, removeOne l2 p, g1 ++ g2, by simp, ho, hl, hp,
        removeOne_sameBubbles p k2, by simp [List.count_append, c1, c2]⟩

/-! ## The parts of an accepted submission -/

theorem calcReplaceId_fx (c : Constants) (s : State) (f : List Effect)
    (notify : NotificationEntity) :
    calcReplaceId c { s with fx := f } notify
      = ((calcReplaceId c s notify).1, (calcReplaceId c s notify).2.1,
         { (calcReplaceId c s notify).2.2 with fx := f }) := by
  by_cases h : notify.replacesId = 0
  · rw [calcReplaceId_fresh c _ _ h, calcReplaceId_fresh c _ _ h]
  · rw [calcReplaceId_replace c _ _ h, calcReplaceId_replace c _ _ h]

theorem calcReplaceId_showInNotifyCenter (c : Constants) (s : State)
    (notify : NotificationEntity) :
    (calcReplaceId c s notify).2.1.showInNotifyCenter = notify.showInNotifyCenter
      ∧ (calcReplaceId c s notify).2.1.appName = notify.appName := by
  by_cases h : notify.replacesId = 0
  · rw [calcReplaceId_fresh c _ _ h]; exact ⟨rfl, rfl⟩
  · rw [calcReplaceId_replace c _ _ h]; exact ⟨rfl, rfl⟩

theorem calcReplaceId_fxOf (c : Constants) (s : State) (notify : NotificationEntity) :
    (calcReplaceId c s notify).2.2.fx = s.fx := by
  by_cases h : notify.replacesId = 0
  · rw [calcReplaceId_fresh c _ _ h]
  · rw [calcReplaceId_replace c _ _ h]

/-- The sound part of `Notify` plays one sound or none. -/
theorem notifySound_count (s : State) (a : NotifyArgs) (p d y : Bool) :
    ∃ g, notifySound s a p d y = { s with fx := s.fx ++ g }
      ∧ g.count Effect.playSound
          = if ((p && !d && (!a.actions.contains "cancel"
                  || (match a.hints.lookup "x-deepin-action-_view" with
                      | some v => containsSub v.toString "xdg-open"
                      | none => false))) || (y && d)) = true then 1 else 0 := by
  unfold notifySound playSystemSoundEffect
  cases p <;> cases d <;> cases y <;> cases hc : a.actions.contains "cancel" <;>
    cases hl : a.hints.lookup "x-deepin-action-_view" <;>
    simp only [Bool.and_true, Bool.and_false, Bool.not_true, Bool.not_false, Bool.false_eq_true,
      if_true, if_false, Bool.or_true, Bool.or_false, Bool.true_and, Bool.false_and,
      Bool.false_or, Bool.true_or] <;>
    first
      | exact ⟨[], by simp, rfl⟩
      | exact ⟨[Effect.playSound], rfl, rfl⟩
      | (split <;> first | exact ⟨[], by simp, rfl⟩ | exact ⟨[Effect.playSound], rfl, rfl⟩)

/-- The state and the entity that the routing part of `Notify` starts from:
the result of `calcReplaceId` after the sound part. -/
theorem notifyAccepted_eq (c : Constants) (env : Env) (s : State) (a : NotifyArgs) :
    notifyAccepted c env s a
      = ((if (afterReplace c env s a).1 = false then
            routeNotification c env a
              (afterReplace c env s a).2.2
              (afterReplace c env s a).2.1
          else if env.useBuiltinBubble = false then
            some (emitShowBubble
              (if (newNotification c env a).showInNotifyCenter then
                addOne (afterReplace c env s a).2.2
                  (afterReplace c env s a).2.1
               else (afterReplace c env s a).2.2)
              (afterReplace c env s a).2.1.id)
          else some (afterReplace c env s a).2.2).map
          (fun t => (if a.replacesId = 0 then
              (afterReplace c env s a).2.1.id
            else a.replacesId, t))) := by
  have hshow : (afterReplace c env s a).2.1.showInNotifyCenter
      = (newNotification c env a).showInNotifyCenter :=
    (calcReplaceId_showInNotifyCenter c (afterSound c env s a) (newNotification c env a)).1
  have hname : (newNotification c env a).appName = a.appName := rfl
  have hdef : notifyAccepted c env s a
      = ((if !(afterReplace c env s a).1 then
            if c.IgnoreList.contains (newNotification c env a).appName then
              displayBubble c env
                (if (newNotification c env a).showInNotifyCenter then
                  addOne (afterReplace c env s a).2.2 (afterReplace c env s a).2.1
                 else (afterReplace c env s a).2.2) (afterReplace c env s a).2.1
            else if env.locked
                && !(if c.IgnoreList.contains (newNotification c env a).appName then true
                     else (getAppSetting env a.appName .LOCKSCREENSHOWNOTIFICATION).toBool) then
              some (if (newNotification c env a).showInNotifyCenter then
                  addOne (afterReplace c env s a).2.2 (afterReplace c env s a).2.1
                 else (afterReplace c env s a).2.2)
            else if !c.IgnoreList.contains (newNotification c env a).appName
                && !isDoNotDisturb env
                && (getAppSetting env a.appName .ENABELNOTIFICATION).toBool then
              displayBubble c env
                (if (newNotification c env a).showInNotifyCenter then
                  addOne (afterReplace c env s a).2.2 (afterReplace c env s a).2.1
                 else (afterReplace c env s a).2.2) (afterReplace c env s a).2.1
            else some (if (newNotification c env a).showInNotifyCenter then
                  addOne (afterReplace c env s a).2.2 (afterReplace c env s a).2.1
                 else (afterReplace c env s a).2.2)
          else if !env.useBuiltinBubble then
            some (emitShowBubble
              (if (newNotification c env a).showInNotifyCenter then
                  addOne (afterReplace c env s a).2.2 (afterReplace c env s a).2.1
                 else (afterReplace c env s a).2.2) (afterReplace c env s a).2.1.id)
          else some (afterReplace c env s a).2.2).map
          (fun s1 => (if a.replacesId = 0 then (afterReplace c env s a).2.1.id
                      else a.replacesId, s1))) := rfl
  rw [hdef]
  unfold routeNotification
  simp only [hname, hshow]
  cases (afterReplace c env s a).1 <;>
    cases env.useBuiltinBubble <;> simp

/-- For a system sender or an application whose notifications are enabled the
routing part shows a bubble exactly under `bubbleShown`. -/
theorem routeNotification_cases (c : Constants) (env : Env) (a : NotifyArgs) (s : State)
    (n : NotificationEntity)
    (hen : c.IgnoreList.contains a.appName = true
      ∨ (getAppSetting env a.appName .ENABELNOTIFICATION).toBool = true) :
    routeNotification c env a s n
      = if bubbleShown c env a then
          displayBubble c env (if n.showInNotifyCenter then addOne s n else s) n
        else some (if n.showInNotifyCenter then addOne s n else s) := by
  unfold routeNotification bubbleShown
  cases hs : c.IgnoreList.contains a.appName
  · have he : (getAppSetting env a.appName .ENABELNOTIFICATION).toBool = true := by
      rcases hen with h | h
      · rw [hs] at h; cases h
      · exact h
    simp only [he]
    cases isDoNotDisturb env <;> cases env.locked <;>
      cases (getAppSetting env a.appName .LOCKSCREENSHOWNOTIFICATION).toBool <;> simp
  · simp

theorem suppressed_false_enabled (c : Constants) (env : Env) (a : NotifyArgs)
    (h : suppressed c env a = false) :
    c.IgnoreList.contains a.appName = true
      ∨ (getAppSetting env a.appName .ENABELNOTIFICATION).toBool = true := by
  unfold suppressed at h
  simp only [Bool.or_eq_false_iff] at h
  obtain ⟨_, h3⟩ := h
  cases hs : c.IgnoreList.contains a.appName
  · right
    rw [hs] at h3
    simpa using h3
  · exact Or.inl rfl

/-- An accepted submission, branch by branch. -/
theorem Notify_accepted_eq (c : Constants) (env : Env) (s : State) (a : NotifyArgs)
    (hacc : suppressed c env a = false) :
    Notify c env s a
      = ((if (afterReplace c env s a).1 = false then
            if bubbleShown c env a then
              if env.useBuiltinBubble then
                pushBubble c (afterHistory c env s a) (afterReplace c env s a).2.1
              else some (emitShowBubble (afterHistory c env s a) (afterReplace c env s a).2.1.id)
            else some (afterHistory c env s a)
          else if env.useBuiltinBubble = false then
            some (emitShowBubble (afterHistory c env s a) (afterReplace c env s a).2.1.id)
          else some (afterReplace c env s a).2.2).map
          (fun t => (if a.replacesId = 0 then (afterReplace c env s a).2.1.id
                     else a.replacesId, t))) := by
  have hshow : (afterReplace c env s a).2.1.showInNotifyCenter
      = (newNotification c env a).showInNotifyCenter :=
    (calcReplaceId_showInNotifyCenter c (afterSound c env s a) (newNotification c env a)).1
  rw [Notify_accepted c env s a hacc, notifyAccepted_eq,
    routeNotification_cases c env a _ _ (suppressed_false_enabled c env a hacc)]
  unfold displayBubble afterHistory
  rw [hshow]

theorem afterSound_eq (c : Constants) (env : Env) (s : State) (a : NotifyArgs) :
    ∃ g, afterSound c env s a = { s with fx := s.fx ++ g }
      ∧ g.count Effect.playSound = if soundDecision c env a then 1 else 0 := by
  obtain ⟨g, e, hc⟩ := notifySound_count s a
    (if c.IgnoreList.contains a.appName then true
      else (getAppSetting env a.appName .ENABELSOUND).toBool)
    (isDoNotDisturb env) (c.IgnoreList.contains a.appName)
  refine ⟨g, e, ?_⟩
  rw [hc]
  unfold soundDecision
  cases c.IgnoreList.contains a.appName <;> simp

/-- The result of `calcReplaceId` in an accepted submission, from the state
before the submission. -/
theorem afterReplace_eq (c : Constants) (env : Env) (s : State) (a : NotifyArgs) :
    ∃ g, afterReplace c env s a
        = ((calcReplaceId c s (newNotification c env a)).1,
           (calcReplaceId c s (newNotification c env a)).2.1,
           { (calcReplaceId c s (newNotification c env a)).2.2 with fx := s.fx ++ g })
      ∧ g.count Effect.playSound = if soundDecision c env a then 1 else 0 := by
  obtain ⟨g, e, hc⟩ := afterSound_eq c env s a
  refine ⟨g, ?_, hc⟩
  unfold afterReplace
  rw [e]
  exact calcReplaceId_fx c s _ _

/-! ## The sound of a submission -/

theorem soundCount_pushBubble (c : Constants) (s t : State) (n : NotificationEntity)
    (h : pushBubble c s n = some t) : soundCount t = soundCount s := by
  obtain ⟨b, l, g, e, _, _, _, hg⟩ := pushBubble_some c s t n h
  rw [e]
  simp [soundCount, List.count_append, hg]

theorem soundCount_emitShowBubble (s : State) (id : Nat) :
    soundCount (emitShowBubble s id) = soundCount s := by
  simp [soundCount, emitShowBubble, List.count_append]

theorem soundCount_afterHistory (c : Constants) (env : Env) (s : State) (a : NotifyArgs) :
    soundCount (afterHistory c env s a) = soundCount (afterReplace c env s a).2.2 := by
  unfold afterHistory
  split <;> rfl

theorem soundCount_afterReplace (c : Constants) (env : Env) (s : State) (a : NotifyArgs) :
    soundCount (afterReplace c env s a).2.2
      = soundCount s + if soundDecision c env a then 1 else 0 := by
  obtain ⟨g, e, hg⟩ := afterReplace_eq c env s a
  rw [e]
  simp [soundCount, List.count_append, hg]

/-- C12: an accepted submission plays the notification sound once when the
sound decision holds and not at all otherwise; under do-not-disturb the
decision is false for every sender that is no system sender and true for every
system sender. -/
theorem C12_sound_decision (c : Constants) (env : Env) (s : State) (a : NotifyArgs)
    (hacc : suppressed c env a = false) :
    (∀ (id : Nat) (t : State), Notify c env s a = some (id, t) →
        soundCount t = soundCount s + if soundDecision c env a then 1 else 0)
    ∧ (1 ≤ c.BubbleEntities → s.m_bubbleList.length ≤ c.BubbleEntities + c.BubbleOverLap →
        ∃ id t, Notify c env s a = some (id, t))
    ∧ (c.IgnoreList.contains a.appName = false → isDoNotDisturb env = true →
        soundDecision c env a = false)
    ∧ (c.IgnoreList.contains a.appName = true → isDoNotDisturb env = true →
        soundDecision c env a = true) := by
  refine ⟨?_, ?_, ?_, ?_⟩
  · intro id t h
    rw [Notify_accepted_eq c env s a hacc] at h
    simp only [Option.map_eq_some', Prod.mk.injEq] at h
    obtain ⟨t1, h1, _, rfl⟩ := h
    rw [← soundCount_afterReplace, ← soundCount_afterHistory]
    split at h1
    · split at h1
      · split at h1
        · rw [soundCount_pushBubble c _ _ _ h1]
        · cases h1; rw [soundCount_emitShowBubble]
      · cases h1; rfl
    · split at h1
      · cases h1; rw [soundCount_emitShowBubble]
      · cases h1; rw [soundCount_afterHistory]
  · intro hN hlen
    obtain ⟨id, t, e, _⟩ := Notify_total c env s a hN hlen
    exact ⟨id, t, e⟩
  · intro h1 h2
    unfold soundDecision
    rw [h1, h2]
    simp
  · intro h1 h2
    unfold soundDecision
    rw [h1, h2]
    simp

/-- An instance of C12: an enabled application with do-not-disturb off. -/
theorem C12_sound_decision_witness :
    ∃ id t, Notify sampleConstants (sampleEnv (QTime.hm 12 0)) (sampleState [] [])
        (sampleArgs "app" 0) = some (id, t) :=
  (C12_sound_decision sampleConstants (sampleEnv (QTime.hm 12 0)) (sampleState [] [])
    (sampleArgs "app" 0) (by decide)).2.1 (by decide) (by decide)

/-! ## The overflow loop of calcReplaceId -/

theorem skipRemove_cons_other (notify e : NotificationEntity) (rest : List NotificationEntity)
    (hm : ¬ matchesNotify e notify = true) :
    skipRemove notify (e :: rest) = e :: skipRemove notify rest := by
  rw [skipRemove.eq_def]
  simp [hm]

theorem skipRemove_cons_match (notify e e2 : NotificationEntity)
    (rest2 : List NotificationEntity) (hm : matchesNotify e notify = true) :
    skipRemove notify (e :: e2 :: rest2) = e2 :: skipRemove notify rest2 := by
  rw [skipRemove.eq_def]
  simp [hm]

theorem skipRemove_single_match (notify e : NotificationEntity)
    (hm : matchesNotify e notify = true) : skipRemove notify [e] = [] := by
  rw [skipRemove.eq_def]
  simp [hm]

theorem removeStale_eq (notify : NotificationEntity) (fuel : Nat) :
    ∀ (i : Nat) (l : List NotificationEntity), l.length ≤ i + fuel →
      removeStale notify fuel i l = l.take i ++ skipRemove notify (l.drop i) := by
  induction fuel with
  | zero =>
    intro i l h
    have hi : l.length ≤ i := by omega
    simp [removeStale, List.take_of_length_le hi, List.drop_eq_nil_of_le hi, skipRemove]
  | succ fuel ih =>
    intro i l h
    rw [removeStale]
    cases hl : l[i]? with
    | none =>
      have hi : l.length ≤ i := by
        by_contra hc
        rw [List.getElem?_eq_getElem (by omega)] at hl
        cases hl
      simp [List.take_of_length_le hi, List.drop_eq_nil_of_le hi, skipRemove]
    | some e =>
      obtain ⟨hi, he⟩ := List.getElem?_eq_some.1 hl
      have hdrop : l.drop i = e :: l.drop (i + 1) := by
        rw [← he]; exact List.drop_eq_getElem_cons hi
      have htake : l.take (i + 1) = l.take i ++ [e] := by
        rw [List.take_succ, hl]; rfl
      have hlen : (l.take i).length = i := by
        rw [List.length_take]; omega
      simp only []
      by_cases hm : matchesNotify e notify = true
      · rw [if_pos hm, ih (i + 1) (l.eraseIdx i) (by rw [List.length_eraseIdx]; split <;> omega),
          hdrop]
        have herase : l.eraseIdx i = l.take i ++ l.drop (i + 1) :=
          List.eraseIdx_eq_take_drop_succ l i
        rw [herase]
        cases hd : l.drop (i + 1) with
        | nil =>
          simp [skipRemove, hm, List.take_of_length_le, List.drop_eq_nil_of_le, hlen]
        | cons e2 rest2 =>
          have h1 : (l.take i ++ e2 :: rest2).take (i + 1) = l.take i ++ [e2] := by
            rw [List.take_append_eq_append_take, hlen]
            simp [List.take_of_length_le, hlen]
          have h2 : (l.take i ++ e2 :: rest2).drop (i + 1) = rest2 := by
            rw [List.drop_append_eq_append_drop, hlen]
            simp [List.drop_eq_nil_of_le, hlen]
          rw [h1, h2]
          simp [skipRemove, hm]
      · rw [if_neg hm, ih (i + 1) l (by omega), htake, hdrop]
        rw [skipRemove_cons_other notify e _ hm]
        simp

/-- The overflow list after `calcReplaceId` is `skipRemove` of the one before. -/
theorem removeStale_skipRemove (notify : NotificationEntity) (l : List NotificationEntity) :
    removeStale notify l.length 0 l = skipRemove notify l := by
  rw [removeStale_eq notify l.length 0 l (by omega)]
  simp

theorem skipRemove_sublist (notify : NotificationEntity) :
    ∀ l : List NotificationEntity, (skipRemove notify l).Sublist l
  | [] => by simp [skipRemove]
  | [e] => by
    by_cases hm : matchesNotify e notify = true
    · rw [skipRemove_single_match notify e hm]; simp
    · rw [skipRemove_cons_other notify e _ hm]; simp [skipRemove]
  | e :: e2 :: rest2 => by
    by_cases hm : matchesNotify e notify = true
    · rw [skipRemove_cons_match notify e e2 rest2 hm]
      exact ((skipRemove_sublist notify rest2).cons₂ e2).cons e
    · rw [skipRemove_cons_other notify e _ hm]
      exact (skipRemove_sublist notify (e2 :: rest2)).cons₂ e

/-- Every entry that does not match stays, in its order. -/
theorem skipRemove_keeps_others (notify : NotificationEntity) :
    ∀ l : List NotificationEntity,
      (skipRemove notify l).filter (fun e => !matchesNotify e notify)
        = l.filter (fun e => !matchesNotify e notify)
  | [] => by simp [skipRemove]
  | [e] => by
    by_cases hm : matchesNotify e notify = true
    · rw [skipRemove_single_match notify e hm]; simp [hm]
    · rw [skipRemove_cons_other notify e _ hm]; simp [skipRemove]
  | e :: e2 :: rest2 => by
    by_cases hm : matchesNotify e notify = true
    · rw [skipRemove_cons_match notify e e2 rest2 hm, List.filter_cons, List.filter_cons,
        List.filter_cons, skipRemove_keeps_others notify rest2]
      simp [hm]
    · rw [skipRemove_cons_other notify e _ hm, List.filter_cons,
        skipRemove_keeps_others notify (e2 :: rest2)]
      conv_rhs => rw [List.filter_cons]

/-- When at most one entry matches, no matching entry is left. -/
theorem skipRemove_unique (notify : NotificationEntity) :
    ∀ l : List NotificationEntity, l.countP (fun e => matchesNotify e notify) ≤ 1 →
      ∀ e ∈ skipRemove notify l, matchesNotify e notify = false
  | [], _ => by simp [skipRemove]
  | [e], _ => by
    by_cases hm : matchesNotify e notify = true
    · rw [skipRemove_single_match notify e hm]; simp
    · rw [skipRemove_cons_other notify e _ hm]
      simp only [skipRemove, List.mem_singleton]
      intro x hx
      subst hx
      simpa using hm
  | e :: e2 :: rest2, h => by
    by_cases hm : matchesNotify e notify = true
    · rw [skipRemove_cons_match notify e e2 rest2 hm]
      have h0 : (e2 :: rest2).countP (fun e => matchesNotify e notify) = 0 := by
        rw [List.countP_cons] at h
        simp only [hm, if_true] at h
        omega
      rw [List.countP_eq_zero] at h0
      intro x hx
      have hx2 : x ∈ e2 :: rest2 := by
        rcases List.mem_cons.1 hx with hx | hx
        · exact hx ▸ List.mem_cons_self _ _
        · exact List.mem_cons_of_mem _ ((skipRemove_sublist notify rest2).subset hx)
      simpa using h0 x hx2
    · rw [skipRemove_cons_other notify e _ hm]
      have h1 : (e2 :: rest2).countP (fun e => matchesNotify e notify) ≤ 1 := by
        rw [List.countP_cons] at h
        simp only [hm, if_false, Bool.false_eq_true] at h
        simpa using h
      intro x hx
      rcases List.mem_cons.1 hx with hx | hx
      · subst hx; simpa using hm
      · exact skipRemove_unique notify (e2 :: rest2) h1 x hx

/-- C16 (code at the failing input): the overflow list holds two entries of
application `app` with replaces id 9 next to each other; after `calcReplaceId`
for a notification of `app` with replaces id 9 the second one is still there. -/
theorem C16_adjacent_stale_entry_survives :
    (∀ e ∈ sampleTwinOverflow.m_oldEntities, matchesNotify e (sampleEntity 9) = true)
      ∧ (calcReplaceId sampleConstants sampleTwinOverflow (sampleEntity 9)).2.2.m_oldEntities
          = [{ sampleEntity 9 with summary := "second" }]
      ∧ matchesNotify { sampleEntity 9 with summary := "second" } (sampleEntity 9) = true := by
  decide

/-! ## Submissions that replace no live bubble -/

theorem calcReplaceId_nomatch (c : Constants) (s : State) (n : NotificationEntity)
    (hX : n.replacesId ≠ 0)
    (hno : ∀ b ∈ s.m_bubbleList, matchesNotify b.entity n = false) :
    calcReplaceId c s n
      = (false, n, { s with m_oldEntities := skipRemove n s.m_oldEntities }) := by
  rw [calcReplaceId_replace c s n hX, removeStale_skipRemove]
  have h1 : s.m_bubbleList.any (fun b => matchesNotify b.entity n) = false := by
    rw [List.any_eq_false]
    intro b hb
    simp [hno b hb]
  have h2 : s.m_bubbleList.map (fun b =>
      if matchesNotify b.entity n then { b with entity := n } else b) = s.m_bubbleList := by
    conv_rhs => rw [← List.map_id s.m_bubbleList]
    apply List.map_congr_left
    intro b hb
    simp [hno b hb]
  have h3 : s.m_bubbleList.filter (fun b => matchesNotify b.entity n) = [] := by
    rw [List.filter_eq_nil_iff]
    intro b hb
    simp [hno b hb]
  rw [h1, h2, h3]
  simp

theorem matchesNotify_new (c : Constants) (env : Env) (a : NotifyArgs) (e : NotificationEntity) :
    matchesNotify e (newNotification c env a)
      = (e.replacesId == a.replacesId && e.appName == a.appName) := rfl

theorem nomatch_of_args (c : Constants) (env : Env) (s : State) (a : NotifyArgs)
    (hno : ∀ b ∈ s.m_bubbleList,
      ¬ (b.entity.replacesId = a.replacesId ∧ b.entity.appName = a.appName)) :
    ∀ b ∈ s.m_bubbleList, matchesNotify b.entity (newNotification c env a) = false := by
  intro b hb
  rw [matchesNotify_new]
  have := hno b hb
  by_cases h1 : b.entity.replacesId = a.replacesId
  · have h2 : b.entity.appName ≠ a.appName := fun h => this ⟨h1, h⟩
    simp [h2]
  · simp [h1]

theorem afterReplace_fresh (c : Constants) (env : Env) (s : State) (a : NotifyArgs)
    (h0 : a.replacesId = 0) :
    ∃ g, afterReplace c env s a
      = (false,
         { newNotification c env a with
            id := (s.m_replaceCount + 1) % c.counterRange,
            replacesId := (s.m_replaceCount + 1) % c.counterRange },
         { s with m_replaceCount := (s.m_replaceCount + 1) % c.counterRange,
                  fx := s.fx ++ g }) := by
  obtain ⟨g, e, _⟩ := afterReplace_eq c env s a
  refine ⟨g, ?_⟩
  rw [e, calcReplaceId_fresh c s _ (show (newNotification c env a).replacesId = 0 from h0)]

theorem afterReplace_nomatch (c : Constants) (env : Env) (s : State) (a : NotifyArgs)
    (hX : a.replacesId ≠ 0)
    (hno : ∀ b ∈ s.m_bubbleList,
      ¬ (b.entity.replacesId = a.replacesId ∧ b.entity.appName = a.appName)) :
    ∃ g, afterReplace c env s a
      = (false, newNotification c env a,
         { s with m_oldEntities := skipRemove (newNotification c env a) s.m_oldEntities,
                  fx := s.fx ++ g }) := by
  obtain ⟨g, e, _⟩ := afterReplace_eq c env s a
  refine ⟨g, ?_⟩
  rw [e, calcReplaceId_nomatch c s _ (show (newNotification c env a).replacesId ≠ 0 from hX)
    (nomatch_of_args c env s a hno)]

/-- C15 (as amended): for a submission with `replacesId == X != 0` that passes
the guards of `Notify` and matches no live bubble, `calcReplaceId` returns false
and leaves counter, queue and history as they are (only stale overflow entries
go), the notification keeps `replacesId` X, it goes through the same routing as a
fresh notification, and `Notify` returns X. -/
theorem C15_accepted_replace_without_match (c : Constants) (env : Env) (s : State)
    (a : NotifyArgs) (hacc : suppressed c env a = false) (hX : a.replacesId ≠ 0)
    (hno : ∀ b ∈ s.m_bubbleList,
      ¬ (b.entity.replacesId = a.replacesId ∧ b.entity.appName = a.appName)) :
    calcReplaceId c s (newNotification c env a)
        = (false, newNotification c env a,
           { s with m_oldEntities := skipRemove (newNotification c env a) s.m_oldEntities })
    ∧ (newNotification c env a).replacesId = a.replacesId
    ∧ Notify c env s a
        = (routeNotification c env a (afterReplace c env s a).2.2
            (afterReplace c env s a).2.1).map (fun t => (a.replacesId, t))
    ∧ (∀ a0 : NotifyArgs, suppressed c env a0 = false → a0.replacesId = 0 →
        Notify c env s a0
          = (routeNotification c env a0 (afterReplace c env s a0).2.2
              (afterReplace c env s a0).2.1).map
              (fun t => ((afterReplace c env s a0).2.1.id, t)))
    ∧ (∀ (id : Nat) (t : State), Notify c env s a = some (id, t) → id = a.replacesId)
    ∧ (1 ≤ c.BubbleEntities → s.m_bubbleList.length ≤ c.BubbleEntities + c.BubbleOverLap →
        ∃ t, Notify c env s a = some (a.replacesId, t)) := by
  obtain ⟨g, hr⟩ := afterReplace_nomatch c env s a hX hno
  have hN : Notify c env s a
        = (routeNotification c env a (afterReplace c env s a).2.2
            (afterReplace c env s a).2.1).map (fun t => (a.replacesId, t)) := by
    rw [Notify_accepted c env s a hacc, notifyAccepted_eq]
    simp only [hr, if_true, if_neg hX]
  refine ⟨calcReplaceId_nomatch c s _ hX (nomatch_of_args c env s a hno), rfl, hN, ?_, ?_, ?_⟩
  · intro a0 hacc0 h0
    obtain ⟨g0, hr0⟩ := afterReplace_fresh c env s a0 h0
    rw [Notify_accepted c env s a0 hacc0, notifyAccepted_eq]
    simp only [hr0, if_true, h0]
  · intro id t h
    rw [hN] at h
    simp only [Option.map_eq_some', Prod.mk.injEq] at h
    obtain ⟨_, _, h1, _⟩ := h
    exact h1.symm
  · intro hN1 hlen
    obtain ⟨id, t, e, _, _, _, hrep⟩ := Notify_total c env s a hN1 hlen
    obtain ⟨h1, _⟩ := hrep hacc hX
    subst h1
    exact ⟨t, e⟩

/-- An instance of C15: replaces id 5 on a queue that holds no such bubble. -/
theorem C15_accepted_replace_without_match_witness :
    ∃ t, Notify sampleConstants (sampleEnv (QTime.hm 12 0)) (sampleState [1, 2] [])
        (sampleArgs "app" 5) = some ((sampleArgs "app" 5).replacesId, t) :=
  (C15_accepted_replace_without_match sampleConstants (sampleEnv (QTime.hm 12 0))
    (sampleState [1, 2] []) (sampleArgs "app" 5) (by decide) (by decide)
    (by decide)).2.2.2.2.2 (by decide) (by decide)

/-- C15 (counterexample): no bubble of the queue matches replaces id 5 of
application `app`; with the display service not valid the submission returns
0, not 5, and `calcReplaceId` is never reached. -/
theorem C15_counterexample_suppressed_returns_zero :
    (∀ b ∈ (sampleState [1, 2] []).m_bubbleList,
        ¬ (b.entity.replacesId = (sampleArgs "app" 5).replacesId
            ∧ b.entity.appName = (sampleArgs "app" 5).appName))
      ∧ (Notify sampleConstants sampleNoDisplayEnv (sampleState [1, 2] [])
          (sampleArgs "app" 5)).map Prod.fst = some 0 := by
  decide

/-! ## Which submissions show a bubble -/

theorem afterHistory_lists (c : Constants) (env : Env) (s : State) (a : NotifyArgs) :
    (afterHistory c env s a).m_bubbleList = (afterReplace c env s a).2.2.m_bubbleList
      ∧ (afterHistory c env s a).m_oldEntities = (afterReplace c env s a).2.2.m_oldEntities
      ∧ (afterHistory c env s a).m_replaceCount = (afterReplace c env s a).2.2.m_replaceCount
      ∧ (afterHistory c env s a).nextPtr = (afterReplace c env s a).2.2.nextPtr := by
  unfold afterHistory
  split <;> exact ⟨rfl, rfl, rfl, rfl⟩

/-- The result of `calcReplaceId` in an accepted submission that matches no
live bubble: the queue as before, the overflow list without its stale
entries. -/
theorem afterReplace_unmatched (c : Constants) (env : Env) (s : State) (a : NotifyArgs)
    (hno : a.replacesId = 0 ∨ ∀ b ∈ s.m_bubbleList,
      ¬ (b.entity.replacesId = a.replacesId ∧ b.entity.appName = a.appName)) :
    (afterReplace c env s a).1 = false
      ∧ (afterReplace c env s a).2.2.m_bubbleList = s.m_bubbleList
      ∧ (afterReplace c env s a).2.2.nextPtr = s.nextPtr
      ∧ (afterReplace c env s a).2.2.m_oldEntities
          = (if a.replacesId = 0 then s.m_oldEntities
             else skipRemove (newNotification c env a) s.m_oldEntities)
      ∧ (afterReplace c env s a).2.1
          = (if a.replacesId = 0 then
              { newNotification c env a with
                id := (s.m_replaceCount + 1) % c.counterRange,
                replacesId := (s.m_replaceCount + 1) % c.counterRange }
             else newNotification c env a) := by
  by_cases h0 : a.replacesId = 0
  · obtain ⟨g, e⟩ := afterReplace_fresh c env s a h0
    rw [e]
    simp [h0]
  · have hno2 := hno.resolve_left h0
    obtain ⟨g, e⟩ := afterReplace_nomatch c env s a h0 hno2
    rw [e]
    simp [h0]

/-- C13 (as amended): an accepted submission with the built-in bubbles that
replaces no live bubble pushes a bubble bound to the notification to the head of
the queue exactly under `bubbleShown`; otherwise the queue is unchanged, and the
overflow list is what `calcReplaceId` left: unchanged for `replacesId == 0`,
without the stale entries of `(replacesId, appName)` otherwise.  A fresh
notification of an enabled application with do-not-disturb off and the screen
unlocked returns the new id and is the queue head. -/
theorem C13_bubble_routing (c : Constants) (env : Env) (s : State) (a : NotifyArgs)
    (hacc : suppressed c env a = false) (hb : env.useBuiltinBubble = true)
    (hno : a.replacesId = 0 ∨ ∀ b ∈ s.m_bubbleList,
      ¬ (b.entity.replacesId = a.replacesId ∧ b.entity.appName = a.appName)) :
    (bubbleShown c env a = true →
      (∀ (id : Nat) (t : State), Notify c env s a = some (id, t) →
        ∃ b l, t.m_bubbleList = b :: l ∧ b.entity = (afterReplace c env s a).2.1
          ∧ b.ptr = s.nextPtr
          ∧ sameBubbles
              (if s.m_bubbleList.length = c.BubbleEntities + c.BubbleOverLap then
                s.m_bubbleList.dropLast else s.m_bubbleList) l
          ∧ t.m_oldEntities
              = (if s.m_bubbleList.length = c.BubbleEntities + c.BubbleOverLap then
                  (s.m_bubbleList.getLast?.map Bubble.entity).toList else [])
                ++ (afterReplace c env s a).2.2.m_oldEntities)
      ∧ (1 ≤ c.BubbleEntities →
          s.m_bubbleList.length ≤ c.BubbleEntities + c.BubbleOverLap →
          ∃ id t, Notify c env s a = some (id, t)))
    ∧ (bubbleShown c env a = false →
        ∃ id t, Notify c env s a = some (id, t) ∧ t.m_bubbleList = s.m_bubbleList
          ∧ t.m_oldEntities = (afterReplace c env s a).2.2.m_oldEntities)
    ∧ (afterReplace c env s a).2.2.m_oldEntities
        = (if a.replacesId = 0 then s.m_oldEntities
           else skipRemove (newNotification c env a) s.m_oldEntities)
    ∧ (a.replacesId = 0 → isDoNotDisturb env = false → env.locked = false →
        1 ≤ c.BubbleEntities →
        s.m_bubbleList.length ≤ c.BubbleEntities + c.BubbleOverLap →
        ∃ t b l, Notify c env s a = some ((s.m_replaceCount + 1) % c.counterRange, t)
          ∧ t.m_bubbleList = b :: l
          ∧ b.entity.id = (s.m_replaceCount + 1) % c.counterRange
          ∧ b.entity.appName = a.appName ∧ b.entity.summary = a.summary) := by
  obtain ⟨hfind, hlist, hptr, hold, hent⟩ := afterReplace_unmatched c env s a hno
  obtain ⟨hl1, hl2, _, hl4⟩ := afterHistory_lists c env s a
  have hNot := Notify_accepted_eq c env s a hacc
  have hshown : bubbleShown c env a = true →
      ∀ (id : Nat) (t : State), Notify c env s a = some (id, t) →
        ∃ b l, t.m_bubbleList = b :: l ∧ b.entity = (afterReplace c env s a).2.1
          ∧ b.ptr = s.nextPtr
          ∧ sameBubbles
              (if s.m_bubbleList.length = c.BubbleEntities + c.BubbleOverLap then
                s.m_bubbleList.dropLast else s.m_bubbleList) l
          ∧ t.m_oldEntities
              = (if s.m_bubbleList.length = c.BubbleEntities + c.BubbleOverLap then
                  (s.m_bubbleList.getLast?.map Bubble.entity).toList else [])
                ++ (afterReplace c env s a).2.2.m_oldEntities := by
    intro hs id t h
    rw [hNot] at h
    simp only [hfind, hs, hb, if_true, Option.map_eq_some', Prod.mk.injEq] at h
    obtain ⟨t1, h1, _, rfl⟩ := h
    obtain ⟨b, l, g, e, hp, he, k, _⟩ := pushBubble_some c _ _ _ h1
    rw [hl1, hlist] at e k
    rw [hl2] at e
    rw [hl4, hptr] at hp
    refine ⟨b, l, by rw [e], he, hp, k, ?_⟩
    rw [e]
    simp only []
    split <;> simp
  refine ⟨fun hs => ⟨hshown hs, ?_⟩, ?_, hold, ?_⟩
  · intro hN hlen
    obtain ⟨id, t, e, _⟩ := Notify_total c env s a hN hlen
    exact ⟨id, t, e⟩
  · intro hs
    rw [hNot]
    simp only [hfind, hs, if_true, Bool.false_eq_true, if_false, Option.map_some']
    exact ⟨_, _, rfl, by rw [hl1, hlist], hl2⟩
  · intro h0 hd hlk hN hlen
    have hs : bubbleShown c env a = true := by
      unfold bubbleShown
      rw [hd, hlk]
      simp
    obtain ⟨id, t, e, _, _, hfr, _⟩ := Notify_total c env s a hN hlen
    obtain ⟨hid, _⟩ := hfr hacc h0
    subst hid
    obtain ⟨b, l, hbl, hbe, _⟩ := hshown hs _ t e
    refine ⟨t, b, l, e, hbl, ?_, ?_, ?_⟩ <;> rw [hbe, hent, if_pos h0] <;> rfl

/-- An instance of C13: a fresh notification of the enabled sample application. -/
theorem C13_bubble_routing_witness :
    ∃ t b l, Notify sampleConstants (sampleEnv (QTime.hm 12 0)) (sampleState [1, 2] [])
          (sampleArgs "app" 0)
        = some (((sampleState [1, 2] []).m_replaceCount + 1) % sampleConstants.counterRange, t)
      ∧ t.m_bubbleList = b :: l
      ∧ b.entity.id = ((sampleState [1, 2] []).m_replaceCount + 1) % sampleConstants.counterRange
      ∧ b.entity.appName = (sampleArgs "app" 0).appName
      ∧ b.entity.summary = (sampleArgs "app" 0).summary :=
  (C13_bubble_routing sampleConstants (sampleEnv (QTime.hm 12 0)) (sampleState [1, 2] [])
    (sampleArgs "app" 0) (by decide) (by decide) (Or.inl rfl)).2.2.2 rfl (by decide) (by decide)
    (by decide) (by decide)

/-- C13 (counterexample): under do-not-disturb a submission of application
`app` with replaces id 9 matches no live bubble and shows no bubble, yet the
overflow list loses its first entry of `(9, app)`. -/
theorem C13_counterexample_overflow_changes :
    suppressed sampleConstants sampleQuietEnv (sampleArgs "app" 9) = false
      ∧ bubbleShown sampleConstants sampleQuietEnv (sampleArgs "app" 9) = false
      ∧ (∀ b ∈ sampleTwinOverflow.m_bubbleList,
          ¬ (b.entity.replacesId = (sampleArgs "app" 9).replacesId
              ∧ b.entity.appName = (sampleArgs "app" 9).appName))
      ∧ (Notify sampleConstants sampleQuietEnv sampleTwinOverflow (sampleArgs "app" 9)).map
          (fun r => (r.1, r.2.m_bubbleList, r.2.m_oldEntities))
        = some (9, sampleTwinOverflow.m_bubbleList,
            [{ sampleEntity 9 with summary := "second" }])
      ∧ sampleTwinOverflow.m_oldEntities
          ≠ [{ sampleEntity 9 with summary := "second" }] := by
  decide

/-! ## The order of the overflow list -/

/-- C18 (as amended): the overflow list is served newest first.  With an entry
`e` at the front of the overflow list, `popBubble` of a live bubble promotes `e`
to a new bubble at the tail and leaves the entries behind it in their order; and
`pushBubble` on a full queue puts the entity of the evicted tail bubble at the
front of the overflow list, before every entry evicted earlier. -/
theorem C18_overflow_newest_first (c : Constants) (s : State) (p : Nat)
    (e : NotificationEntity) (rest : List NotificationEntity) (hN : 1 ≤ c.BubbleEntities)
    (hlen : s.m_bubbleList.length ≤ c.BubbleEntities + c.BubbleOverLap)
    (hrow : c.BubbleEntities - 1 ≤ s.m_bubbleList.length)
    (hold : s.m_oldEntities = e :: rest) (hp : p ∈ s.m_bubbleList.map Bubble.ptr) :
    (∃ t nb, popBubble c s p = some t ∧ t.m_oldEntities = rest
      ∧ nb.ptr = s.nextPtr ∧ nb.entity = e
      ∧ sameBubbles (removeOne s.m_bubbleList p ++ [nb]) t.m_bubbleList)
    ∧ (∀ (notify : NotificationEntity) (u : State),
        s.m_bubbleList.length = c.BubbleEntities + c.BubbleOverLap →
        pushBubble c s notify = some u →
        ∃ last, s.m_bubbleList.getLast? = some last
          ∧ u.m_oldEntities = last.entity :: e :: rest) := by
  constructor
  · obtain ⟨t, nb, h1, h2, h3, h4, h5, _⟩ :=
      popBubble_present_promotes c s p e rest hN hlen hrow hold hp
    exact ⟨t, nb, h1, h2, h3, h4, h5⟩
  · intro notify u hfull hu
    obtain ⟨b, l, g, eq, _⟩ := pushBubble_some c s u notify hu
    cases hl : s.m_bubbleList.getLast? with
    | none =>
      rw [List.getLast?_eq_none_iff] at hl
      rw [hl] at hfull
      simp only [List.length_nil] at hfull
      omega
    | some last =>
      refine ⟨last, rfl, ?_⟩
      rw [eq]
      simp only [hfull, if_true, hl, Option.map_some', Option.toList, hold,
        List.singleton_append]

/-- An instance of C18: the sample queue with the overflow entries 8 and 9. -/
theorem C18_overflow_newest_first_witness :
    ∃ t nb, popBubble sampleConstants (sampleState [1, 2, 3] [8, 9]) 2 = some t
      ∧ t.m_oldEntities = [sampleEntity 9]
      ∧ nb.ptr = (sampleState [1, 2, 3] [8, 9]).nextPtr ∧ nb.entity = sampleEntity 8
      ∧ sameBubbles (removeOne (sampleState [1, 2, 3] [8, 9]).m_bubbleList 2 ++ [nb])
          t.m_bubbleList :=
  (C18_overflow_newest_first sampleConstants (sampleState [1, 2, 3] [8, 9]) 2
    (sampleEntity 8) [sampleEntity 9] (by decide) (by decide) (by decide) rfl
    (by decide)).1

/-- C18 (counterexample): on the full sample queue two pushes evict bubble 5
and then bubble 4, so entity 5 is the oldest overflow entry; `popBubble` of the
live bubble at address 1 promotes entity 4 and leaves entity 5 in overflow. -/
theorem C18_counterexample_newest_promoted :
    ((pushBubble sampleConstants (sampleState [1, 2, 3, 4, 5] []) (sampleEntity 6)).map
        (fun s => s.m_oldEntities) = some [sampleEntity 5])
      ∧ sampleTwoEvictions.map (fun s => s.m_oldEntities)
          = some [sampleEntity 4, sampleEntity 5]
      ∧ sampleTwoEvictions.map (fun s => s.m_bubbleList.map Bubble.ptr)
          = some [101, 100, 1, 2, 3]
      ∧ (sampleTwoEvictions.bind (fun s => popBubble sampleConstants s 1)).map
          (fun t => (t.m_bubbleList.getLast?.map Bubble.entity, t.m_oldEntities))
          = some (some (sampleEntity 4), [sampleEntity 5]) := by
  decide

/-! ## The start rectangle of a move -/

/-- C19 (code at the failing input): in the settled sample queue the bubbles at the positions 1 and 2 both
rest at their computed rectangles; `getLastStableRect(3)` returns the rectangle
of position 1, not that of position 2, the settled position nearest to 3. -/
theorem C19_getLastStableRect_farthest :
    (sampleSettled.m_bubbleList[1]?.map Bubble.geometry
        = getBubbleGeometry sampleConstants sampleSettled 1)
      ∧ (sampleSettled.m_bubbleList[2]?.map Bubble.geometry
        = getBubbleGeometry sampleConstants sampleSettled 2)
      ∧ getBubbleGeometry sampleConstants sampleSettled 1 = some (QRect.mk4 660 92 600 60)
      ∧ getBubbleGeometry sampleConstants sampleSettled 2 = some (QRect.mk4 660 164 600 60)
      ∧ getLastStableRect sampleConstants sampleSettled 3 = some (QRect.mk4 660 92 600 60) := by
  decide

/-! ## Geometry depends on the scene only -/

theorem sameBubbles_geometry {l k : List Bubble} (h : sameBubbles l k) :
    k.map Bubble.geometry = l.map Bubble.geometry := by
  have := congrArg (List.map (fun t : Nat × NotificationEntity × QRect => t.2.2)) h
  simpa [List.map_map, Function.comp_def] using this

theorem sameBubbles_getElem_map {l k : List Bubble} (h : sameBubbles l k) (i : Nat) :
    k[i]?.map (fun b => (b.ptr, b.entity, b.geometry))
      = l[i]?.map (fun b => (b.ptr, b.entity, b.geometry)) := by
  unfold sameBubbles at h
  rw [← List.getElem?_map, ← List.getElem?_map, h]

theorem sameBubbles_getElem_some {l k : List Bubble} (h : sameBubbles l k) (i : Nat)
    (b : Bubble) (hb : k[i]? = some b) :
    ∃ a, l[i]? = some a ∧ a.ptr = b.ptr ∧ a.entity = b.entity ∧ a.geometry = b.geometry := by
  have := sameBubbles_getElem_map h i
  rw [hb] at this
  cases ha : l[i]? with
  | none => rw [ha] at this; simp at this
  | some a =>
    rw [ha] at this
    simp only [Option.map_some', Option.some.injEq, Prod.mk.injEq] at this
    exact ⟨a, rfl, this.1.symm, this.2.1.symm, this.2.2.symm⟩

theorem sameBubbles_symm {l k : List Bubble} (h : sameBubbles l k) : sameBubbles k l := by
  unfold sameBubbles at *
  exact h.symm

theorem sameScene_refl (s : State) : sameScene s s := ⟨sameBubbles_refl _, rfl, rfl, rfl⟩

theorem sameScene_symm {s t : State} (h : sameScene s t) : sameScene t s :=
  ⟨sameBubbles_symm h.1, h.2.1.symm, h.2.2.1.symm, h.2.2.2.symm⟩

theorem sameScene_trans {s t u : State} (h1 : sameScene s t) (h2 : sameScene t u) :
    sameScene s u :=
  ⟨sameBubbles_trans h1.1 h2.1, h2.2.1.trans h1.2.1, h2.2.2.1.trans h1.2.2.1,
    h2.2.2.2.trans h1.2.2.2⟩

theorem heightBeforeLoop_congr (l k : List Bubble)
    (h : k.map Bubble.geometry = l.map Bubble.geometry) (n : Nat) :
    heightBeforeLoop k n = heightBeforeLoop l n := by
  induction n with
  | zero => rfl
  | succ n ih =>
    have hn : k[n]?.map Bubble.geometry = l[n]?.map Bubble.geometry := by
      rw [← List.getElem?_map, ← List.getElem?_map, h]
    unfold heightBeforeLoop
    rw [ih]
    cases hk : k[n]? with
    | none =>
      cases hl : l[n]? with
      | none => rfl
      | some b => rw [hk, hl] at hn; simp at hn
    | some a =>
      cases hl : l[n]? with
      | none => rw [hk, hl] at hn; simp at hn
      | some b =>
        rw [hk, hl] at hn
        simp only [Option.map_some', Option.some.injEq] at hn
        cases heightBeforeLoop l n with
        | none => rfl
        | some t => simp only [Bubble.height, hn]

theorem entityRect_congr (c : Constants) {s t : State} (h : sameScene s t) (index : Int) :
    entityRect c t index = entityRect c s index := by
  obtain ⟨hb, hd, hk, hp⟩ := h
  unfold entityRect getBubbleHeightBefore
  rw [heightBeforeLoop_congr _ _ (sameBubbles_geometry hb), hd, hk, hp]

theorem getBubbleGeometryNat_congr (c : Constants) {s t : State} (h : sameScene s t) (n : Nat) :
    getBubbleGeometryNat c t n = getBubbleGeometryNat c s n := by
  induction n with
  | zero => simp only [getBubbleGeometryNat, entityRect_congr c h]
  | succ n ih => simp only [getBubbleGeometryNat, entityRect_congr c h, ih]

theorem getBubbleGeometry_congr (c : Constants) {s t : State} (h : sameScene s t) (index : Int) :
    getBubbleGeometry c t index = getBubbleGeometry c s index := by
  unfold getBubbleGeometry
  rw [getBubbleGeometryNat_congr c h]

theorem lastStableLoop_congr (c : Constants) {s t : State} (h : sameScene s t) (n : Nat)
    (rect : QRect) : lastStableLoop c t n rect = lastStableLoop c s n rect := by
  induction n generalizing rect with
  | zero => rfl
  | succ i ih =>
    have hg := sameBubbles_getElem_map h.1 (i + 1)
    unfold lastStableLoop
    rw [getBubbleGeometry_congr c h]
    cases hk : t.m_bubbleList[i + 1]? with
    | none =>
      cases hl : s.m_bubbleList[i + 1]? with
      | none => exact ih rect
      | some b => rw [hk, hl] at hg; simp at hg
    | some a =>
      cases hl : s.m_bubbleList[i + 1]? with
      | none => rw [hk, hl] at hg; simp at hg
      | some b =>
        rw [hk, hl] at hg
        simp only [Option.map_some', Option.some.injEq, Prod.mk.injEq] at hg
        simp only [hg.2.2, ih]

theorem getLastStableRect_congr (c : Constants) {s t : State} (h : sameScene s t)
    (index : Int) : getLastStableRect c t index = getLastStableRect c s index := by
  unfold getLastStableRect
  rw [getBubbleGeometry_congr c h]
  cases getBubbleGeometry c s 0 with
  | none => rfl
  | some rect => exact lastStableLoop_congr c h _ rect

/-! ## The moves that pushAnimation starts -/

theorem pushAnimationStep_move (c : Constants) (s t : State) (index : Nat)
    (h : pushAnimationStep c s index = some t) :
    ∃ item startRect endRect, s.m_bubbleList[index]? = some item
      ∧ getBubbleGeometry c s index = some endRect
      ∧ getLastStableRect c s ((index : Int) - 1) = some startRect
      ∧ sameScene s t
      ∧ t.fx = s.fx ++ [Effect.startMove item.ptr
          (if item.geometry ≠ endRect then item.geometry else startRect) endRect false] := by
  unfold pushAnimationStep at h
  cases h1 : getLastStableRect c s ((index : Int) - 1) with
  | none => simp [h1] at h
  | some r1 =>
    cases h2 : getBubbleGeometry c s index with
    | none => simp [h1, h2] at h
    | some r2 =>
      cases h3 : s.m_bubbleList[index]? with
      | none => simp [h1, h2, h3] at h
      | some item =>
        simp only [h1, h2, h3, Option.bind_eq_bind, Option.some_bind, Option.some.injEq] at h
        subst h
        exact ⟨item, r1, r2, rfl, rfl, rfl,
          ⟨sameBubbles_set s.m_bubbleList index _ index _ h3, rfl, rfl, rfl⟩, rfl⟩

/-- The loop of `pushAnimation` starts one move for each position behind
`index`, towards the computed rectangle of that position. -/
theorem pushAnimationLoop_moves (c : Constants) (k : Nat) :
    ∀ (index : Nat) (s t : State), pushAnimationLoop c k index s = some t →
      sameScene s t
      ∧ ∃ g, t.fx = s.fx ++ g ∧ g.length = k
        ∧ ∀ j, j < k → ∃ item startRect endRect,
            s.m_bubbleList[index + 1 + j]? = some item
            ∧ g[j]? = some (Effect.startMove item.ptr startRect endRect false)
            ∧ getBubbleGeometry c s ((index + 1 + j : Nat) : Int) = some endRect
            ∧ (item.geometry ≠ endRect → startRect = item.geometry)
            ∧ (item.geometry = endRect →
                getLastStableRect c s ((index + j : Nat) : Int) = some startRect) := by
  induction k with
  | zero =>
    intro index s t h
    simp only [pushAnimationLoop, Option.some.injEq] at h
    subst h
    exact ⟨sameScene_refl _, [], by simp, rfl, fun j hj => absurd hj (by omega)⟩
  | succ k ih =>
    intro index s t h
    rw [pushAnimationLoop] at h
    cases h1 : pushAnimationStep c s (index + 1) with
    | none => simp [h1] at h
    | some s1 =>
      simp only [h1] at h
      obtain ⟨item, r1, r2, hitem, hend, hstart, hsc, hfx⟩ :=
        pushAnimationStep_move c s s1 (index + 1) h1
      obtain ⟨hsc2, g, hg, hlen, hall⟩ := ih (index + 1) s1 t h
      refine ⟨sameScene_trans hsc hsc2,
        Effect.startMove item.ptr (if item.geometry ≠ r2 then item.geometry else r1) r2 false
          :: g, ?_, by simp [hlen], ?_⟩
      · rw [hg, hfx]; simp
      · intro j hj
        cases j with
        | zero =>
          refine ⟨item, (if item.geometry ≠ r2 then item.geometry else r1), r2, hitem,
            by simp, hend, ?_, ?_⟩
          · intro hne; rw [if_pos hne]
          · intro he
            rw [if_neg (not_not.2 he)]
            have e : ((index + 1 : Nat) : Int) - 1 = ((index + 0 : Nat) : Int) := by
              push_cast; omega
            rw [← e]; exact hstart
        | succ j =>
          obtain ⟨it, sr, er, hit, hgj, hge, hne, heq⟩ := hall j (by omega)
          obtain ⟨a, ha, hp, _, hgeo⟩ := sameBubbles_getElem_some hsc.1 _ it hit
          have e1 : index + 1 + (j + 1) = index + 1 + 1 + j := by omega
          have e2 : index + (j + 1) = index + 1 + j := by omega
          refine ⟨a, sr, er, by rw [e1]; exact ha, ?_, ?_, ?_, ?_⟩
          · rw [hp]; simpa using hgj
          · rw [e1, ← getBubbleGeometry_congr c hsc]; exact hge
          · rw [hgeo]; exact hne
          · rw [hgeo, e2, ← getLastStableRect_congr c hsc]; exact heq

theorem createBubble_zero_some (c : Constants) (s t : State) (notify : NotificationEntity)
    (b : Bubble) (h : createBubble c s notify 0 = some (b, t)) :
    ∃ endRect, b = ⟨s.nextPtr, notify, 0, c.newBubbleGeometry, true⟩
      ∧ t = { s with nextPtr := s.nextPtr + 1,
                     fx := s.fx ++ [Effect.show s.nextPtr,
                       Effect.geometryAnimation s.nextPtr (endRect.setHeight 1) endRect] } := by
  unfold createBubble at h
  simp only [ne_eq, not_true_eq_false, if_false] at h
  cases h1 : getBubbleGeometry c s 0 with
  | none => simp [h1] at h
  | some r =>
    simp only [h1, Option.bind_eq_bind, Option.some_bind, Option.some.injEq,
      Prod.mk.injEq] at h
    obtain ⟨hb, ht⟩ := h
    exact ⟨r, hb.symm, ht.symm⟩

/-- The effects of `pushBubble`: behind the calls that create the new bubble and
hide an evicted one, one move for each bubble behind the new head. -/
theorem pushBubble_moves (c : Constants) (s t : State) (notify : NotificationEntity)
    (h : pushBubble c s notify = some t) :
    ∃ b l g0 g, t.m_bubbleList = b :: l ∧ t.fx = s.fx ++ g0 ++ g
      ∧ (∀ p r1 r2 d, Effect.startMove p r1 r2 d ∉ g0)
      ∧ g.length = l.length
      ∧ ∀ i item, l[i]? = some item →
          ∃ startRect endRect,
            g[i]? = some (Effect.startMove item.ptr startRect endRect false)
            ∧ getBubbleGeometry c t ((i + 1 : Nat) : Int) = some endRect
            ∧ (item.geometry ≠ endRect → startRect = item.geometry)
            ∧ (item.geometry = endRect → getLastStableRect c t (i : Int) = some startRect) := by
  unfold pushBubble at h
  cases hc : createBubble c s notify 0 with
  | none => simp [hc] at h
  | some r =>
    obtain ⟨b0, s1⟩ := r
    obtain ⟨er, hb0, hs1⟩ := createBubble_zero_some c s s1 notify b0 hc
    simp only [hc, Option.bind_eq_bind, Option.some_bind] at h
    -- the state before `pushAnimation`, and the effects up to it
    have key : ∀ (s2 : State) (g0 : List Effect), s2.fx = s.fx ++ g0 →
        (∀ p r1 r2 d, Effect.startMove p r1 r2 d ∉ g0) →
        pushAnimation c { s2 with m_bubbleList := b0 :: s2.m_bubbleList } b0.ptr = some t →
        ∃ b l g0 g, t.m_bubbleList = b :: l ∧ t.fx = s.fx ++ g0 ++ g
          ∧ (∀ p r1 r2 d, Effect.startMove p r1 r2 d ∉ g0)
          ∧ g.length = l.length
          ∧ ∀ i item, l[i]? = some item →
              ∃ startRect endRect,
                g[i]? = some (Effect.startMove item.ptr startRect endRect false)
                ∧ getBubbleGeometry c t ((i + 1 : Nat) : Int) = some endRect
                ∧ (item.geometry ≠ endRect → startRect = item.geometry)
                ∧ (item.geometry = endRect →
                    getLastStableRect c t (i : Int) = some startRect) := by
      intro s2 g0 hfx hno ha
      unfold pushAnimation at ha
      have hidx : indexOf (b0 :: s2.m_bubbleList) b0.ptr = some 0 := by simp [indexOf]
      simp only [hidx, List.length_cons, Nat.add_sub_cancel, Nat.sub_zero] at ha
      obtain ⟨hsc, g, hg, hlen, hall⟩ := pushAnimationLoop_moves c _ 0 _ t ha
      obtain ⟨b1, l1, hl1, _, _, _, k1⟩ := sameBubbles_cons_left hsc.1
      refine ⟨b1, l1, g0, g, hl1, ?_, hno, ?_, ?_⟩
      · rw [hg]; simp only [hfx]
      · rw [hlen, sameBubbles_length k1]
      · intro i item hi
        have hlt : i < s2.m_bubbleList.length := by
          rw [← sameBubbles_length k1]
          exact (List.getElem?_eq_some.1 hi).1
        obtain ⟨it, sr, endr, hit, hgi, hge, hne, heq⟩ := hall i hlt
        have hit2 : t.m_bubbleList[0 + 1 + i]? = some item := by
          rw [hl1]
          have : 0 + 1 + i = i + 1 := by omega
          rw [this, List.getElem?_cons_succ]
          exact hi
        obtain ⟨a, ha2, hp, _, hgeo⟩ := sameBubbles_getElem_some hsc.1 _ item hit2
        rw [hit] at ha2
        simp only [Option.some.injEq] at ha2
        subst ha2
        have e1 : 0 + 1 + i = i + 1 := by omega
        have e2 : 0 + i = i := by omega
        rw [e1] at hge
        rw [e2] at heq
        refine ⟨sr, endr, by rw [← hp]; exact hgi, ?_, ?_, ?_⟩
        · rw [getBubbleGeometry_congr c hsc]; exact hge
        · rw [← hgeo]; exact hne
        · rw [← hgeo, getLastStableRect_congr c hsc]; exact heq
    by_cases hfull : s1.m_bubbleList.length = c.BubbleEntities + c.BubbleOverLap
    · rw [if_pos hfull] at h
      cases hl : s1.m_bubbleList.getLast? with
      | none => simp [hl] at h
      | some last =>
        simp only [hl, Option.some_bind] at h
        exact key
          { s1 with m_oldEntities := last.entity :: s1.m_oldEntities,
                    m_bubbleList := s1.m_bubbleList.dropLast,
                    fx := s1.fx ++ [Effect.hide last.ptr, Effect.deleteLater last.ptr] }
          ([Effect.show s.nextPtr,
            Effect.geometryAnimation s.nextPtr (er.setHeight 1) er]
            ++ [Effect.hide last.ptr, Effect.deleteLater last.ptr])
          (by rw [hs1]; simp) (by simp) h
    · rw [if_neg hfull] at h
      exact key s1 [Effect.show s.nextPtr,
          Effect.geometryAnimation s.nextPtr (er.setHeight 1) er]
        (by rw [hs1]) (by simp) h

/-- C20 (as amended): `pushBubble` starts exactly one move on every bubble that
stays in the queue behind the new head, whether or not its current rectangle
differs from the computed rectangle of its new position.  The end rectangle is
`getBubbleGeometry(new position)`; the comparison only chooses the start
rectangle: the current rectangle when it differs from the end rectangle,
`getLastStableRect(new position - 1)` when the bubble is already there. -/
theorem C20_pushBubble_moves_every_bubble (c : Constants) (s : State)
    (notify : NotificationEntity) (hN : 1 ≤ c.BubbleEntities)
    (hlen : s.m_bubbleList.length ≤ c.BubbleEntities + c.BubbleOverLap) :
    ∃ t b l g0 g, pushBubble c s notify = some t
      ∧ t.m_bubbleList = b :: l ∧ b.entity = notify
      ∧ sameBubbles
          (if s.m_bubbleList.length = c.BubbleEntities + c.BubbleOverLap then
            s.m_bubbleList.dropLast else s.m_bubbleList) l
      ∧ t.fx = s.fx ++ g0 ++ g
      ∧ (∀ p r1 r2 d, Effect.startMove p r1 r2 d ∉ g0)
      ∧ g.length = l.length
      ∧ ∀ i item, l[i]? = some item →
          ∃ startRect endRect,
            g[i]? = some (Effect.startMove item.ptr startRect endRect false)
            ∧ getBubbleGeometry c t ((i + 1 : Nat) : Int) = some endRect
            ∧ (item.geometry ≠ endRect → startRect = item.geometry)
            ∧ (item.geometry = endRect → getLastStableRect c t (i : Int) = some startRect) := by
  obtain ⟨b, l, f, e, _, he, k⟩ := pushBubble_spec c s notify hN hlen
  obtain ⟨b1, l1, g0, g, hl, hfx, hno, hgl, hall⟩ := pushBubble_moves c s _ notify e
  simp only [List.cons.injEq] at hl
  obtain ⟨hb, hl⟩ := hl
  subst hb hl
  exact ⟨_, b, l, g0, g, e, rfl, he, k, hfx, hno, hgl, hall⟩

/-- An instance of C20: a push on the sample queue of two bubbles. -/
theorem C20_pushBubble_moves_every_bubble_witness :
    ∃ t b l g0 g, pushBubble sampleConstants (sampleState [1, 2] []) (sampleEntity 5) = some t
      ∧ t.m_bubbleList = b :: l ∧ b.entity = sampleEntity 5
      ∧ sameBubbles
          (if (sampleState [1, 2] []).m_bubbleList.length
              = sampleConstants.BubbleEntities + sampleConstants.BubbleOverLap then
            (sampleState [1, 2] []).m_bubbleList.dropLast
           else (sampleState [1, 2] []).m_bubbleList) l
      ∧ t.fx = (sampleState [1, 2] []).fx ++ g0 ++ g
      ∧ (∀ p r1 r2 d, Effect.startMove p r1 r2 d ∉ g0)
      ∧ g.length = l.length
      ∧ ∀ i item, l[i]? = some item →
          ∃ startRect endRect,
            g[i]? = some (Effect.startMove item.ptr startRect endRect false)
            ∧ getBubbleGeometry sampleConstants t ((i + 1 : Nat) : Int) = some endRect
            ∧ (item.geometry ≠ endRect → startRect = item.geometry)
            ∧ (item.geometry = endRect →
                getLastStableRect sampleConstants t (i : Int) = some startRect) :=
  C20_pushBubble_moves_every_bubble sampleConstants (sampleState [1, 2] []) (sampleEntity 5)
    (by decide) (by decide)

/-- C20 (counterexample): the only bubble of the queue rests at the rectangle of
position 1; after `pushBubble` it is at position 1, its current rectangle equals
the computed rectangle of that position, and `startMove` is called on it. -/
theorem C20_counterexample_settled_bubble_moved :
    (pushBubble sampleConstants sampleInPlace (sampleEntity 5)).map
        (fun t => (t.m_bubbleList.map (fun b => (b.ptr, b.geometry)),
                   getBubbleGeometry sampleConstants t 1, t.fx))
      = some ([(100, QRect.mk4 0 0 600 60), (1, QRect.mk4 660 92 600 60)],
              some (QRect.mk4 660 92 600 60),
              [Effect.show 100,
               Effect.geometryAnimation 100 ((QRect.mk4 660 20 600 60).setHeight 1)
                 (QRect.mk4 660 20 600 60),
               Effect.startMove 1 (QRect.mk4 660 20 600 60) (QRect.mk4 660 92 600 60) false]) := by
  decide

/-! ## Identities of the tracked notifications -/

theorem matchesNotify_iff_key (e n : NotificationEntity) :
    matchesNotify e n = true ↔ entityKey e = entityKey n := by
  simp [matchesNotify, entityKey]

theorem removeOne_sublist (l : List Bubble) (p : Nat) : (removeOne l p).Sublist l := by
  induction l with
  | nil => simp [removeOne]
  | cons b l ih =>
    unfold removeOne
    by_cases hb : b.ptr = p
    · rw [if_pos hb]; exact List.sublist_cons_self b l
    · rw [if_neg hb]; exact ih.cons₂ b

theorem sameBubbles_keys {l k : List Bubble} (h : sameBubbles l k) :
    k.map (fun b => entityKey b.entity) = l.map (fun b => entityKey b.entity) := by
  have := congrArg (List.map entityKey) (sameBubbles_entity h)
  simpa [List.map_map, Function.comp_def] using this

theorem dropLast_keys (l : List Bubble) :
    l.dropLast.map (fun b => entityKey b.entity)
        ++ (l.getLast?.map Bubble.entity).toList.map entityKey
      = l.map (fun b => entityKey b.entity) := by
  cases hl : l.getLast? with
  | none =>
    rw [List.getLast?_eq_none_iff] at hl
    subst hl
    rfl
  | some last =>
    have := List.dropLast_append_getLast? last hl
    conv_rhs => rw [← this]
    simp [Option.toList]

/-- The identities tracked after `pushBubble`: the pushed one, then those
tracked before. -/
theorem tracked_pushBubble (c : Constants) (s t : State) (n : NotificationEntity)
    (h : pushBubble c s n = some t) :
    tracked t = entityKey n :: tracked s ∧ t.m_replaceCount = s.m_replaceCount := by
  obtain ⟨b, l, g, e, _, he, k, _⟩ := pushBubble_some c s t n h
  subst e
  refine ⟨?_, rfl⟩
  simp only [tracked, List.map_cons, he, sameBubbles_keys k, List.cons_append, List.cons.injEq,
    true_and]
  by_cases hfull : s.m_bubbleList.length = c.BubbleEntities + c.BubbleOverLap
  · simp only [hfull, if_true, List.map_append, ← List.append_assoc, dropLast_keys]
  · simp only [hfull, if_false]

/-- The identities tracked after `popBubble` are among those tracked before, in
the same order. -/
theorem tracked_popBubble (c : Constants) (s t : State) (p : Nat)
    (h : popBubble c s p = some t) :
    (tracked t).Sublist (tracked s) ∧ t.m_replaceCount = s.m_replaceCount := by
  obtain ⟨promoted, rest, l, g, e, hold, _, _, k, _⟩ := popBubble_some c s t p h
  subst e
  refine ⟨?_, rfl⟩
  simp only [tracked, sameBubbles_keys k, hold, List.map_append, List.map_map,
    ← List.append_assoc]
  refine List.Sublist.append ?_ (List.Sublist.refl _)
  have := (removeOne_sublist (s.m_bubbleList ++ promoted) p).map
    (fun b => entityKey b.entity)
  simpa [List.map_append, Function.comp_def] using this

theorem afterReplace_replace (c : Constants) (env : Env) (s : State) (a : NotifyArgs)
    (hX : a.replacesId ≠ 0) :
    ∃ l pers g, afterReplace c env s a
        = (s.m_bubbleList.any (fun b => matchesNotify b.entity (newNotification c env a)),
           newNotification c env a,
           { s with m_bubbleList := l, persistence := pers,
                    m_oldEntities := skipRemove (newNotification c env a) s.m_oldEntities,
                    fx := s.fx ++ g })
      ∧ l.map (fun b => entityKey b.entity) = s.m_bubbleList.map (fun b => entityKey b.entity) := by
  obtain ⟨g, e, _⟩ := afterReplace_eq c env s a
  rw [calcReplaceId_replace c s _ (show (newNotification c env a).replacesId ≠ 0 from hX),
    removeStale_skipRemove] at e
  refine ⟨_, _, g, e, ?_⟩
  rw [List.map_map]
  apply List.map_congr_left
  intro b _
  simp only [Function.comp_apply]
  by_cases hm : matchesNotify b.entity (newNotification c env a) = true
  · rw [if_pos hm]
    exact ((matchesNotify_iff_key _ _).1 hm).symm
  · rw [if_neg hm]

/-- What an accepted submission leaves: the lists of `calcReplaceId`, with the
notification pushed in front of them or not. -/
theorem Notify_accepted_tracked (c : Constants) (env : Env) (s t : State) (a : NotifyArgs)
    (id : Nat) (hacc : suppressed c env a = false) (h : Notify c env s a = some (id, t)) :
    t.m_replaceCount = (afterReplace c env s a).2.2.m_replaceCount
      ∧ (tracked t = tracked (afterReplace c env s a).2.2
          ∨ ((afterReplace c env s a).1 = false
              ∧ tracked t = entityKey (afterReplace c env s a).2.1
                  :: tracked (afterReplace c env s a).2.2)) := by
  obtain ⟨hl1, hl2, hl3, _⟩ := afterHistory_lists c env s a
  have hH : tracked (afterHistory c env s a) = tracked (afterReplace c env s a).2.2 := by
    simp only [tracked, hl1, hl2]
  rw [Notify_accepted_eq c env s a hacc] at h
  simp only [Option.map_eq_some', Prod.mk.injEq] at h
  obtain ⟨t1, h1, _, rfl⟩ := h
  split_ifs at h1 with hf hs hb hb2
  · obtain ⟨e1, e2⟩ := tracked_pushBubble c _ _ _ h1
    exact ⟨by rw [e2, hl3], Or.inr ⟨hf, by rw [e1, hH]⟩⟩
  · simp only [Option.some.injEq] at h1
    subst h1
    exact ⟨hl3, Or.inl hH⟩
  · simp only [Option.some.injEq] at h1
    subst h1
    exact ⟨hl3, Or.inl hH⟩
  · simp only [Option.some.injEq] at h1
    subst h1
    exact ⟨hl3, Or.inl hH⟩
  · simp only [Option.some.injEq] at h1
    subst h1
    exact ⟨rfl, Or.inl rfl⟩

theorem countP_matches_le_one (n : NotificationEntity) (l : List NotificationEntity)
    (h : (l.map entityKey).Nodup) : l.countP (fun e => matchesNotify e n) ≤ 1 := by
  induction l with
  | nil => simp
  | cons e l ih =>
    simp only [List.map_cons, List.nodup_cons] at h
    rw [List.countP_cons]
    by_cases hm : matchesNotify e n = true
    · have h0 : l.countP (fun e => matchesNotify e n) = 0 := by
        rw [List.countP_eq_zero]
        intro x hx hmx
        apply h.1
        rw [(matchesNotify_iff_key e n).1 hm, ← (matchesNotify_iff_key x n).1 hmx]
        exact List.mem_map_of_mem entityKey hx
      simp [hm, h0]
    · have := ih h.2
      simp only [hm, Bool.false_eq_true, if_false]
      omega

/-- One submission keeps the identities apart, when its `replacesId` is 0 or an
id that the counter has allocated and the counter does not wrap. -/
theorem Notify_allocated_inv (c : Constants) (env : Env) (s t : State) (a : NotifyArgs)
    (id : Nat) (hnd : (tracked s).Nodup) (hle : ∀ k ∈ tracked s, k.1 ≤ s.m_replaceCount)
    (ha : a.replacesId ≤ s.m_replaceCount) (hc : s.m_replaceCount + 1 < c.counterRange)
    (h : Notify c env s a = some (id, t)) :
    (tracked t).Nodup ∧ ∀ k ∈ tracked t, k.1 ≤ t.m_replaceCount := by
  cases hs : suppressed c env a with
  | true =>
    rw [Notify_suppressed c env s a hs] at h
    simp only [Option.some.injEq, Prod.mk.injEq] at h
    obtain ⟨_, rfl⟩ := h
    exact ⟨hnd, hle⟩
  | false =>
    obtain ⟨hcount, hcases⟩ := Notify_accepted_tracked c env s t a id hs h
    by_cases h0 : a.replacesId = 0
    · obtain ⟨g, e⟩ := afterReplace_fresh c env s a h0
      rw [e] at hcount hcases
      rw [Nat.mod_eq_of_lt hc] at hcount hcases
      have htr : tracked { s with m_replaceCount := s.m_replaceCount + 1, fx := s.fx ++ g }
          = tracked s := rfl
      simp only [htr] at hcases
      simp only at hcount
      rcases hcases with e1 | ⟨_, e1⟩
      · rw [e1, hcount]
        exact ⟨hnd, fun k hk => Nat.le_succ_of_le (hle k hk)⟩
      · rw [e1, hcount]
        refine ⟨List.nodup_cons.2 ⟨?_, hnd⟩, ?_⟩
        · intro hmem
          have := hle _ hmem
          simp only [entityKey] at this
          omega
        · intro k hk
          rcases List.mem_cons.1 hk with rfl | hk
          · simp only [entityKey]; omega
          · exact Nat.le_succ_of_le (hle k hk)
    · obtain ⟨l, pers, g, e, hkeys⟩ := afterReplace_replace c env s a h0
      rw [e] at hcount hcases
      simp only at hcount
      have hsub : (tracked { s with
            m_bubbleList := l, persistence := pers,
            m_oldEntities := skipRemove (newNotification c env a) s.m_oldEntities,
            fx := s.fx ++ g }).Sublist (tracked s) := by
        simp only [tracked, hkeys]
        exact List.Sublist.append (List.Sublist.refl _)
          ((skipRemove_sublist _ _).map entityKey)
      rcases hcases with e1 | ⟨hf, e1⟩
      · rw [e1, hcount]
        exact ⟨hnd.sublist hsub, fun k hk => hle k (hsub.subset hk)⟩
      · rw [e1, hcount]
        simp only at hf
        refine ⟨List.nodup_cons.2 ⟨?_, hnd.sublist hsub⟩, ?_⟩
        · simp only [tracked, hkeys, List.mem_append, List.mem_map, not_or, not_exists,
            not_and]
          constructor
          · intro b hb hk
            rw [List.any_eq_false] at hf
            exact hf b hb ((matchesNotify_iff_key _ _).2 hk)
          · intro x hx hk
            have hold : (s.m_oldEntities.map entityKey).Nodup := by
              have := hnd
              simp only [tracked] at this
              exact (List.nodup_append.1 this).2.1
            have := skipRemove_unique (newNotification c env a) s.m_oldEntities
              (countP_matches_le_one _ _ hold) x hx
            rw [(matchesNotify_iff_key _ _).2 hk] at this
            cases this
        · intro k hk
          rcases List.mem_cons.1 hk with rfl | hk
          · exact ha
          · exact hle k (hsub.subset hk)

/-- A run that `runAllocated` completes stays inside the states of
`ReachableAllocated`. -/
theorem reachableAllocated_run (c : Constants) :
    ∀ (ops : List Operation) (s t : State), ReachableAllocated c s →
      runAllocated c s ops = some t → ReachableAllocated c t
  | [], s, t, hs, h => by
    simp only [runAllocated, Option.some.injEq] at h
    subst h
    exact hs
  | Operation.notify env a :: rest, s, t, hs, h => by
    rw [runAllocated] at h
    by_cases hc : a.replacesId ≤ s.m_replaceCount ∧ s.m_replaceCount + 1 < c.counterRange
    · rw [if_pos hc] at h
      cases h1 : Notify c env s a with
      | none => simp [h1] at h
      | some r =>
        simp only [h1] at h
        exact reachableAllocated_run c rest r.2 t
          (ReachableAllocated.notify env a r.1 hs hc.1 hc.2 h1) h
    · rw [if_neg hc] at h
      cases h
  | Operation.pop bubble :: rest, s, t, hs, h => by
    rw [runAllocated] at h
    cases h1 : popBubble c s bubble with
    | none => simp [h1] at h
    | some u =>
      simp only [h1] at h
      exact reachableAllocated_run c rest u t (ReachableAllocated.pop bubble hs h1) h
  | Operation.close id :: rest, s, t, _, h => by
    simp [runAllocated] at h
  | Operation.popAll :: rest, s, t, _, h => by
    simp [runAllocated] at h

/-- C14 (as amended): in every state reached from the empty manager by pops and
by submissions whose `replacesId` is 0 or an id that the counter has already
allocated, with the counter inside its range, no two notifications of the live
queue and the overflow list have the same identity `(replacesId, appName)`; so
no two bubbles of the live queue refer to the same identity, and no tracked
`replacesId` is above the counter. -/
theorem C14_allocated_ids_unique (c : Constants) (s : State) (h : ReachableAllocated c s) :
    (tracked s).Nodup
      ∧ (s.m_bubbleList.map (fun b => entityKey b.entity)).Nodup
      ∧ ∀ k ∈ tracked s, k.1 ≤ s.m_replaceCount := by
  have key : (tracked s).Nodup ∧ ∀ k ∈ tracked s, k.1 ≤ s.m_replaceCount := by
    induction h with
    | init display dock pos => simp [tracked, emptyManager]
    | notify env a id _ ha hc hn ih =>
      exact Notify_allocated_inv c env _ _ a id ih.1 ih.2 ha hc hn
    | pop bubble _ hp ih =>
      obtain ⟨hsub, hcount⟩ := tracked_popBubble c _ _ bubble hp
      exact ⟨ih.1.sublist hsub, fun k hk => by rw [hcount]; exact ih.2 k (hsub.subset hk)⟩
  refine ⟨key.1, ?_, key.2⟩
  have := key.1
  simp only [tracked] at this
  exact (List.nodup_append.1 this).1

/-- An instance of C14: six fresh submissions, a replace of a live
notification, a submission with the id of the overflow entry and a pop leave
five tracked notifications with five identities. -/
theorem C14_allocated_ids_unique_witness :
    ∃ t, runAllocated sampleConstants sampleEmpty sampleAllocatedRun = some t
      ∧ tracked t = [(1, "app"), (6, "app"), (4, "app"), (3, "app"), (2, "app")]
      ∧ (tracked t).Nodup
      ∧ (t.m_bubbleList.map (fun b => entityKey b.entity)).Nodup := by
  have key : (runAllocated sampleConstants sampleEmpty sampleAllocatedRun).map tracked
      = some [(1, "app"), (6, "app"), (4, "app"), (3, "app"), (2, "app")] := by
    decide
  cases h : runAllocated sampleConstants sampleEmpty sampleAllocatedRun with
  | none => rw [h] at key; simp at key
  | some t =>
    rw [h] at key
    simp only [Option.map_some', Option.some.injEq] at key
    have hr := C14_allocated_ids_unique sampleConstants t
      (reachableAllocated_run sampleConstants sampleAllocatedRun sampleEmpty t
        (ReachableAllocated.init _ _ _) h)
    exact ⟨t, rfl, key, hr.1, hr.2.1⟩

/-- C14 (counterexample): application `app` submits a notification with
`replacesId` 1 to the empty manager and then a fresh one, which gets id 1 from
the counter; both are in the live queue with the identity `(1, app)`. -/
theorem C14_counterexample_supplied_id_collides :
    ∃ s, Reachable sampleConstants s
      ∧ s.m_bubbleList.map (fun b => entityKey b.entity) = [(1, "app"), (1, "app")]
      ∧ tracked s = [(1, "app"), (1, "app")]
      ∧ ¬ (tracked s).Nodup := by
  have key : (Notify sampleConstants (sampleEnv (QTime.hm 12 0))
        (emptyManager (QRect.mk4 0 0 1920 1080) (QRect.mk4 0 1040 1920 40)
          DockPosition.Bottom) (sampleArgs "app" 1)).bind
      (fun r => (Notify sampleConstants (sampleEnv (QTime.hm 12 0)) r.2
        (sampleArgs "app" 0)).map
          (fun q => (q.2.m_bubbleList.map (fun b => entityKey b.entity), tracked q.2)))
      = some ([(1, "app"), (1, "app")], [(1, "app"), (1, "app")]) := by
    decide
  cases h1 : Notify sampleConstants (sampleEnv (QTime.hm 12 0))
      (emptyManager (QRect.mk4 0 0 1920 1080) (QRect.mk4 0 1040 1920 40)
        DockPosition.Bottom) (sampleArgs "app" 1) with
  | none => rw [h1] at key; simp at key
  | some r1 =>
    rw [h1] at key
    simp only [Option.some_bind] at key
    cases h2 : Notify sampleConstants (sampleEnv (QTime.hm 12 0)) r1.2 (sampleArgs "app" 0) with
    | none => rw [h2] at key; simp at key
    | some r2 =>
      rw [h2] at key
      simp only [Option.map_some', Option.some.injEq, Prod.mk.injEq] at key
      refine ⟨r2.2, Reachable.notify _ _ r2.1
        (Reachable.notify _ _ r1.1 (Reachable.init _ _ _) h1) h2, key.1, key.2, ?_⟩
      rw [key.2]
      decide

/-! ## The ends of the do-not-disturb window -/

theorem isDoNotDisturb_window_eq (env : Env)
    (hmaster : (getSystemSetting env .DNDMODE).toBool = true)
    (hsched : (getSystemSetting env .OPENBYTIMEINTERVAL).toBool = true)
    (hlock : ¬ ((getSystemSetting env .LOCKSCREENOPENDNDMODE).toBool = true ∧ env.locked = true)) :
    isDoNotDisturb env
      = dndWindow (env.timeFromString (getSystemSetting env .STARTTIME).toString)
          (env.timeFromString (getSystemSetting env .ENDTIME).toString) env.currentTime := by
  rw [isDoNotDisturb_eq, hmaster, hsched]
  by_cases hl : (getSystemSetting env .LOCKSCREENOPENDNDMODE).toBool = true
  · have : env.locked = false := by
      cases h : env.locked
      · rfl
      · exact absurd ⟨hl, h⟩ hlock
    simp [hl, this]
  · simp [hl]

theorem QTime.le_refl (a : QTime) : a ≤ a := Int.le_refl a.mds

theorem QTime.le_of_lt (a b : QTime) (h : a < b) : a ≤ b := Int.le_of_lt h

/-- C21 (as amended): the do-not-disturb window is closed at both ends.  With
the master and the schedule switch on, the lock rule not applying and
`start < end`, `isDoNotDisturb` is true exactly for `start <= now <= end`: it is
true when `now == end` and when `now == start`. -/
theorem C21_window_closed_at_end (env : Env)
    (hmaster : (getSystemSetting env .DNDMODE).toBool = true)
    (hsched : (getSystemSetting env .OPENBYTIMEINTERVAL).toBool = true)
    (hlock : ¬ ((getSystemSetting env .LOCKSCREENOPENDNDMODE).toBool = true ∧ env.locked = true))
    (hlt : env.timeFromString (getSystemSetting env .STARTTIME).toString
      < env.timeFromString (getSystemSetting env .ENDTIME).toString) :
    (isDoNotDisturb env = true ↔
      env.timeFromString (getSystemSetting env .STARTTIME).toString ≤ env.currentTime
        ∧ env.currentTime ≤ env.timeFromString (getSystemSetting env .ENDTIME).toString)
    ∧ (env.currentTime = env.timeFromString (getSystemSetting env .ENDTIME).toString →
        isDoNotDisturb env = true)
    ∧ (env.currentTime = env.timeFromString (getSystemSetting env .STARTTIME).toString →
        isDoNotDisturb env = true) := by
  have hiff : isDoNotDisturb env = true ↔
      env.timeFromString (getSystemSetting env .STARTTIME).toString ≤ env.currentTime
        ∧ env.currentTime ≤ env.timeFromString (getSystemSetting env .ENDTIME).toString := by
    rw [isDoNotDisturb_window_eq env hmaster hsched hlock, dndWindow_iff]
    constructor
    · rintro (h | h | h)
      · exact h.2
      · exact absurd hlt (by
          have h1 : (env.timeFromString (getSystemSetting env .ENDTIME).toString).mds
            < (env.timeFromString (getSystemSetting env .STARTTIME).toString).mds := h.1
          intro h2
          have h2 : (env.timeFromString (getSystemSetting env .STARTTIME).toString).mds
            < (env.timeFromString (getSystemSetting env .ENDTIME).toString).mds := h2
          omega)
      · rw [h] at hlt
        have h2 : (env.timeFromString (getSystemSetting env .ENDTIME).toString).mds
            < (env.timeFromString (getSystemSetting env .ENDTIME).toString).mds := hlt
        omega
    · intro h
      exact Or.inl ⟨hlt, h⟩
  refine ⟨hiff, ?_, ?_⟩
  · intro h
    rw [hiff, h]
    exact ⟨QTime.le_of_lt _ _ hlt, QTime.le_refl _⟩
  · intro h
    rw [hiff, h]
    exact ⟨QTime.le_refl _, QTime.le_of_lt _ _ hlt⟩

/-- An instance of C21: the schedule 06:00 to 22:00 at 06:00. -/
theorem C21_window_closed_at_end_witness :
    isDoNotDisturb (sampleDayEnv (QTime.hm 6 0)) = true :=
  (C21_window_closed_at_end (sampleDayEnv (QTime.hm 6 0)) (by decide) (by decide)
    (by decide) (by decide)).2.2 (by decide)

/-- C21 (counterexample): master and schedule switch on, lock switch off, the
window 06:00 to 22:00; at 22:00, the end of the window, do-not-disturb is on. -/
theorem C21_counterexample_on_at_end :
    (getSystemSetting (sampleDayEnv (QTime.hm 22 0)) .DNDMODE).toBool = true
      ∧ (getSystemSetting (sampleDayEnv (QTime.hm 22 0)) .OPENBYTIMEINTERVAL).toBool = true
      ∧ (getSystemSetting (sampleDayEnv (QTime.hm 22 0)) .LOCKSCREENOPENDNDMODE).toBool = false
      ∧ (sampleDayEnv (QTime.hm 22 0)).timeFromString
            (getSystemSetting (sampleDayEnv (QTime.hm 22 0)) .STARTTIME).toString = QTime.hm 6 0
      ∧ (sampleDayEnv (QTime.hm 22 0)).timeFromString
            (getSystemSetting (sampleDayEnv (QTime.hm 22 0)) .ENDTIME).toString = QTime.hm 22 0
      ∧ (sampleDayEnv (QTime.hm 22 0)).currentTime = QTime.hm 22 0
      ∧ QTime.hm 6 0 < QTime.hm 22 0
      ∧ isDoNotDisturb (sampleDayEnv (QTime.hm 22 0)) = true := by
  decide

/-! ## The stored index of a bubble -/

theorem pushAnimationStep_list (c : Constants) (s t : State) (index : Nat)
    (h : pushAnimationStep c s index = some t) :
    ∃ item, s.m_bubbleList[index]? = some item
      ∧ t.m_bubbleList = s.m_bubbleList.set index { item with bubbleIndex := index } := by
  unfold pushAnimationStep at h
  cases h1 : getLastStableRect c s ((index : Int) - 1) with
  | none => simp [h1] at h
  | some r1 =>
    cases h2 : getBubbleGeometry c s index with
    | none => simp [h1, h2] at h
    | some r2 =>
      cases h3 : s.m_bubbleList[index]? with
      | none => simp [h1, h2, h3] at h
      | some item =>
        simp only [h1, h2, h3, Option.bind_eq_bind, Option.some_bind, Option.some.injEq] at h
        subst h
        exact ⟨item, rfl, rfl⟩

/-- The loop of `pushAnimation` stores its position in every bubble behind
`index` and leaves the other bubbles as they are. -/
theorem pushAnimationLoop_indices (c : Constants) (k : Nat) :
    ∀ (index : Nat) (s t : State), pushAnimationLoop c k index s = some t →
      ∀ (i : Nat) (b : Bubble), t.m_bubbleList[i]? = some b →
        (index < i ∧ i ≤ index + k → b.bubbleIndex = (i : Int))
        ∧ (¬ (index < i ∧ i ≤ index + k) → s.m_bubbleList[i]? = some b) := by
  induction k with
  | zero =>
    intro index s t h i b hb
    simp only [pushAnimationLoop, Option.some.injEq] at h
    subst h
    exact ⟨fun hi => absurd hi.1 (by omega), fun _ => hb⟩
  | succ k ih =>
    intro index s t h i b hb
    rw [pushAnimationLoop] at h
    cases h1 : pushAnimationStep c s (index + 1) with
    | none => simp [h1] at h
    | some s1 =>
      simp only [h1] at h
      obtain ⟨item, hitem, hl⟩ := pushAnimationStep_list c s s1 (index + 1) h1
      obtain ⟨hin, hout⟩ := ih (index + 1) s1 t h i b hb
      have hlt : index + 1 < s.m_bubbleList.length := (List.getElem?_eq_some.1 hitem).1
      by_cases hi : i = index + 1
      · subst hi
        have hb1 := hout (by omega)
        rw [hl, List.getElem?_set_self hlt] at hb1
        simp only [Option.some.injEq] at hb1
        subst hb1
        exact ⟨fun _ => rfl, fun hn => absurd (by omega) hn⟩
      · constructor
        · intro hr
          exact hin (by omega)
        · intro hn
          have hb1 := hout (by omega)
          rw [hl, List.getElem?_set_ne (Ne.symm hi)] at hb1
          exact hb1

/-- After `pushBubble` every bubble of the queue stores its position, the new
bubble position 0. -/
theorem pushBubble_indices (c : Constants) (s t : State) (notify : NotificationEntity)
    (h : pushBubble c s notify = some t) :
    ∀ (i : Nat) (b : Bubble), t.m_bubbleList[i]? = some b → b.bubbleIndex = (i : Int) := by
  unfold pushBubble at h
  cases hc : createBubble c s notify 0 with
  | none => simp [hc] at h
  | some r =>
    obtain ⟨b0, s1⟩ := r
    obtain ⟨er, hb0, hs1⟩ := createBubble_zero_some c s s1 notify b0 hc
    simp only [hc, Option.bind_eq_bind, Option.some_bind] at h
    have key : ∀ (s2 : State),
        pushAnimation c { s2 with m_bubbleList := b0 :: s2.m_bubbleList } b0.ptr = some t →
        ∀ (i : Nat) (b : Bubble), t.m_bubbleList[i]? = some b → b.bubbleIndex = (i : Int) := by
      intro s2 ha i b hb
      unfold pushAnimation at ha
      have hidx : indexOf (b0 :: s2.m_bubbleList) b0.ptr = some 0 := by simp [indexOf]
      simp only [hidx, List.length_cons, Nat.add_sub_cancel, Nat.sub_zero] at ha
      obtain ⟨l, g, e, k, _⟩ := pushAnimationLoop_some c _ 0 _ t ha
      have hlen : t.m_bubbleList.length = s2.m_bubbleList.length + 1 := by
        rw [e]
        simpa using sameBubbles_length k
      have hi : i < s2.m_bubbleList.length + 1 := by
        rw [← hlen]
        exact (List.getElem?_eq_some.1 hb).1
      obtain ⟨hin, hout⟩ := pushAnimationLoop_indices c _ 0 _ t ha i b hb
      cases i with
      | zero =>
        have := hout (by omega)
        simp only [List.getElem?_cons_zero, Option.some.injEq] at this
        rw [← this, hb0]
        rfl
      | succ i => exact hin (by omega)
    by_cases hfull : s1.m_bubbleList.length = c.BubbleEntities + c.BubbleOverLap
    · rw [if_pos hfull] at h
      cases hl : s1.m_bubbleList.getLast? with
      | none => simp [hl] at h
      | some last =>
        simp only [hl, Option.some_bind] at h
        exact key
          { s1 with m_oldEntities := last.entity :: s1.m_oldEntities,
                    m_bubbleList := s1.m_bubbleList.dropLast,
                    fx := s1.fx ++ [Effect.hide last.ptr, Effect.deleteLater last.ptr] } h
    · rw [if_neg hfull] at h
      exact key s1 h

/-- C22 (code at the failing input): in the settled sample queue every bubble
stores its position (0, 1, 2); after `popBubble` of the bubble at position 0 the
bubbles 2 and 3 are at the positions 0 and 1 and store the indices 1 and 2, the
positions they had before the pop. -/
theorem C22_popBubble_keeps_old_index :
    sampleSettled.m_bubbleList.map (fun b => (b.ptr, b.bubbleIndex)) = [(1, 0), (2, 1), (3, 2)]
      ∧ (popBubble sampleConstants sampleSettled 1).map
          (fun t => t.m_bubbleList.map (fun b => (b.ptr, b.bubbleIndex)))
        = some [(2, 1), (3, 2)] := by
  decide

/-! ## The index assertion of getBubbleGeometry -/

/-- A call of `getBubbleGeometry` that returns has passed
`Q_ASSERT(index >= 0 && index <= BubbleEntities + BubbleOverLap)`. -/
theorem getBubbleGeometry_index (c : Constants) (s : State) (index : Int) (r : QRect)
    (h : getBubbleGeometry c s index = some r) :
    0 ≤ index ∧ index ≤ ((c.BubbleEntities + c.BubbleOverLap : Nat) : Int) := by
  unfold getBubbleGeometry at h
  by_cases h0 : index < 0
  · simp [h0] at h
  · rw [if_neg h0] at h
    refine ⟨by omega, ?_⟩
    cases hn : index.toNat with
    | zero => omega
    | succ n =>
      rw [hn, getBubbleGeometryNat] at h
      by_cases hgt : c.BubbleEntities + c.BubbleOverLap < n + 1
      · simp [hgt] at h
      · omega

/-- With the overflow list empty unless the queue is full, `pushBubble`
completes and leaves it so. -/
theorem pushBubble_queue_total (c : Constants) (s : State) (notify : NotificationEntity)
    (hN : 1 ≤ c.BubbleEntities)
    (hlen : s.m_bubbleList.length ≤ c.BubbleEntities + c.BubbleOverLap)
    (hfull : s.m_oldEntities ≠ [] →
      s.m_bubbleList.length = c.BubbleEntities + c.BubbleOverLap) :
    ∃ t, pushBubble c s notify = some t
      ∧ t.m_bubbleList.length ≤ c.BubbleEntities + c.BubbleOverLap
      ∧ (t.m_oldEntities ≠ [] →
          t.m_bubbleList.length = c.BubbleEntities + c.BubbleOverLap) := by
  obtain ⟨b, l, f, e, _, _, k⟩ := pushBubble_spec c s notify hN hlen
  refine ⟨_, e, ?_⟩
  have hl := sameBubbles_length k
  by_cases hf : s.m_bubbleList.length = c.BubbleEntities + c.BubbleOverLap
  · rw [if_pos hf, List.length_dropLast] at hl
    simp only [List.length_cons, hl]
    constructor
    · omega
    · intro _; omega
  · rw [if_neg hf] at hl
    simp only [List.length_cons, hl, if_neg hf]
    constructor
    · omega
    · intro ho; exact absurd (hfull ho) hf

/-- With the overflow list empty unless the queue is full, `popBubble` of a
bubble of the queue completes and leaves it so. -/
theorem popBubble_live_total (c : Constants) (s : State) (p : Nat)
    (hN : 1 ≤ c.BubbleEntities)
    (hlen : s.m_bubbleList.length ≤ c.BubbleEntities + c.BubbleOverLap)
    (hfull : s.m_oldEntities ≠ [] →
      s.m_bubbleList.length = c.BubbleEntities + c.BubbleOverLap)
    (hp : p ∈ s.m_bubbleList.map Bubble.ptr) :
    ∃ t, popBubble c s p = some t
      ∧ t.m_bubbleList.length ≤ c.BubbleEntities + c.BubbleOverLap
      ∧ (t.m_oldEntities ≠ [] →
          t.m_bubbleList.length = c.BubbleEntities + c.BubbleOverLap) := by
  cases hold : s.m_oldEntities with
  | nil =>
    obtain ⟨l, f, e, k⟩ := popBubble_empty c s p hN (by omega) hold
    refine ⟨_, e, ?_, ?_⟩
    · have hl := sameBubbles_length k
      have := length_removeOne_of_mem _ _ hp
      simp only [hl]
      omega
    · intro ho
      exact absurd hold ho
  | cons e rest =>
    have hf := hfull (by rw [hold]; simp)
    obtain ⟨t, nb, h1, h2, _, _, _, h6⟩ :=
      popBubble_present_promotes c s p e rest hN hlen (by omega) hold hp
    exact ⟨t, h1, by omega, fun _ => by omega⟩

/-- C23: in every state that `pushBubble` and `popBubble` of a live bubble reach
from the empty manager the queue holds at most `N + K` bubbles and the overflow
list is empty unless the queue is full; from such a state `pushBubble` and
`popBubble` of a live bubble complete, so no call of `getBubbleGeometry` in them
fails the index assertion (a call that returns has `0 <= index <= N + K`). -/
theorem C23_index_assertion_holds (c : Constants) (s : State) (hN : 1 ≤ c.BubbleEntities)
    (h : ReachableQueue c s) :
    s.m_bubbleList.length ≤ c.BubbleEntities + c.BubbleOverLap
      ∧ (s.m_oldEntities ≠ [] → s.m_bubbleList.length = c.BubbleEntities + c.BubbleOverLap)
      ∧ (∀ notify : NotificationEntity, ∃ t, pushBubble c s notify = some t)
      ∧ (∀ p ∈ s.m_bubbleList.map Bubble.ptr, ∃ t, popBubble c s p = some t)
      ∧ (∀ (u : State) (index : Int) (r : QRect), getBubbleGeometry c u index = some r →
          0 ≤ index ∧ index ≤ ((c.BubbleEntities + c.BubbleOverLap : Nat) : Int)) := by
  have inv : s.m_bubbleList.length ≤ c.BubbleEntities + c.BubbleOverLap
      ∧ (s.m_oldEntities ≠ [] →
          s.m_bubbleList.length = c.BubbleEntities + c.BubbleOverLap) := by
    induction h with
    | init display dock pos => simp [emptyManager]
    | push notify _ hpush ih =>
      obtain ⟨t, e, h1, h2⟩ := pushBubble_queue_total c _ notify hN ih.1 ih.2
      rw [e] at hpush
      simp only [Option.some.injEq] at hpush
      subst hpush
      exact ⟨h1, h2⟩
    | pop bubble _ hp hpop ih =>
      obtain ⟨t, e, h1, h2⟩ := popBubble_live_total c _ bubble hN ih.1 ih.2 hp
      rw [e] at hpop
      simp only [Option.some.injEq] at hpop
      subst hpop
      exact ⟨h1, h2⟩
  refine ⟨inv.1, inv.2, ?_, ?_, fun u index r hr => getBubbleGeometry_index c u index r hr⟩
  · intro notify
    obtain ⟨t, e, _⟩ := pushBubble_queue_total c s notify hN inv.1 inv.2
    exact ⟨t, e⟩
  · intro p hp
    obtain ⟨t, e, _⟩ := popBubble_live_total c s p hN inv.1 inv.2 hp
    exact ⟨t, e⟩

/-- An instance of C23: the manager after one push. -/
theorem C23_index_assertion_holds_witness :
    ∃ t, pushBubble sampleConstants sampleEmpty (sampleEntity 1) = some t
      ∧ (∀ notify : NotificationEntity, ∃ u, pushBubble sampleConstants t notify = some u)
      ∧ (∀ p ∈ t.m_bubbleList.map Bubble.ptr, ∃ u, popBubble sampleConstants t p = some u) := by
  obtain ⟨t, e, _⟩ := pushBubble_queue_total sampleConstants sampleEmpty (sampleEntity 1)
    (by decide) (by decide) (by decide)
  have h := C23_index_assertion_holds sampleConstants t (by decide)
    (ReachableQueue.push (sampleEntity 1) (ReachableQueue.init _ _ _) e)
  exact ⟨t, e, h.2.2.1, h.2.2.2.1⟩

/-! ## CloseNotification -/

theorem foldl_erase_diff {α : Type} [DecidableEq α] (P : α → Bool) :
    ∀ (copy cur : List α),
      copy.foldl (fun cur b => if P b then cur.erase b else cur) cur
        = cur.diff (copy.filter P)
  | [], cur => by simp
  | b :: copy, cur => by
    rw [List.foldl_cons, foldl_erase_diff P copy]
    by_cases hb : P b = true
    · simp [hb, List.diff_cons]
    · simp [hb]

theorem diff_filter_self {α : Type} [DecidableEq α] (P : α → Bool) :
    ∀ l : List α, l.diff (l.filter P) = l.filter (fun a => !P a)
  | [] => by simp
  | a :: l => by
    by_cases ha : P a = true
    · rw [List.filter_cons_of_pos ha]
      rw [List.cons_diff_of_mem (List.mem_cons_self a _)]
      simp only [List.erase_cons_head]
      rw [diff_filter_self P l]
      simp [ha]
    · rw [List.filter_cons_of_neg ha]
      rw [List.cons_diff_of_not_mem (fun h => ha (List.mem_filter.1 h).2)]
      rw [diff_filter_self P l]
      simp [ha]

theorem removeOne_eq_erase (l : List Bubble) (b : Bubble)
    (h : ∀ a ∈ l, a.ptr = b.ptr → a = b) : removeOne l b.ptr = l.erase b := by
  induction l with
  | nil => rfl
  | cons a l ih =>
    unfold removeOne
    by_cases ha : a.ptr = b.ptr
    · have := h a (List.mem_cons_self a l) ha
      subst this
      simp
    · have hne : a ≠ b := fun e => ha (by rw [e])
      rw [if_neg ha, List.erase_cons_tail (by simpa using hne),
        ih (fun x hx => h x (List.mem_cons_of_mem a hx))]

/-- The first loop of `CloseNotification` changes the queue and the effect log
only. -/
theorem foldl_closeBubbleStep (id : Nat) :
    ∀ (copy : List Bubble) (s : State),
      ∃ g, copy.foldl (closeBubbleStep id) s
        = { s with
            m_bubbleList := copy.foldl (fun cur b =>
              if b.entity.replacesId = id then removeOne cur b.ptr else cur) s.m_bubbleList,
            fx := s.fx ++ g }
  | [], s => ⟨[], by simp⟩
  | b :: copy, s => by
    rw [List.foldl_cons, List.foldl_cons]
    obtain ⟨g, e⟩ := foldl_closeBubbleStep id copy (closeBubbleStep id s b)
    rw [e]
    unfold closeBubbleStep
    by_cases hb : b.entity.replacesId = id
    · simp only [hb, if_true]
      exact ⟨Effect.close b.ptr :: g, by simp⟩
    · simp only [hb, if_false]
      exact ⟨g, rfl⟩

theorem foldl_removeOne_erase (id : Nat) :
    ∀ (copy cur : List Bubble), (∀ b ∈ copy, ∀ a ∈ cur, a.ptr = b.ptr → a = b) →
      copy.foldl (fun cur b =>
          if b.entity.replacesId = id then removeOne cur b.ptr else cur) cur
        = copy.foldl (fun cur b =>
          if decide (b.entity.replacesId = id) then cur.erase b else cur) cur
  | [], cur, _ => rfl
  | b :: copy, cur, h => by
    rw [List.foldl_cons, List.foldl_cons]
    have hb := removeOne_eq_erase cur b (h b (List.mem_cons_self b copy))
    by_cases hm : b.entity.replacesId = id
    · simp only [hm, if_true, decide_True]
      rw [← hm, hb]
      rw [hm]
      have := foldl_removeOne_erase id copy (cur.erase b)
        (fun x hx a ha => h x (List.mem_cons_of_mem b hx) a (List.mem_of_mem_erase ha))
      simpa [hm] using this
    · simp only [hm, if_false, decide_False, Bool.false_eq_true]
      exact foldl_removeOne_erase id copy cur
        (fun x hx a ha => h x (List.mem_cons_of_mem b hx) a ha)

/-- The second loop of `CloseNotification` changes the overflow list only. -/
theorem foldl_closeEntityStep (id : Nat) :
    ∀ (copy : List NotificationEntity) (s : State),
      copy.foldl (closeEntityStep id) s
        = { s with
            m_oldEntities := copy.foldl (fun cur e =>
              if decide (e.replacesId = id) then cur.erase e else cur) s.m_oldEntities }
  | [], s => by simp
  | e :: copy, s => by
    rw [List.foldl_cons, List.foldl_cons, foldl_closeEntityStep id copy]
    unfold closeEntityStep
    by_cases he : e.replacesId = id
    · simp [he]
    · simp [he]

/-- C25: after `CloseNotification(id)` the queue is the previous queue without
the bubbles whose notification has `replacesId == id`, the overflow list is the
previous one without the entries with `replacesId == id`, both in their order
and whatever the `appName`; history sink, id counter and bubble allocator are
as before, so no bubble is created and no overflow entry promoted. -/
theorem C25_CloseNotification_postcondition (s : State) (id : Nat)
    (hobj : ∀ b ∈ s.m_bubbleList, ∀ a ∈ s.m_bubbleList, a.ptr = b.ptr → a = b) :
    (CloseNotification s id).m_bubbleList
        = s.m_bubbleList.filter (fun b => !decide (b.entity.replacesId = id))
      ∧ (CloseNotification s id).m_oldEntities
        = s.m_oldEntities.filter (fun e => !decide (e.replacesId = id))
      ∧ (CloseNotification s id).persistence = s.persistence
      ∧ (CloseNotification s id).m_replaceCount = s.m_replaceCount
      ∧ (CloseNotification s id).nextPtr = s.nextPtr := by
  obtain ⟨g, e⟩ := foldl_closeBubbleStep id s.m_bubbleList s
  unfold CloseNotification
  simp only [e, foldl_closeEntityStep]
  rw [foldl_removeOne_erase id _ _ hobj,
    foldl_erase_diff (fun b : Bubble => decide (b.entity.replacesId = id)),
    foldl_erase_diff (fun e : NotificationEntity => decide (e.replacesId = id)),
    diff_filter_self, diff_filter_self]
  simp

/-- An instance of C25: closing id 2 in a sample queue with overflow. -/
theorem C25_CloseNotification_postcondition_witness :
    (CloseNotification (sampleState [1, 2, 3] [2, 8]) 2).m_bubbleList
        = (sampleState [1, 2, 3] [2, 8]).m_bubbleList.filter
            (fun b => !decide (b.entity.replacesId = 2))
      ∧ (CloseNotification (sampleState [1, 2, 3] [2, 8]) 2).m_oldEntities
        = (sampleState [1, 2, 3] [2, 8]).m_oldEntities.filter
            (fun e => !decide (e.replacesId = 2))
      ∧ (CloseNotification (sampleState [1, 2, 3] [2, 8]) 2).persistence
        = (sampleState [1, 2, 3] [2, 8]).persistence
      ∧ (CloseNotification (sampleState [1, 2, 3] [2, 8]) 2).m_replaceCount
        = (sampleState [1, 2, 3] [2, 8]).m_replaceCount
      ∧ (CloseNotification (sampleState [1, 2, 3] [2, 8]) 2).nextPtr
        = (sampleState [1, 2, 3] [2, 8]).nextPtr :=
  C25_CloseNotification_postcondition (sampleState [1, 2, 3] [2, 8]) 2 (by decide)

/-! ## What goes to the history sink -/

theorem pushBubble_persistence (c : Constants) (s t : State) (n : NotificationEntity)
    (h : pushBubble c s n = some t) : t.persistence = s.persistence := by
  obtain ⟨b, l, g, e, _⟩ := pushBubble_some c s t n h
  rw [e]

theorem afterHistory_persistence (c : Constants) (env : Env) (s : State) (a : NotifyArgs) :
    (afterHistory c env s a).persistence
      = (afterReplace c env s a).2.2.persistence
          ++ (if (newNotification c env a).showInNotifyCenter then
                [(afterReplace c env s a).2.1] else []) := by
  unfold afterHistory
  by_cases h : (newNotification c env a).showInNotifyCenter = true
  · simp [h, addOne]
  · simp [h]

theorem afterReplace_persistence (c : Constants) (env : Env) (s : State) (a : NotifyArgs) :
    (afterReplace c env s a).2.2.persistence
      = s.persistence
          ++ (if a.replacesId = 0 then []
              else (s.m_bubbleList.filter
                (fun b => matchesNotify b.entity (newNotification c env a))).map Bubble.entity)
    ∧ (afterReplace c env s a).1
      = (if a.replacesId = 0 then false
         else s.m_bubbleList.any (fun b => matchesNotify b.entity (newNotification c env a))) := by
  obtain ⟨g, e, _⟩ := afterReplace_eq c env s a
  rw [e]
  by_cases h0 : a.replacesId = 0
  · rw [calcReplaceId_fresh c s _ (show (newNotification c env a).replacesId = 0 from h0)]
    simp [h0]
  · rw [calcReplaceId_replace c s _ (show (newNotification c env a).replacesId ≠ 0 from h0)]
    simp [h0]

/-- C26: an accepted submission with the built-in bubbles that replaces no live
bubble adds the new notification to the history sink once when its
`showInNotifyCenter` is set (always for a system sender, the setting of the
application otherwise) and adds nothing when it is not, whatever do-not-disturb,
the lock state and the bubble decision are; a submission that replaces live
bubbles adds the old entities of these bubbles and not the new notification. -/
theorem C26_history_follows_setting (c : Constants) (env : Env) (s : State) (a : NotifyArgs)
    (hacc : suppressed c env a = false) (hb : env.useBuiltinBubble = true) :
    ((a.replacesId = 0 ∨ ∀ b ∈ s.m_bubbleList,
          ¬ (b.entity.replacesId = a.replacesId ∧ b.entity.appName = a.appName)) →
        ∀ (id : Nat) (t : State), Notify c env s a = some (id, t) →
          t.persistence = s.persistence
            ++ (if (newNotification c env a).showInNotifyCenter then
                  [(afterReplace c env s a).2.1] else []))
    ∧ ((a.replacesId ≠ 0 ∧ ∃ b ∈ s.m_bubbleList,
          b.entity.replacesId = a.replacesId ∧ b.entity.appName = a.appName) →
        ∀ (id : Nat) (t : State), Notify c env s a = some (id, t) →
          t.persistence = s.persistence
            ++ (s.m_bubbleList.filter (fun b =>
                  decide (b.entity.replacesId = a.replacesId)
                    && decide (b.entity.appName = a.appName))).map Bubble.entity)
    ∧ (newNotification c env a).showInNotifyCenter
        = (c.IgnoreList.contains a.appName
            || (getAppSetting env a.appName .SHOWINNOTIFICATIONCENTER).toBool)
    ∧ ((afterReplace c env s a).2.1.appName = a.appName
        ∧ (afterReplace c env s a).2.1.summary = a.summary
        ∧ (afterReplace c env s a).2.1.ctime = env.currentMSecs)
    ∧ (1 ≤ c.BubbleEntities → s.m_bubbleList.length ≤ c.BubbleEntities + c.BubbleOverLap →
        ∃ id t, Notify c env s a = some (id, t)) := by
  have hNot := Notify_accepted_eq c env s a hacc
  obtain ⟨hpers, hfind⟩ := afterReplace_persistence c env s a
  refine ⟨?_, ?_, ?_, ?_, ?_⟩
  · intro hno id t h
    obtain ⟨hf, _⟩ := afterReplace_unmatched c env s a hno
    have hp0 : (afterReplace c env s a).2.2.persistence = s.persistence := by
      rw [hpers]
      by_cases h0 : a.replacesId = 0
      · simp [h0]
      · have hno2 := nomatch_of_args c env s a (hno.resolve_left h0)
        have : s.m_bubbleList.filter
            (fun b => matchesNotify b.entity (newNotification c env a)) = [] := by
          rw [List.filter_eq_nil_iff]
          intro b hb2
          simp [hno2 b hb2]
        simp [h0, this]
    rw [hNot] at h
    simp only [hf, hb, if_true, Option.map_eq_some', Prod.mk.injEq] at h
    obtain ⟨t1, h1, _, rfl⟩ := h
    by_cases hs : bubbleShown c env a = true
    · simp only [hs, if_true] at h1
      rw [pushBubble_persistence c _ _ _ h1, afterHistory_persistence, hp0]
    · simp only [hs, Bool.false_eq_true, if_false, Option.some.injEq] at h1
      rw [← h1, afterHistory_persistence, hp0]
  · rintro ⟨h0, b, hb1, hm⟩ id t h
    have hany : (afterReplace c env s a).1 = true := by
      rw [hfind, if_neg h0, List.any_eq_true]
      refine ⟨b, hb1, ?_⟩
      rw [matchesNotify_new]
      simp [hm.1, hm.2]
    rw [hNot] at h
    simp only [hany, hb, Bool.true_eq_false, if_false, Option.map_eq_some',
      Prod.mk.injEq] at h
    obtain ⟨t1, h1, _, rfl⟩ := h
    simp only [Option.some.injEq] at h1
    rw [← h1, hpers, if_neg h0]
    rfl
  · unfold newNotification
    by_cases hsys : c.IgnoreList.contains a.appName = true
    · simp [hsys]
    · simp [hsys]
  · by_cases h0 : a.replacesId = 0
    · obtain ⟨g, e⟩ := afterReplace_fresh c env s a h0
      rw [e]
      exact ⟨rfl, rfl, rfl⟩
    · obtain ⟨l, pers, g, e, _⟩ := afterReplace_replace c env s a h0
      rw [e]
      exact ⟨rfl, rfl, rfl⟩
  · intro hN hlen
    obtain ⟨id, t, e, _⟩ := Notify_total c env s a hN hlen
    exact ⟨id, t, e⟩

/-- An instance of C26: a fresh submission of the sample application under
do-not-disturb. -/
theorem C26_history_follows_setting_witness :
    ∃ id t, Notify sampleConstants sampleQuietEnv (sampleState [1, 2] []) (sampleArgs "app" 0)
      = some (id, t) :=
  (C26_history_follows_setting sampleConstants sampleQuietEnv (sampleState [1, 2] [])
    (sampleArgs "app" 0) (by decide) (by decide)).2.2.2.2 (by decide) (by decide)

/-! ## Overflow behind a queue that is not full -/

theorem reachableService_runOperations (c : Constants) :
    ∀ (ops : List Operation) (s t : State), ReachableService c s →
      runOperations c s ops = some t → ReachableService c t
  | [], s, t, hs, h => by
    simp only [runOperations, Option.some.injEq] at h
    subst h
    exact hs
  | op :: rest, s, t, hs, h => by
    rw [runOperations] at h
    cases h1 : applyOperation c s op with
    | none => simp [h1] at h
    | some u =>
      simp only [h1] at h
      refine reachableService_runOperations c rest u t ?_ h
      cases op with
      | notify env a =>
        simp only [applyOperation, Option.map_eq_some'] at h1
        obtain ⟨r, hr, rfl⟩ := h1
        exact ReachableService.notify env a r.1 hs hr
      | pop bubble =>
        simp only [applyOperation] at h1
        by_cases hp : bubble ∈ s.m_bubbleList.map Bubble.ptr
        · rw [if_pos hp] at h1
          exact ReachableService.pop bubble hs hp h1
        · rw [if_neg hp] at h1
          cases h1
      | close id =>
        simp only [applyOperation, Option.some.injEq] at h1
        subst h1
        exact ReachableService.close id hs
      | popAll =>
        simp only [applyOperation, Option.some.injEq] at h1
        subst h1
        exact ReachableService.popAll hs

theorem skipRemove_nil_of_nil (n : NotificationEntity) (l : List NotificationEntity)
    (h : skipRemove n l ≠ []) : l ≠ [] := by
  intro hl
  subst hl
  exact h (by simp [skipRemove])

/-- The queue length and the overflow list after `calcReplaceId` in an accepted
submission. -/
theorem afterReplace_queue (c : Constants) (env : Env) (s : State) (a : NotifyArgs) :
    (afterReplace c env s a).2.2.m_bubbleList.length = s.m_bubbleList.length
      ∧ ((afterReplace c env s a).2.2.m_oldEntities ≠ [] → s.m_oldEntities ≠ []) := by
  by_cases h0 : a.replacesId = 0
  · obtain ⟨g, e⟩ := afterReplace_fresh c env s a h0
    rw [e]
    exact ⟨rfl, fun h => h⟩
  · obtain ⟨l, pers, g, e, hk⟩ := afterReplace_replace c env s a h0
    rw [e]
    refine ⟨?_, fun h => skipRemove_nil_of_nil _ _ h⟩
    have := congrArg List.length hk
    simpa using this

/-- A submission keeps the overflow list empty unless the queue is full. -/
theorem Notify_queue_inv (c : Constants) (env : Env) (s t : State) (a : NotifyArgs) (id : Nat)
    (hN : 1 ≤ c.BubbleEntities)
    (hlen : s.m_bubbleList.length ≤ c.BubbleEntities + c.BubbleOverLap)
    (hfull : s.m_oldEntities ≠ [] →
      s.m_bubbleList.length = c.BubbleEntities + c.BubbleOverLap)
    (h : Notify c env s a = some (id, t)) :
    t.m_bubbleList.length ≤ c.BubbleEntities + c.BubbleOverLap
      ∧ (t.m_oldEntities ≠ [] →
          t.m_bubbleList.length = c.BubbleEntities + c.BubbleOverLap) := by
  cases hs : suppressed c env a with
  | true =>
    rw [Notify_suppressed c env s a hs] at h
    simp only [Option.some.injEq, Prod.mk.injEq] at h
    obtain ⟨_, rfl⟩ := h
    exact ⟨hlen, hfull⟩
  | false =>
    obtain ⟨hl1, hl2, _, _⟩ := afterHistory_lists c env s a
    obtain ⟨hq1, hq2⟩ := afterReplace_queue c env s a
    have hR : (afterReplace c env s a).2.2.m_bubbleList.length
          ≤ c.BubbleEntities + c.BubbleOverLap
        ∧ ((afterReplace c env s a).2.2.m_oldEntities ≠ [] →
            (afterReplace c env s a).2.2.m_bubbleList.length
              = c.BubbleEntities + c.BubbleOverLap) :=
      ⟨by rw [hq1]; exact hlen, fun ho => by rw [hq1]; exact hfull (hq2 ho)⟩
    have hH : (afterHistory c env s a).m_bubbleList.length
          ≤ c.BubbleEntities + c.BubbleOverLap
        ∧ ((afterHistory c env s a).m_oldEntities ≠ [] →
            (afterHistory c env s a).m_bubbleList.length
              = c.BubbleEntities + c.BubbleOverLap) := by
      rw [hl1, hl2]; exact hR
    rw [Notify_accepted_eq c env s a hs] at h
    simp only [Option.map_eq_some', Prod.mk.injEq] at h
    obtain ⟨t1, h1, _, rfl⟩ := h
    split_ifs at h1 with hf hsh hb hb2
    · obtain ⟨t2, e2, i1, i2⟩ := pushBubble_queue_total c (afterHistory c env s a)
        (afterReplace c env s a).2.1 hN hH.1 hH.2
      rw [e2] at h1
      simp only [Option.some.injEq] at h1
      subst h1
      exact ⟨i1, i2⟩
    · simp only [Option.some.injEq] at h1
      subst h1
      exact hH
    · simp only [Option.some.injEq] at h1
      subst h1
      exact hH
    · simp only [Option.some.injEq] at h1
      subst h1
      exact hH
    · simp only [Option.some.injEq] at h1
      subst h1
      exact hR

/-- In the states that `Notify` and `popBubble` of a live bubble reach from the
empty manager the overflow list is empty unless the queue holds `N + K`
bubbles, and `popBubble` of a live bubble completes. -/
theorem reachableShown_overflow_full (c : Constants) (s : State) (hN : 1 ≤ c.BubbleEntities)
    (h : ReachableShown c s) :
    s.m_bubbleList.length ≤ c.BubbleEntities + c.BubbleOverLap
      ∧ (s.m_oldEntities ≠ [] → s.m_bubbleList.length = c.BubbleEntities + c.BubbleOverLap)
      ∧ (∀ p ∈ s.m_bubbleList.map Bubble.ptr, ∃ t, popBubble c s p = some t) := by
  have inv : s.m_bubbleList.length ≤ c.BubbleEntities + c.BubbleOverLap
      ∧ (s.m_oldEntities ≠ [] →
          s.m_bubbleList.length = c.BubbleEntities + c.BubbleOverLap) := by
    induction h with
    | init display dock pos => simp [emptyManager]
    | notify env a id _ hn ih => exact Notify_queue_inv c env _ _ a id hN ih.1 ih.2 hn
    | pop bubble _ hp hpop ih =>
      obtain ⟨t, e, h1, h2⟩ := popBubble_live_total c _ bubble hN ih.1 ih.2 hp
      rw [e] at hpop
      simp only [Option.some.injEq] at hpop
      subst hpop
      exact ⟨h1, h2⟩
  refine ⟨inv.1, inv.2, fun p hp => ?_⟩
  obtain ⟨t, e, _⟩ := popBubble_live_total c s p hN inv.1 inv.2 hp
  exact ⟨t, e⟩

/-- C27 (code at the failing input): six fresh submissions fill the queue of
five and put one notification in overflow; `popAllBubblesImmediately` then
empties the queue and leaves the overflow list, so a notification waits in
overflow behind an empty queue. -/
theorem C27_overflow_behind_empty_queue :
    ∃ s, ReachableService sampleConstants s
      ∧ s.m_bubbleList = []
      ∧ s.m_oldEntities.map (fun e => e.id) = [1]
      ∧ s.m_oldEntities ≠ []
      ∧ s.m_bubbleList.length
          ≠ sampleConstants.BubbleEntities + sampleConstants.BubbleOverLap := by
  have key : (runOperations sampleConstants sampleEmpty sampleFillHide).map
      (fun s => (s.m_bubbleList.map Bubble.ptr, s.m_oldEntities.map (fun e => e.id)))
      = some ([], [1]) := by
    decide
  cases h : runOperations sampleConstants sampleEmpty sampleFillHide with
  | none => rw [h] at key; simp at key
  | some s =>
    rw [h] at key
    simp only [Option.map_some', Option.some.injEq, Prod.mk.injEq, List.map_eq_nil_iff] at key
    refine ⟨s, reachableService_runOperations sampleConstants sampleFillHide sampleEmpty s
      (ReachableService.init _ _ _) h, key.1, key.2, ?_, ?_⟩
    · intro ho
      rw [ho] at key
      simp at key
    · rw [key.1]
      decide

/-- C24 (code at the failing input): six fresh submissions,
`popAllBubblesImmediately` and one more submission leave one bubble in the queue
and one notification in overflow; `popBubble` of that bubble runs
`refreshBubble`, whose `createBubble` asks for `getBubbleGeometry(N + K)`, and
`getBubbleHeightBefore(2)` reads `m_bubbleList[1]` of a list of length 1. -/
theorem C24_short_queue_read_out_of_bounds :
    ∃ s, ReachableService sampleConstants s
      ∧ s.m_bubbleList.map Bubble.ptr = [6]
      ∧ s.m_oldEntities.map (fun e => e.id) = [1]
      ∧ s.m_bubbleList[1]? = none
      ∧ getBubbleHeightBefore s 2 = none
      ∧ getBubbleGeometry sampleConstants s 5 = none
      ∧ refreshBubble sampleConstants s = none
      ∧ popBubble sampleConstants s 6 = none := by
  have key : (runOperations sampleConstants sampleEmpty sampleFillHideShow).map
        (fun s => (s.m_bubbleList.map Bubble.ptr, s.m_oldEntities.map (fun e => e.id)))
        = some ([6], [1])
      ∧ (runOperations sampleConstants sampleEmpty sampleFillHideShow).map
        (fun s => (getBubbleHeightBefore s 2, getBubbleGeometry sampleConstants s 5))
        = some (none, none)
      ∧ (runOperations sampleConstants sampleEmpty sampleFillHideShow).map
        (fun s => ((refreshBubble sampleConstants s).isSome,
                   (popBubble sampleConstants s 6).isSome))
        = some (false, false) := by
    decide
  cases h : runOperations sampleConstants sampleEmpty sampleFillHideShow with
  | none => rw [h] at key; simp at key
  | some s =>
    rw [h] at key
    simp only [Option.map_some', Option.some.injEq, Prod.mk.injEq] at key
    obtain ⟨⟨k1, k2⟩, ⟨k3, k4⟩, k5, k6⟩ := key
    have k5n : refreshBubble sampleConstants s = none := by
      cases hr : refreshBubble sampleConstants s with
      | none => rfl
      | some u => rw [hr] at k5; cases k5
    have k6n : popBubble sampleConstants s 6 = none := by
      cases hr : popBubble sampleConstants s 6 with
      | none => rfl
      | some u => rw [hr] at k6; cases k6
    refine ⟨s, reachableService_runOperations sampleConstants sampleFillHideShow sampleEmpty s
      (ReachableService.init _ _ _) h, k1, k2, ?_, k3, k4, k5n, k6n⟩
    have hl : s.m_bubbleList.length = 1 := by
      have := congrArg List.length k1
      simpa using this
    exact List.getElem?_eq_none (by omega)

end DdeOsd
